import Mathlib

/-!
# nodencl: the memory object of `src/cl_memory.cc`

A shallow embedding of `clMemory` (the memory object) and `gpuMemory` (the
device-access guard).  Member functions become functions on an explicit
object state `clMemory` and an explicit device `Device`.

* Pointers and OpenCL handles are natural numbers, `0` being `nullptr`.
* Every OpenCL entry point the source calls is a `DevCall`; the device
  answers each call with the next `Reply` of an arbitrary stream, so a
  theorem that quantifies over the device quantifies over every pattern of
  successes, failures, handles and addresses.  The calls issued, each with
  the reply it got, are recorded in order in `Device.trace`.
* A function returns `none` where the C++ does not return: a
  `std::vector::at` that throws, an out-of-bounds array access, a `memcpy`
  outside the mapped region.
* `PASS_CL_ERROR`, a macro of `noden_util.h` (not among the sources), is taken
  to be `if (error != CL_SUCCESS) return error;`: the spec has every device
  error propagated at once to the caller.
* `printf` logging is not modelled.
-/

namespace NodenCL

/-! ## Constants of `CL/cl.h` -/

def CL_SUCCESS : Int := 0
def CL_MAP_FAILURE : Int := -12
def CL_FALSE : Nat := 0
def CL_TRUE : Nat := 1
def CL_BLOCKING : Nat := CL_TRUE
def CL_NON_BLOCKING : Nat := CL_FALSE
def CL_MEM_READ_WRITE : Nat := 1
def CL_MEM_WRITE_ONLY : Nat := 2
def CL_MEM_READ_ONLY : Nat := 4
def CL_MEM_ALLOC_HOST_PTR : Nat := 16
def CL_MEM_HOST_NO_ACCESS : Nat := 512
def CL_MAP_READ : Nat := 1
def CL_MAP_WRITE : Nat := 2
def CL_MAP_WRITE_INVALIDATE_REGION : Nat := 4
def CL_MEM_OBJECT_IMAGE2D : Nat := 0x10F1
def CL_MEM_OBJECT_IMAGE3D : Nat := 0x10F2
def CL_IMAGE_WIDTH : Nat := 0x1114
def CL_IMAGE_HEIGHT : Nat := 0x1115
def CL_IMAGE_DEPTH : Nat := 0x1116
def CL_RGBA : Nat := 0x10B5
def CL_FLOAT : Nat := 0x10DE

/-! ## Types declared in headers that are not part of the sources -/

/-- Modelled from the spec: `enum class eMemFlags` of `cl_memory.h` (the header
is not among the sources).  The source names the four values `NONE`,
`READONLY`, `WRITEONLY`, `READWRITE`; the spec lists them as
`{none, read, write, read-write}`. -/
inductive eMemFlags where
  | NONE
  | READWRITE
  | WRITEONLY
  | READONLY
deriving DecidableEq, Repr

/-- Modelled from the spec: `enum class eSvmType` of `cl_memory.h` (the header
is not among the sources).  The source switches over `FINE`, `COARSE` and
`NONE`; the spec lists the residency modes `{none, coarse-shared,
fine-shared}`. -/
inductive eSvmType where
  | NONE
  | COARSE
  | FINE
deriving DecidableEq, Repr

/-- Modelled from the spec: `iKernelArg::eAccess` of `noden_program.h` (the
header is not among the sources): the access mode of a kernel argument,
`{read-only, write-only, read-write}`.  The source only ever compares it with
`WRITEONLY`. -/
inductive eAccess where
  | READONLY
  | WRITEONLY
  | READWRITE
deriving DecidableEq, Repr

/-- The nested `enum class eMemLatest : uint8_t { BUFFER = 0, SAME = 1, IMAGE = 2 }`. -/
inductive eMemLatest where
  | BUFFER
  | SAME
  | IMAGE
deriving DecidableEq, Repr

/-! ## The device -/

/-- What `void *&kernelMem` points at when `getKernelMem` returns: the address
of one of the two handle fields, or the host buffer. -/
inductive KernelMemRef where
  | null
  | pinnedMem
  | imageMem
  | hostBuf
deriving DecidableEq, Repr

/-- What `clSetKernelArg` reads through `arg_value`: the `cl_mem` stored in the
field pointed at, or the first bytes of the host buffer at the given address. -/
inductive KernelArgValue where
  | null
  | memHandle (h : Nat)
  | hostBytes (p : Nat)
deriving DecidableEq, Repr

/-- The OpenCL entry points called by `cl_memory.cc`, with the arguments the
source passes (event lists, always empty, and `sizeof` arguments are left out). -/
inductive DevCall where
  | clCreateBuffer (context flags size : Nat)
  | clEnqueueMapBuffer (queue buffer blockingMap mapFlags offset size : Nat)
  | clEnqueueUnmapMemObject (queue memobj mappedPtr : Nat)
  | clGetImageInfo (image paramName : Nat)
  | clEnqueueCopyImageToBuffer (queue srcImage dstBuffer : Nat) (region : Nat × Nat × Nat)
  | clEnqueueCopyBufferToImage (queue srcBuffer dstImage : Nat) (region : Nat × Nat × Nat)
  | clCreateImage (context flags channelOrder channelType imageType width height depth : Nat)
  | clReleaseMemObject (memobj : Nat)
  | clSetKernelArg (kernel argIndex : Nat) (argValue : KernelArgValue)
deriving DecidableEq, Repr

/-- What the device hands back for one call: the status code, and the value
the call produces (a handle, a mapped address or an image extent). -/
structure Reply where
  status : Int
  value : Nat
deriving DecidableEq, Repr

/-- One device call together with the reply it received. -/
structure Event where
  call : DevCall
  reply : Reply
deriving DecidableEq, Repr

/-- Modelled from the spec: the OpenCL runtime, an external collaborator that
is not part of the sources, as the scripted double the spec's testable
properties describe (one that counts calls, injects failures, varies the
mapped address and copies through).  `replies` is the stream of answers to the
coming calls, `trace` the calls issued so far, oldest first.  `pinned` holds
the bytes of the linear buffer, which is created with `CL_MEM_ALLOC_HOST_PTR`
and whose backing store is what the host sees through `mHostBuf`; `image`
holds the bytes of the image allocation.  A successful image-to-buffer copy
overwrites `pinned` with `image`, a successful buffer-to-image copy overwrites
`image` with `pinned`; no other call touches the contents. -/
structure Device where
  replies : Nat → Reply
  trace : List Event
  pinned : List Nat
  image : List Nat

/-- The reply the next device call will receive. -/
def Device.next (dev : Device) : Reply := dev.replies 0

/-- The data effect of a call that got reply `r`. -/
def Device.transfer (dev : Device) (c : DevCall) (r : Reply) : Device :=
  match c with
  | .clEnqueueCopyImageToBuffer _ _ _ _ =>
    if r.status = CL_SUCCESS then { dev with pinned := dev.image } else dev
  | .clEnqueueCopyBufferToImage _ _ _ _ =>
    if r.status = CL_SUCCESS then { dev with image := dev.pinned } else dev
  | _ => dev

/-- Issue one device call: it consumes the next reply and is appended to the trace. -/
def Device.issue (dev : Device) (c : DevCall) : Device :=
  Device.transfer
    { dev with replies := fun i => dev.replies (i + 1), trace := dev.trace ++ [⟨c, dev.next⟩] }
    c dev.next

/-! ## The memory object -/

/-- The data members of `class clMemory`. -/
structure clMemory where
  mContext : Nat
  mCommandQueues : List Nat
  mMemFlags : eMemFlags
  mSvmType : eSvmType
  mNumBytes : Nat
  mDevInfo : Nat
  mImageDims : Nat × Nat × Nat
  mPinnedMem : Nat
  mImageMem : Nat
  mHostBuf : Nat
  mGpuLocked : Bool
  mHostMapped : Bool
  mMapFlags : eMemFlags
  mMemLatest : eMemLatest
deriving DecidableEq, Repr

/-- Outcome of a member function that returns a `cl_int`. -/
structure Ret where
  error : Int
  obj : clMemory
  dev : Device

/-- Outcome of `allocate`, which returns a `bool`. -/
structure AllocRet where
  ok : Bool
  obj : clMemory
  dev : Device

/-- Outcome of `getKernelMem`: the status and the two by-reference outputs. -/
structure KernelMemRet where
  error : Int
  isSVM : Bool
  kernelMem : KernelMemRef
  obj : clMemory
  dev : Device

/-- The constructor `clMemory::clMemory`. -/
def clMemory.create (context : Nat) (commandQueues : List Nat) (memFlags : eMemFlags)
    (svmType : eSvmType) (numBytes : Nat) (devInfo : Nat) (imageDims : Nat × Nat × Nat) :
    clMemory :=
  { mContext := context, mCommandQueues := commandQueues, mMemFlags := memFlags,
    mSvmType := svmType, mNumBytes := numBytes, mDevInfo := devInfo, mImageDims := imageDims,
    mPinnedMem := 0, mImageMem := 0, mHostBuf := 0, mGpuLocked := false, mHostMapped := false,
    mMapFlags := eMemFlags.NONE, mMemLatest := eMemLatest.BUFFER }

/-- The accessor `hostBuf()`. -/
def clMemory.hostBuf (s : clMemory) : Nat := s.mHostBuf

/-- The accessor `hasDimensions()`. -/
def clMemory.hasDimensions (s : clMemory) : Bool := decide (s.mImageDims.1 > 0)

/-- The allocation flags chosen from `mMemFlags` (in `allocate` and `getKernelMem`). -/
def clMemFlagsOf (memFlags : eMemFlags) : Nat :=
  if memFlags = eMemFlags.READONLY then CL_MEM_READ_ONLY
  else if memFlags = eMemFlags.WRITEONLY then CL_MEM_WRITE_ONLY
  else CL_MEM_READ_WRITE

/-- The private `getCommandQueue`: an out-of-range index falls back to `0`;
`mCommandQueues.at(q)` throws on an empty vector. -/
def getCommandQueue (s : clMemory) (queueNum : Nat) : Option Nat :=
  let q := if queueNum ≥ s.mCommandQueues.length % 2 ^ 32 then 0 else queueNum
  s.mCommandQueues[q]?

/-- The member `allocate`. -/
def allocate (s : clMemory) (dev : Device) : Option AllocRet :=
  let clMemFlags := clMemFlagsOf s.mMemFlags
  match s.mSvmType with
  | eSvmType.FINE => some ⟨decide (s.mHostBuf ≠ 0), s, dev⟩
  | eSvmType.COARSE => some ⟨decide (s.mHostBuf ≠ 0), s, dev⟩
  | eSvmType.NONE =>
    let r := dev.next
    let dev1 := dev.issue (.clCreateBuffer s.mContext (clMemFlags ||| CL_MEM_ALLOC_HOST_PTR) s.mNumBytes)
    let s1 := { s with mPinnedMem := r.value }
    let mapFlags1 :=
      if s.mMemFlags = eMemFlags.READONLY then eMemFlags.WRITEONLY else eMemFlags.READWRITE
    if r.status = CL_SUCCESS then
      let clMapFlags :=
        if s.mMemFlags = eMemFlags.READONLY then CL_MAP_WRITE_INVALIDATE_REGION
        else if s.mMemFlags = eMemFlags.WRITEONLY then CL_MAP_READ
        else CL_MAP_READ ||| CL_MAP_WRITE
      match s.mCommandQueues[0]? with
      | none => none
      | some q =>
        let rm := dev1.next
        let dev2 := dev1.issue (.clEnqueueMapBuffer q s1.mPinnedMem CL_TRUE clMapFlags 0 s.mNumBytes)
        let s2 := { s1 with mHostBuf := rm.value, mHostMapped := true, mMapFlags := mapFlags1 }
        some ⟨decide (s2.mHostBuf ≠ 0), s2, dev2⟩
    else
      let s2 := { s1 with mHostMapped := true, mMapFlags := mapFlags1 }
      some ⟨decide (s2.mHostBuf ≠ 0), s2, dev1⟩

/-- The member `getGPUMemory`: sets the lock; the guard it returns holds nothing
but a pointer back to the object. -/
def getGPUMemory (s : clMemory) : clMemory := { s with mGpuLocked := true }

/-- The private `onGpuReturn`, called by the guard's destructor. -/
def onGpuReturn (s : clMemory) : clMemory := { s with mGpuLocked := false }

/-- The destructor `gpuMemory::~gpuMemory`. -/
def gpuMemory.destroy (s : clMemory) : clMemory := onGpuReturn s

/-- The private `unmapMem`. -/
def unmapMem (queueNum : Nat) (s : clMemory) (dev : Device) : Option Ret :=
  if s.mHostMapped then
    if s.mSvmType = eSvmType.NONE then
      match getCommandQueue s queueNum with
      | none => none
      | some q =>
        some ⟨dev.next.status, { s with mHostMapped := false, mMapFlags := eMemFlags.NONE },
          dev.issue (.clEnqueueUnmapMemObject q s.mPinnedMem s.mHostBuf)⟩
    else
      some ⟨CL_SUCCESS, { s with mHostMapped := false, mMapFlags := eMemFlags.NONE }, dev⟩
  else some ⟨CL_SUCCESS, s, dev⟩

/-- The private `copyImageToBuffer`.  `PASS_CL_ERROR` (of `noden_util.h`, not
among the sources) returns `error` at once when it is not `CL_SUCCESS`. -/
def copyImageToBuffer (queueNum : Nat) (s : clMemory) (dev : Device) : Option Ret :=
  if s.mImageMem ≠ 0 then
    let rW := dev.next
    let dev1 := dev.issue (.clGetImageInfo s.mImageMem CL_IMAGE_WIDTH)
    if rW.status ≠ CL_SUCCESS then some ⟨rW.status, s, dev1⟩ else
    let rH := dev1.next
    let dev2 := dev1.issue (.clGetImageInfo s.mImageMem CL_IMAGE_HEIGHT)
    if rH.status ≠ CL_SUCCESS then some ⟨rH.status, s, dev2⟩ else
    let rD := dev2.next
    let dev3 := dev2.issue (.clGetImageInfo s.mImageMem CL_IMAGE_DEPTH)
    if rD.status ≠ CL_SUCCESS then some ⟨rD.status, s, dev3⟩ else
    let region : Nat × Nat × Nat :=
      (rW.value, if rH.value ≠ 0 then rH.value else 1, if rD.value ≠ 0 then rD.value else 1)
    match getCommandQueue s queueNum with
    | none => none
    | some q =>
      let rC := dev3.next
      let dev4 := dev3.issue (.clEnqueueCopyImageToBuffer q s.mImageMem s.mPinnedMem region)
      if rC.status ≠ CL_SUCCESS then some ⟨rC.status, s, dev4⟩ else
      some ⟨rC.status, { s with mMemLatest := eMemLatest.SAME }, dev4⟩
  else some ⟨CL_SUCCESS, s, dev⟩

/-- The member `setHostAccess`. -/
def setHostAccess (haFlags : eMemFlags) (queueNum : Nat) (s : clMemory) (dev : Device) :
    Option Ret :=
  if s.mGpuLocked then some ⟨CL_MAP_FAILURE, s, dev⟩ else
  match (if s.mHostMapped ∧ haFlags ≠ s.mMapFlags then unmapMem queueNum s dev
         else some ⟨CL_SUCCESS, s, dev⟩) with
  | none => none
  | some u =>
    if u.error ≠ CL_SUCCESS then some u else
    if ¬ u.obj.mHostMapped ∧ ¬ (eMemFlags.NONE = haFlags) then
      let mapFlags :=
        if haFlags = eMemFlags.READWRITE then CL_MAP_WRITE ||| CL_MAP_READ
        else if haFlags = eMemFlags.WRITEONLY then CL_MAP_WRITE_INVALIDATE_REGION
        else CL_MAP_READ
      match (if u.obj.mImageMem ≠ 0 then
               (if haFlags = eMemFlags.WRITEONLY then
                  some ⟨u.error, { u.obj with mMemLatest := eMemLatest.BUFFER }, u.dev⟩
                else copyImageToBuffer queueNum u.obj u.dev)
             else some u) with
      | none => none
      | some c =>
        if c.error ≠ CL_SUCCESS then some c else
        let blockingMap := if c.obj.mCommandQueues.length > 1 then CL_NON_BLOCKING else CL_BLOCKING
        if c.obj.mSvmType = eSvmType.NONE then
          match getCommandQueue c.obj queueNum with
          | none => none
          | some q =>
            let r := c.dev.next
            let dev1 := c.dev.issue
              (.clEnqueueMapBuffer q c.obj.mPinnedMem blockingMap mapFlags 0 c.obj.mNumBytes)
            if r.status ≠ CL_SUCCESS then some ⟨r.status, c.obj, dev1⟩
            else if c.obj.mHostBuf ≠ r.value then some ⟨CL_MAP_FAILURE, c.obj, dev1⟩
            else some ⟨r.status, { c.obj with mHostMapped := true, mMapFlags := haFlags }, dev1⟩
        else
          some ⟨c.error, { c.obj with mMapFlags := haFlags }, c.dev⟩
    else some u

/-- The member `copyFrom`: a `memcpy` of `numBytes` bytes of `srcBuf` to
`mHostBuf`.  The copy is undefined, and the model does not return, when the
destination is null or when it reads or writes past either buffer. -/
def copyFrom (srcBuf : List Nat) (numBytes : Nat) (_queueNum : Nat) (s : clMemory)
    (dev : Device) : Option Ret :=
  if s.mHostBuf = 0 ∨ numBytes > srcBuf.length ∨ numBytes > s.mNumBytes then none
  else some ⟨CL_SUCCESS, s, { dev with pinned := srcBuf.take numBytes ++ dev.pinned.drop numBytes }⟩

/-- The member `freeAllocation`. -/
def freeAllocation (s : clMemory) (dev : Device) : Option (clMemory × Device) :=
  match unmapMem 0 s dev with
  | none => none
  | some u =>
    let dev1 :=
      if u.obj.mImageMem ≠ 0 then u.dev.issue (.clReleaseMemObject u.obj.mImageMem) else u.dev
    let dev2 :=
      if u.obj.mPinnedMem ≠ 0 then dev1.issue (.clReleaseMemObject u.obj.mPinnedMem) else dev1
    some ({ u.obj with mPinnedMem := 0, mImageMem := 0, mHostBuf := 0 }, dev2)

/-- The private `getKernelMem`.  `numDims` is `runParams->numDims()`; `isSVM` is
the value the caller's variable holds on entry, which an early return leaves
untouched.  The loop that fills `region` indexes two arrays of three elements,
so more than three dimensions is an out-of-bounds access. -/
def getKernelMem (numDims : Nat) (isImageParam : Bool) (access : eAccess) (isSVM : Bool)
    (queueNum : Nat) (s : clMemory) (dev : Device) : Option KernelMemRet :=
  let kernelMem0 := if s.mImageMem ≠ 0 then KernelMemRef.imageMem else KernelMemRef.pinnedMem
  if isImageParam then
    let created : KernelMemRet :=
      if s.mImageMem = 0 then
        let imageType := if numDims > 2 then CL_MEM_OBJECT_IMAGE3D else CL_MEM_OBJECT_IMAGE2D
        let width := s.mImageDims.1
        let height := if numDims > 1 then s.mImageDims.2.1 else 1
        let depth := if numDims > 2 then s.mImageDims.2.2 else 1
        let r := dev.next
        let dev1 := dev.issue (.clCreateImage s.mContext
          (clMemFlagsOf s.mMemFlags ||| CL_MEM_HOST_NO_ACCESS) CL_RGBA CL_FLOAT imageType
          width height depth)
        if r.status ≠ CL_SUCCESS then ⟨r.status, isSVM, kernelMem0, { s with mImageMem := r.value }, dev1⟩
        else ⟨r.status, isSVM, KernelMemRef.imageMem, { s with mImageMem := r.value }, dev1⟩
      else ⟨CL_SUCCESS, isSVM, kernelMem0, s, dev⟩
    if created.error ≠ CL_SUCCESS then some created else
    let s1 := created.obj
    if access = eAccess.WRITEONLY then
      some ⟨created.error, false, created.kernelMem,
        { s1 with mMemLatest := eMemLatest.IMAGE }, created.dev⟩
    else if s1.mMemLatest = eMemLatest.BUFFER then
      if numDims > 3 then none else
      let region : Nat × Nat × Nat :=
        (if numDims > 0 then s1.mImageDims.1 else 1,
         if numDims > 1 then s1.mImageDims.2.1 else 1,
         if numDims > 2 then s1.mImageDims.2.2 else 1)
      match getCommandQueue s1 queueNum with
      | none => none
      | some q =>
        let r := created.dev.next
        let dev2 := created.dev.issue
          (.clEnqueueCopyBufferToImage q s1.mPinnedMem s1.mImageMem region)
        if r.status ≠ CL_SUCCESS then some ⟨r.status, isSVM, created.kernelMem, s1, dev2⟩
        else some ⟨r.status, false, created.kernelMem, s1, dev2⟩
    else some ⟨created.error, false, created.kernelMem, s1, created.dev⟩
  else
    let copied : Option Ret :=
      if s.mImageMem ≠ 0 ∧ s.mMemLatest = eMemLatest.IMAGE then copyImageToBuffer queueNum s dev
      else some ⟨CL_SUCCESS, s, dev⟩
    match copied with
    | none => none
    | some c =>
      if c.error ≠ CL_SUCCESS then some ⟨c.error, isSVM, kernelMem0, c.obj, c.dev⟩ else
      let isSVM1 := decide (c.obj.mSvmType ≠ eSvmType.NONE)
      some ⟨c.error, isSVM1, if isSVM1 then KernelMemRef.hostBuf else KernelMemRef.pinnedMem,
        c.obj, c.dev⟩

/-- The value `clSetKernelArg` reads through the pointer `getKernelMem` produced. -/
def KernelMemRef.deref (k : KernelMemRef) (s : clMemory) : KernelArgValue :=
  match k with
  | KernelMemRef.null => KernelArgValue.null
  | KernelMemRef.pinnedMem => KernelArgValue.memHandle s.mPinnedMem
  | KernelMemRef.imageMem => KernelArgValue.memHandle s.mImageMem
  | KernelMemRef.hostBuf => KernelArgValue.hostBytes s.mHostBuf

/-- The guard's `gpuMemory::setKernelParam`, acting on the object it points to. -/
def gpuMemory.setKernelParam (kernel paramIndex : Nat) (isImageParam : Bool) (access : eAccess)
    (numDims : Nat) (queueNum : Nat) (s : clMemory) (dev : Device) : Option Ret :=
  match unmapMem queueNum s dev with
  | none => none
  | some u =>
    if u.error ≠ CL_SUCCESS then some u else
    match getKernelMem numDims isImageParam access false queueNum u.obj u.dev with
    | none => none
    | some k =>
      if k.error ≠ CL_SUCCESS then some ⟨k.error, k.obj, k.dev⟩ else
      some ⟨k.dev.next.status, k.obj,
        k.dev.issue (.clSetKernelArg kernel paramIndex (k.kernelMem.deref k.obj))⟩

/-! ## Sequences of operations and observations on the trace -/

/-- The arguments of one `setKernelParam` call (`numDims` is `runParams->numDims()`). -/
structure BindArgs where
  kernel : Nat
  paramIndex : Nat
  isImageParam : Bool
  access : eAccess
  numDims : Nat
  queueNum : Nat
deriving DecidableEq, Repr

/-- One kernel-argument bind performed through a guard `g` that is already held. -/
def gpuMemory.bind (b : BindArgs) (s : clMemory) (dev : Device) : Option Ret :=
  gpuMemory.setKernelParam b.kernel b.paramIndex b.isImageParam b.access b.numDims b.queueNum s dev

/-- One device access as a caller performs it: take a guard with `getGPUMemory`,
bind through it, let the guard go out of scope. -/
def deviceAccess (b : BindArgs) (s : clMemory) (dev : Device) : Option Ret :=
  match gpuMemory.bind b (getGPUMemory s) dev with
  | none => none
  | some r => some ⟨r.error, gpuMemory.destroy r.obj, r.dev⟩

/-- Consecutive device accesses; the statuses are collected in order. -/
def deviceAccesses : List BindArgs → clMemory → Device → Option (List Int × clMemory × Device)
  | [], s, dev => some ([], s, dev)
  | b :: bs, s, dev =>
    match deviceAccess b s dev with
    | none => none
    | some r =>
      match deviceAccesses bs r.obj r.dev with
      | none => none
      | some (es, s2, dev2) => some (r.error :: es, s2, dev2)

/-- The operations a caller can apply to an allocated object. -/
inductive Op where
  | hostAccess (haFlags : eMemFlags) (queueNum : Nat)
  | acquire
  | bind (b : BindArgs)
  | release
deriving DecidableEq, Repr

/-- Run one operation, whatever status it returns: `setHostAccess`,
`getGPUMemory`, `setKernelParam` through the guard, or the guard's destructor. -/
def Op.run (o : Op) (s : clMemory) (dev : Device) : Option (clMemory × Device) :=
  match o with
  | Op.hostAccess haFlags queueNum =>
    (setHostAccess haFlags queueNum s dev).map fun r => (r.obj, r.dev)
  | Op.acquire => some (getGPUMemory s, dev)
  | Op.bind b => (gpuMemory.bind b s dev).map fun r => (r.obj, r.dev)
  | Op.release => some (gpuMemory.destroy s, dev)

/-- Run a sequence of operations, oldest first. -/
def runOps : List Op → clMemory → Device → Option (clMemory × Device)
  | [], s, dev => some (s, dev)
  | o :: os, s, dev =>
    match o.run s dev with
    | none => none
    | some (s1, dev1) => runOps os s1 dev1

/-- The events issued on the way from device state `before` to `after`. -/
def Device.since (after before : Device) : List Event := after.trace.drop before.trace.length

/-- The calls issued on the way from device state `before` to `after`. -/
def Device.callsSince (after before : Device) : List DevCall := (after.since before).map Event.call

def DevCall.isMapBuffer : DevCall → Bool
  | .clEnqueueMapBuffer _ _ _ _ _ _ => true
  | _ => false

def DevCall.isCopyImageToBuffer : DevCall → Bool
  | .clEnqueueCopyImageToBuffer _ _ _ _ => true
  | _ => false

def DevCall.isCopyBufferToImage : DevCall → Bool
  | .clEnqueueCopyBufferToImage _ _ _ _ => true
  | _ => false

def DevCall.isCopy (c : DevCall) : Bool := c.isCopyImageToBuffer || c.isCopyBufferToImage

def DevCall.isRelease : DevCall → Bool
  | .clReleaseMemObject _ => true
  | _ => false

def DevCall.isCreateImage : DevCall → Bool
  | .clCreateImage _ _ _ _ _ _ _ _ => true
  | _ => false

def DevCall.isSetKernelArg : DevCall → Bool
  | .clSetKernelArg _ _ _ => true
  | _ => false

/-- A device whose every call succeeds and returns `p` as its value. -/
def Device.steady (p : Nat) : Device :=
  { replies := fun _ => ⟨CL_SUCCESS, p⟩, trace := [], pinned := [], image := [] }

/-- Lines 136 to 155 of `setHostAccess` on their own: the device map call, the
address check and the update of the two flags, run from the state `t` reached
after the image step.  `setHostAccess` above does not use it; the lemma
`setHostAccess_unmapped` shows that its tail is this function. -/
def hostMapStep (haFlags : eMemFlags) (queueNum : Nat) (t : clMemory) (d : Device) : Option Ret :=
  let mapFlags :=
    if haFlags = eMemFlags.READWRITE then CL_MAP_WRITE ||| CL_MAP_READ
    else if haFlags = eMemFlags.WRITEONLY then CL_MAP_WRITE_INVALIDATE_REGION
    else CL_MAP_READ
  let blockingMap := if t.mCommandQueues.length > 1 then CL_NON_BLOCKING else CL_BLOCKING
  if t.mSvmType = eSvmType.NONE then
    match getCommandQueue t queueNum with
    | none => none
    | some q =>
      let r := d.next
      let dev1 := d.issue (.clEnqueueMapBuffer q t.mPinnedMem blockingMap mapFlags 0 t.mNumBytes)
      if r.status ≠ CL_SUCCESS then some ⟨r.status, t, dev1⟩
      else if t.mHostBuf ≠ r.value then some ⟨CL_MAP_FAILURE, t, dev1⟩
      else some ⟨r.status, { t with mHostMapped := true, mMapFlags := haFlags }, dev1⟩
  else
    some ⟨CL_SUCCESS, { t with mMapFlags := haFlags }, d⟩

/-- Issue a list of calls in order. -/
def Device.issueAll : Device → List DevCall → Device
  | dev, [] => dev
  | dev, c :: cs => (dev.issue c).issueAll cs

/-- The call `hostMapStep` makes for residency mode `NONE`. -/
def hostMapCall (haFlags : eMemFlags) (q : Nat) (t : clMemory) : DevCall :=
  .clEnqueueMapBuffer q t.mPinnedMem
    (if t.mCommandQueues.length > 1 then CL_NON_BLOCKING else CL_BLOCKING)
    (if haFlags = eMemFlags.READWRITE then CL_MAP_WRITE ||| CL_MAP_READ
     else if haFlags = eMemFlags.WRITEONLY then CL_MAP_WRITE_INVALIDATE_REGION
     else CL_MAP_READ)
    0 t.mNumBytes

/-- The four calls `copyImageToBuffer` makes when an image exists and none
fails; the region is read back from the three `clGetImageInfo` replies. -/
def copyImageCalls (q : Nat) (s : clMemory) (dev : Device) : List DevCall :=
  [.clGetImageInfo s.mImageMem CL_IMAGE_WIDTH, .clGetImageInfo s.mImageMem CL_IMAGE_HEIGHT,
   .clGetImageInfo s.mImageMem CL_IMAGE_DEPTH,
   .clEnqueueCopyImageToBuffer q s.mImageMem s.mPinnedMem
     ((dev.replies 0).value, if (dev.replies 1).value ≠ 0 then (dev.replies 1).value else 1,
      if (dev.replies 2).value ≠ 0 then (dev.replies 2).value else 1)]

/-- The `clCreateImage` call of `getKernelMem` (lines 286 to 304). -/
def createImageCall (s : clMemory) (numDims : Nat) : DevCall :=
  .clCreateImage s.mContext (clMemFlagsOf s.mMemFlags ||| CL_MEM_HOST_NO_ACCESS) CL_RGBA CL_FLOAT
    (if numDims > 2 then CL_MEM_OBJECT_IMAGE3D else CL_MEM_OBJECT_IMAGE2D)
    s.mImageDims.1 (if numDims > 1 then s.mImageDims.2.1 else 1)
    (if numDims > 2 then s.mImageDims.2.2 else 1)

/-- The region of the buffer-to-image copy of `getKernelMem` (lines 315 to 317). -/
def bufferToImageRegion (s : clMemory) (numDims : Nat) : Nat × Nat × Nat :=
  (if numDims > 0 then s.mImageDims.1 else 1,
   if numDims > 1 then s.mImageDims.2.1 else 1,
   if numDims > 2 then s.mImageDims.2.2 else 1)

/-- Lines 310 to 335 of `getKernelMem` on their own, for an image-shaped
argument: the coherency step run from the state `t` in which the image
allocation exists, `kernelMem` already pointing at it.  `getKernelMem` above
does not use it; the lemmas `getKernelMem_image_existing` and
`getKernelMem_image_create` show that its tail is this function. -/
def imageArgStep (access : eAccess) (numDims : Nat) (isSVM : Bool) (queueNum : Nat)
    (t : clMemory) (d : Device) : Option KernelMemRet :=
  if access = eAccess.WRITEONLY then
    some ⟨CL_SUCCESS, false, KernelMemRef.imageMem, { t with mMemLatest := eMemLatest.IMAGE }, d⟩
  else if t.mMemLatest = eMemLatest.BUFFER then
    if numDims > 3 then none else
    match getCommandQueue t queueNum with
    | none => none
    | some q =>
      let r := d.next
      let dev2 := d.issue
        (.clEnqueueCopyBufferToImage q t.mPinnedMem t.mImageMem (bufferToImageRegion t numDims))
      if r.status ≠ CL_SUCCESS then some ⟨r.status, isSVM, KernelMemRef.imageMem, t, dev2⟩
      else some ⟨r.status, false, KernelMemRef.imageMem, t, dev2⟩
  else some ⟨CL_SUCCESS, false, KernelMemRef.imageMem, t, d⟩

/-- The fields that only the constructor, `allocate` and `freeAllocation` assign,
together with the lock: `t` agrees with `s` on all of them. -/
def clMemory.sameAllocation (t s : clMemory) : Prop :=
  t.mContext = s.mContext ∧ t.mCommandQueues = s.mCommandQueues ∧ t.mMemFlags = s.mMemFlags ∧
  t.mSvmType = s.mSvmType ∧ t.mNumBytes = s.mNumBytes ∧ t.mDevInfo = s.mDevInfo ∧
  t.mImageDims = s.mImageDims ∧ t.mPinnedMem = s.mPinnedMem ∧ t.mHostBuf = s.mHostBuf

/-- Every coming device call succeeds and returns `p` as its value. -/
def Device.SteadyAt (dev : Device) (p : Nat) : Prop :=
  ∀ i, (dev.replies i).status = CL_SUCCESS ∧ (dev.replies i).value = p

/-! ## Sample inputs -/

/-- An object as `allocate` leaves it: sixteen bytes, one queue, dimensions 4 by 4,
mapped read-write at address `64`. -/
def mappedSample : clMemory :=
  { clMemory.create 1 [7] eMemFlags.READWRITE eSvmType.NONE 16 0 (4, 4, 1) with
    mPinnedMem := 5, mHostBuf := 64, mHostMapped := true, mMapFlags := eMemFlags.READWRITE }

/-- A freshly constructed object: residency `NONE`, read-write, sixteen bytes,
one queue, dimensions 4 by 4. -/
def freshSample : clMemory :=
  clMemory.create 1 [7] eMemFlags.READWRITE eSvmType.NONE 16 0 (4, 4, 1)

/-- An image-shaped bind of kernel `9`, slot `0`, two dimensions, queue `0`. -/
def imageBind (access : eAccess) : BindArgs :=
  { kernel := 9, paramIndex := 0, isImageParam := true, access := access, numDims := 2,
    queueNum := 0 }

/-- A device that keeps succeeding with value `64`, whose image holds four bytes
`9` and whose linear buffer holds four bytes `0`. -/
def imageDevice : Device :=
  { Device.steady 64 with pinned := [0, 0, 0, 0], image := [9, 9, 9, 9] }

/-- The fresh object after `allocate`, a guard, an image-shaped `WRITEONLY` bind
and the release of the guard, all on `imageDevice`: unlocked and unmapped, the
image allocation in place and latest. -/
def imageScenario : Option (clMemory × Device) :=
  (allocate freshSample imageDevice).bind fun a =>
    runOps [Op.acquire, Op.bind (imageBind eAccess.WRITEONLY), Op.release] a.obj a.dev

/-! ## Further vocabulary for stating the claims -/

def DevCall.isCreateBuffer : DevCall → Bool
  | .clCreateBuffer _ _ _ => true
  | _ => false

def DevCall.isUnmap : DevCall → Bool
  | .clEnqueueUnmapMemObject _ _ _ => true
  | _ => false

/-- The `clCreateBuffer` call of `allocate` (line 87). -/
def createBufferCall (s : clMemory) : DevCall :=
  .clCreateBuffer s.mContext (clMemFlagsOf s.mMemFlags ||| CL_MEM_ALLOC_HOST_PTR) s.mNumBytes

/-- The `clEnqueueMapBuffer` call of `allocate` (lines 89 to 92), on queue `q`
and the buffer handle just created. -/
def allocateMapCall (q : Nat) (s : clMemory) (buffer : Nat) : DevCall :=
  .clEnqueueMapBuffer q buffer CL_TRUE
    (if s.mMemFlags = eMemFlags.READONLY then CL_MAP_WRITE_INVALIDATE_REGION
     else if s.mMemFlags = eMemFlags.WRITEONLY then CL_MAP_READ
     else CL_MAP_READ ||| CL_MAP_WRITE)
    0 s.mNumBytes

/-- The map flags `setHostAccess` derives from a requested mode (lines 124 to 126). -/
def mapFlagsOf (haFlags : eMemFlags) : Nat :=
  if haFlags = eMemFlags.READWRITE then CL_MAP_WRITE ||| CL_MAP_READ
  else if haFlags = eMemFlags.WRITEONLY then CL_MAP_WRITE_INVALIDATE_REGION
  else CL_MAP_READ

/-- The events `l` of a run that stops at the first failing device call and
returns that call's status as `error`: either nothing failed and `error` is
`CL_SUCCESS`, or the last event, and only the last, failed with `error`. -/
def FailStop (l : List Event) (error : Int) : Prop :=
  (error = CL_SUCCESS ∧ ∀ e ∈ l, e.reply.status = CL_SUCCESS) ∨
  (error ≠ CL_SUCCESS ∧ ∃ pre e, l = pre ++ [e] ∧ (∀ x ∈ pre, x.reply.status = CL_SUCCESS) ∧
    e.reply.status = error)

/-- `CL_OUT_OF_RESOURCES` of `CL/cl.h`. -/
def CL_OUT_OF_RESOURCES : Int := -5

/-- A device whose call number `n` (counting from `0`) fails with
`CL_OUT_OF_RESOURCES` and a null value, all others succeeding with value `p`. -/
def Device.failingAt (n p : Nat) : Device :=
  { replies := fun i => if i = n then ⟨CL_OUT_OF_RESOURCES, 0⟩ else ⟨CL_SUCCESS, p⟩,
    trace := [], pinned := [], image := [] }

/-- A freshly constructed write-only object: residency `NONE`, sixteen bytes, one queue. -/
def writeOnlySample : clMemory :=
  clMemory.create 1 [7] eMemFlags.WRITEONLY eSvmType.NONE 16 0 (4, 4, 1)

/-- The fresh sample object with residency `COARSE` instead of `NONE`. -/
def coarseSample : clMemory :=
  clMemory.create 1 [7] eMemFlags.READWRITE eSvmType.COARSE 16 0 (4, 4, 1)

/-- The fresh sample object after `allocate`, a guard, an image-shaped
`WRITEONLY` bind and the release of the guard, run on the device `dev`; these
steps take the first five replies of `dev`. -/
def imageScenarioOn (dev : Device) : Option (clMemory × Device) :=
  (allocate freshSample dev).bind fun a =>
    runOps [Op.acquire, Op.bind (imageBind eAccess.WRITEONLY), Op.release] a.obj a.dev

/-- The state `imageScenario` ends in: the fresh sample object allocated, then
bound once as a `WRITEONLY` image through a guard that has been released.  It
is unlocked and unmapped, its image allocation exists and is the latest
representation. -/
def imageLatestSample : clMemory :=
  { freshSample with
    mPinnedMem := 64, mHostBuf := 64, mImageMem := 64, mHostMapped := false,
    mMapFlags := eMemFlags.NONE, mMemLatest := eMemLatest.IMAGE, mGpuLocked := false }

/-! ## Basic facts -/

theorem since_self (dev : Device) : dev.since dev = [] := by
  simp [Device.since]

theorem getCommandQueue_some (s : clMemory) (queueNum : Nat) (hq : s.mCommandQueues ≠ []) :
    ∃ q, getCommandQueue s queueNum = some q := by
  have hpos : 0 < s.mCommandQueues.length := List.length_pos.mpr hq
  unfold getCommandQueue
  by_cases h : queueNum ≥ s.mCommandQueues.length % 2 ^ 32
  · simp only [h, if_true]
    exact ⟨s.mCommandQueues[0], by simp [List.getElem?_eq_getElem hpos]⟩
  · have hlt : queueNum < s.mCommandQueues.length :=
      lt_of_lt_of_le (not_le.mp h) (Nat.mod_le _ _)
    simp only [h, if_false]
    exact ⟨s.mCommandQueues[queueNum], by simp [List.getElem?_eq_getElem hlt]⟩

theorem getCommandQueue_congr (s t : clMemory) (queueNum : Nat)
    (h : t.mCommandQueues = s.mCommandQueues) :
    getCommandQueue t queueNum = getCommandQueue s queueNum := by
  simp [getCommandQueue, h]

theorem issue_trace (dev : Device) (c : DevCall) :
    (dev.issue c).trace = dev.trace ++ [⟨c, dev.next⟩] := by
  unfold Device.issue Device.transfer
  split <;> (try split) <;> rfl

theorem issue_next (dev : Device) (c : DevCall) : (dev.issue c).next = dev.replies 1 := by
  unfold Device.issue Device.transfer Device.next
  split <;> (try split) <;> rfl

theorem issue_replies (dev : Device) (c : DevCall) :
    (dev.issue c).replies = fun i => dev.replies (i + 1) := by
  unfold Device.issue Device.transfer
  split <;> (try split) <;> rfl

theorem since_of_trace (dev1 dev : Device) (l : List Event) (h : dev1.trace = dev.trace ++ l) :
    dev1.since dev = l := by
  simp [Device.since, h]

theorem issue_since (dev : Device) (c : DevCall) : (dev.issue c).since dev = [⟨c, dev.next⟩] :=
  since_of_trace _ _ _ (issue_trace dev c)

/-! ### `unmapMem` -/

theorem unmapMem_unmapped (queueNum : Nat) (s : clMemory) (dev : Device)
    (h : s.mHostMapped = false) : unmapMem queueNum s dev = some ⟨CL_SUCCESS, s, dev⟩ := by
  simp [unmapMem, h]

theorem unmapMem_mapped (queueNum : Nat) (s : clMemory) (dev : Device) (q : Nat)
    (hm : s.mHostMapped = true) (hs : s.mSvmType = eSvmType.NONE)
    (hq : getCommandQueue s queueNum = some q) :
    unmapMem queueNum s dev =
      some ⟨dev.next.status, { s with mHostMapped := false, mMapFlags := eMemFlags.NONE },
        dev.issue (.clEnqueueUnmapMemObject q s.mPinnedMem s.mHostBuf)⟩ := by
  simp [unmapMem, hm, hs, hq]

theorem unmapMem_mapped_svm (queueNum : Nat) (s : clMemory) (dev : Device)
    (hm : s.mHostMapped = true) (hs : s.mSvmType ≠ eSvmType.NONE) :
    unmapMem queueNum s dev =
      some ⟨CL_SUCCESS, { s with mHostMapped := false, mMapFlags := eMemFlags.NONE }, dev⟩ := by
  simp [unmapMem, hm, hs]

/-- Whatever the device answers, `unmapMem` returns, leaves the object unmapped
and issues at most the one unmap call. -/
theorem unmapMem_spec (queueNum : Nat) (s : clMemory) (dev : Device)
    (hq : s.mCommandQueues ≠ []) :
    ∃ u, unmapMem queueNum s dev = some u ∧
      u.obj = { s with mHostMapped := false,
                       mMapFlags := if s.mHostMapped then eMemFlags.NONE else s.mMapFlags } ∧
      ((u.dev = dev ∧ u.error = CL_SUCCESS) ∨
        (s.mHostMapped = true ∧ s.mSvmType = eSvmType.NONE ∧ u.error = dev.next.status ∧
          ∃ q, getCommandQueue s queueNum = some q ∧
            u.dev = dev.issue (.clEnqueueUnmapMemObject q s.mPinnedMem s.mHostBuf))) := by
  obtain ⟨q, hq1⟩ := getCommandQueue_some s queueNum hq
  by_cases hm : s.mHostMapped = true
  · by_cases hs : s.mSvmType = eSvmType.NONE
    · exact ⟨_, unmapMem_mapped queueNum s dev q hm hs hq1, by simp [hm], Or.inr ⟨hm, hs, rfl, q, hq1, rfl⟩⟩
    · exact ⟨_, unmapMem_mapped_svm queueNum s dev hm hs, by simp [hm], Or.inl ⟨rfl, rfl⟩⟩
  · simp only [Bool.not_eq_true] at hm
    refine ⟨_, unmapMem_unmapped queueNum s dev hm, ?_, Or.inl ⟨rfl, rfl⟩⟩
    cases s
    simp_all

/-! ### `Device.issueAll` -/

theorem issueAll_nil (dev : Device) : dev.issueAll [] = dev := rfl

theorem issueAll_cons (dev : Device) (c : DevCall) (cs : List DevCall) :
    dev.issueAll (c :: cs) = (dev.issue c).issueAll cs := rfl

theorem issueAll_append (dev : Device) (cs ds : List DevCall) :
    dev.issueAll (cs ++ ds) = (dev.issueAll cs).issueAll ds := by
  induction cs generalizing dev with
  | nil => rfl
  | cons c cs ih => simp [issueAll_cons, ih]

theorem issueAll_single (dev : Device) (c : DevCall) : dev.issueAll [c] = dev.issue c := rfl

theorem issueAll_replies (dev : Device) (cs : List DevCall) :
    (dev.issueAll cs).replies = fun i => dev.replies (i + cs.length) := by
  induction cs generalizing dev with
  | nil => rfl
  | cons c cs ih =>
    rw [issueAll_cons, ih, issue_replies]
    funext i
    simp [Nat.add_assoc, Nat.add_comm]

theorem issueAll_next (dev : Device) (cs : List DevCall) :
    (dev.issueAll cs).next = dev.replies cs.length := by
  simp [Device.next, issueAll_replies]

theorem issueAll_trace_calls (dev : Device) (cs : List DevCall) :
    ∃ l, (dev.issueAll cs).trace = dev.trace ++ l ∧ l.map Event.call = cs ∧
      l.length = cs.length ∧
      ∀ (i : Nat) (h : i < l.length), (l.get ⟨i, h⟩).reply = dev.replies i := by
  induction cs generalizing dev with
  | nil => exact ⟨[], by simp [issueAll_nil]⟩
  | cons c cs ih =>
    obtain ⟨l, h1, h2, h3, h4⟩ := ih (dev.issue c)
    refine ⟨⟨c, dev.next⟩ :: l, ?_, ?_, ?_, ?_⟩
    · rw [issueAll_cons, h1, issue_trace]; simp
    · simp [h2]
    · simp [h3]
    · intro i h
      cases i with
      | zero => rfl
      | succ i =>
        have := h4 i (by simpa using h)
        simpa [issue_replies] using this

theorem issueAll_callsSince (dev : Device) (cs : List DevCall) :
    (dev.issueAll cs).callsSince dev = cs := by
  obtain ⟨l, h1, h2, _, _⟩ := issueAll_trace_calls dev cs
  simp [Device.callsSince, since_of_trace _ _ _ h1, h2]

theorem issueAll_since_length (dev : Device) (cs : List DevCall) :
    ((dev.issueAll cs).since dev).length = cs.length := by
  obtain ⟨l, h1, _, h3, _⟩ := issueAll_trace_calls dev cs
  simp [since_of_trace _ _ _ h1, h3]

/-- Calling on from a device that already issued `cs`: the calls since the start
are `cs` followed by the later ones. -/
theorem callsSince_issueAll_trans (dev d2 : Device) (cs : List DevCall) (ds : List DevCall)
    (h : d2 = (dev.issueAll cs).issueAll ds) : d2.callsSince dev = cs ++ ds := by
  rw [h, ← issueAll_append, issueAll_callsSince]

/-! ### `copyImageToBuffer` -/

theorem copyImageToBuffer_noImage (queueNum : Nat) (s : clMemory) (dev : Device)
    (hi : s.mImageMem = 0) : copyImageToBuffer queueNum s dev = some ⟨CL_SUCCESS, s, dev⟩ := by
  simp [copyImageToBuffer, hi]

/-- With an image allocation `copyImageToBuffer` returns.  It issues the first
`n` of its four calls, stopping at the first that fails; when all four succeed
it marks the representations `SAME`. -/
theorem copyImageToBuffer_spec (queueNum : Nat) (s : clMemory) (dev : Device) (q : Nat)
    (hi : s.mImageMem ≠ 0) (hq : getCommandQueue s queueNum = some q) :
    ∃ r n, copyImageToBuffer queueNum s dev = some r ∧ 1 ≤ n ∧ n ≤ 4 ∧
      r.dev = dev.issueAll ((copyImageCalls q s dev).take n) ∧
      (∀ i, i + 1 < n → (dev.replies i).status = CL_SUCCESS) ∧
      r.error = (dev.replies (n - 1)).status ∧
      (r.error = CL_SUCCESS → n = 4 ∧ r.obj = { s with mMemLatest := eMemLatest.SAME }) ∧
      (r.error ≠ CL_SUCCESS → r.obj = s) := by
  have e1 : (dev.issue (.clGetImageInfo s.mImageMem CL_IMAGE_WIDTH)).next = dev.replies 1 :=
    issue_next _ _
  have e2 : ((dev.issue (.clGetImageInfo s.mImageMem CL_IMAGE_WIDTH)).issue
      (.clGetImageInfo s.mImageMem CL_IMAGE_HEIGHT)).next = dev.replies 2 := by
    rw [issue_next, issue_replies]
  have e3 : (((dev.issue (.clGetImageInfo s.mImageMem CL_IMAGE_WIDTH)).issue
      (.clGetImageInfo s.mImageMem CL_IMAGE_HEIGHT)).issue
      (.clGetImageInfo s.mImageMem CL_IMAGE_DEPTH)).next = dev.replies 3 := by
    rw [issue_next, issue_replies, issue_replies]
  have e0 : dev.next = dev.replies 0 := rfl
  by_cases h0 : (dev.replies 0).status = CL_SUCCESS
  · by_cases h1 : (dev.replies 1).status = CL_SUCCESS
    · by_cases h2 : (dev.replies 2).status = CL_SUCCESS
      · by_cases h3 : (dev.replies 3).status = CL_SUCCESS
        · refine ⟨_, 4, by simp [copyImageToBuffer, hi, hq, e0, e1, e2, e3, h0, h1, h2, h3]; rfl,
            by omega, by omega, ?_, ?_, ?_, ?_, ?_⟩
          · simp [copyImageCalls, Device.issueAll]
          · intro i hi4
            have : i = 0 ∨ i = 1 ∨ i = 2 := by omega
            rcases this with h | h | h <;> simp [h, h0, h1, h2]
          · simp [h3]
          · intro _; exact ⟨rfl, rfl⟩
          · intro h; simp [h3] at h
        · refine ⟨_, 4, by simp [copyImageToBuffer, hi, hq, e0, e1, e2, e3, h0, h1, h2, h3]; rfl,
            by omega, by omega, ?_, ?_, ?_, ?_, ?_⟩
          · simp [copyImageCalls, Device.issueAll]
          · intro i hi4
            have : i = 0 ∨ i = 1 ∨ i = 2 := by omega
            rcases this with h | h | h <;> simp [h, h0, h1, h2]
          · simp
          · intro h; exact absurd h h3
          · intro _; rfl
      · refine ⟨_, 3, by simp [copyImageToBuffer, hi, hq, e0, e1, e2, e3, h0, h1, h2]; rfl,
          by omega, by omega, ?_, ?_, ?_, ?_, ?_⟩
        · simp [copyImageCalls, Device.issueAll]
        · intro i hi4
          have : i = 0 ∨ i = 1 := by omega
          rcases this with h | h <;> simp [h, h0, h1]
        · simp
        · intro h; exact absurd h h2
        · intro _; rfl
    · refine ⟨_, 2, by simp [copyImageToBuffer, hi, hq, e0, e1, e2, e3, h0, h1]; rfl,
        by omega, by omega, ?_, ?_, ?_, ?_, ?_⟩
      · simp [copyImageCalls, Device.issueAll]
      · intro i hi4
        have : i = 0 := by omega
        simp [this, h0]
      · simp
      · intro h; exact absurd h h1
      · intro _; rfl
  · refine ⟨_, 1, by simp [copyImageToBuffer, hi, hq, e0, e1, e2, e3, h0]; rfl,
      by omega, by omega, ?_, ?_, ?_, ?_, ?_⟩
    · simp [copyImageCalls, Device.issueAll]
    · intro i hi4; omega
    · simp
    · intro h; exact absurd h h0
    · intro _; rfl

/-! ### `setHostAccess` -/

theorem setHostAccess_locked (haFlags : eMemFlags) (queueNum : Nat) (s : clMemory) (dev : Device)
    (hl : s.mGpuLocked = true) :
    setHostAccess haFlags queueNum s dev = some ⟨CL_MAP_FAILURE, s, dev⟩ := by
  simp [setHostAccess, hl]

theorem setHostAccess_same (haFlags : eMemFlags) (queueNum : Nat) (s : clMemory) (dev : Device)
    (hl : s.mGpuLocked = false) (hm : s.mHostMapped = true) (hf : haFlags = s.mMapFlags) :
    setHostAccess haFlags queueNum s dev = some ⟨CL_SUCCESS, s, dev⟩ := by
  simp [setHostAccess, hl, hm, hf]

theorem setHostAccess_none (queueNum : Nat) (s : clMemory) (dev : Device)
    (hl : s.mGpuLocked = false) (hm : s.mHostMapped = false) :
    setHostAccess eMemFlags.NONE queueNum s dev = some ⟨CL_SUCCESS, s, dev⟩ := by
  simp [setHostAccess, hl, hm]

/-- A mapped object asked for another mode is unmapped first; a failing unmap
is returned, otherwise the call goes on as it would from the unmapped state. -/
theorem setHostAccess_remap (haFlags : eMemFlags) (queueNum : Nat) (s : clMemory) (dev : Device)
    (u : Ret) (hl : s.mGpuLocked = false) (hm : s.mHostMapped = true)
    (hf : haFlags ≠ s.mMapFlags) (hu : unmapMem queueNum s dev = some u) :
    setHostAccess haFlags queueNum s dev =
      if u.error ≠ CL_SUCCESS then some u else setHostAccess haFlags queueNum u.obj u.dev := by
  have hobj : u.obj = { s with mHostMapped := false, mMapFlags := eMemFlags.NONE } := by
    unfold unmapMem at hu
    simp only [hm, if_true] at hu
    split at hu
    · split at hu
      · exact absurd hu (by simp)
      · cases hu; rfl
    · cases hu; rfl
  have hul : u.obj.mGpuLocked = false := by rw [hobj]; exact hl
  have hum : u.obj.mHostMapped = false := by rw [hobj]
  by_cases he : u.error = CL_SUCCESS
  · have hu2 : (⟨CL_SUCCESS, u.obj, u.dev⟩ : Ret) = u := by
      cases u; simp only [Ret.mk.injEq, and_true] at he ⊢; exact he.symm
    rw [if_neg (not_not.mpr he)]
    conv_rhs => unfold setHostAccess
    unfold setHostAccess
    simp only [hl, hm, hf, hu, hul, hum, hu2, ne_eq, not_false_eq_true, and_self, if_true, if_false,
      Bool.false_eq_true, false_and]
  · rw [if_pos he]
    unfold setHostAccess
    simp only [hl, hm, hf, hu, he, ne_eq, not_false_eq_true, and_self, if_true, if_false,
      Bool.false_eq_true]

/-- From an unmapped state, for a mode other than `NONE`: the image step, then `hostMapStep`. -/
theorem setHostAccess_unmapped (haFlags : eMemFlags) (queueNum : Nat) (s : clMemory) (dev : Device)
    (hl : s.mGpuLocked = false) (hm : s.mHostMapped = false) (hn : haFlags ≠ eMemFlags.NONE) :
    setHostAccess haFlags queueNum s dev =
      if s.mImageMem = 0 then hostMapStep haFlags queueNum s dev
      else if haFlags = eMemFlags.WRITEONLY then
        hostMapStep haFlags queueNum { s with mMemLatest := eMemLatest.BUFFER } dev
      else match copyImageToBuffer queueNum s dev with
        | none => none
        | some c => if c.error ≠ CL_SUCCESS then some c else hostMapStep haFlags queueNum c.obj c.dev := by
  have hn2 : ¬ (eMemFlags.NONE = haFlags) := fun h => hn h.symm
  rcases s with ⟨ctx, qs, mf, svm, nb, di, dims, pm, im, hb, lk, mp, flg, lat⟩
  simp only at hl hm
  subst hl hm
  by_cases hi : im = 0
  · subst hi
    simp only [setHostAccess, hostMapStep, hn2]
    simp
  · by_cases hw : haFlags = eMemFlags.WRITEONLY
    · subst hw
      simp only [setHostAccess, hostMapStep, hn2, hi]
      simp [hi]
    · simp only [setHostAccess, hostMapStep, hn2, hi, hw]
      simp [hi, hw]
      cases hc : copyImageToBuffer queueNum _ dev with
      | none => simp
      | some c =>
        simp
        by_cases hce : c.error = CL_SUCCESS
        · simp [hce]
        · simp [hce]

/-! ### `hostMapStep` -/

theorem hostMapStep_svm (haFlags : eMemFlags) (queueNum : Nat) (t : clMemory) (d : Device)
    (hs : t.mSvmType ≠ eSvmType.NONE) :
    hostMapStep haFlags queueNum t d = some ⟨CL_SUCCESS, { t with mMapFlags := haFlags }, d⟩ := by
  simp [hostMapStep, hs]

theorem hostMapStep_fail (haFlags : eMemFlags) (queueNum : Nat) (t : clMemory) (d : Device)
    (q : Nat) (hs : t.mSvmType = eSvmType.NONE) (hq : getCommandQueue t queueNum = some q)
    (hr : d.next.status ≠ CL_SUCCESS) :
    hostMapStep haFlags queueNum t d =
      some ⟨d.next.status, t, d.issue (hostMapCall haFlags q t)⟩ := by
  simp [hostMapStep, hostMapCall, hs, hq, hr]

theorem hostMapStep_mismatch (haFlags : eMemFlags) (queueNum : Nat) (t : clMemory) (d : Device)
    (q : Nat) (hs : t.mSvmType = eSvmType.NONE) (hq : getCommandQueue t queueNum = some q)
    (hr : d.next.status = CL_SUCCESS) (hv : t.mHostBuf ≠ d.next.value) :
    hostMapStep haFlags queueNum t d =
      some ⟨CL_MAP_FAILURE, t, d.issue (hostMapCall haFlags q t)⟩ := by
  simp [hostMapStep, hostMapCall, hs, hq, hr, hv]

theorem hostMapStep_ok (haFlags : eMemFlags) (queueNum : Nat) (t : clMemory) (d : Device)
    (q : Nat) (hs : t.mSvmType = eSvmType.NONE) (hq : getCommandQueue t queueNum = some q)
    (hr : d.next.status = CL_SUCCESS) (hv : t.mHostBuf = d.next.value) :
    hostMapStep haFlags queueNum t d =
      some ⟨CL_SUCCESS, { t with mHostMapped := true, mMapFlags := haFlags },
        d.issue (hostMapCall haFlags q t)⟩ := by
  simp [hostMapStep, hostMapCall, hs, hq, hr, hv]

/-- `hostMapStep` returns; it issues no call or the one map call; it fails only
on the device's answer to that call, and succeeds when the answer is a success
carrying the recorded host address. -/
theorem hostMapStep_spec (haFlags : eMemFlags) (queueNum : Nat) (t : clMemory) (d : Device)
    (hq : t.mCommandQueues ≠ []) :
    ∃ r, hostMapStep haFlags queueNum t d = some r ∧
      ((r.dev = d ∧ r.error = CL_SUCCESS ∧ t.mSvmType ≠ eSvmType.NONE ∧
          r.obj = { t with mMapFlags := haFlags }) ∨
       (∃ q, getCommandQueue t queueNum = some q ∧ t.mSvmType = eSvmType.NONE ∧
          r.dev = d.issue (hostMapCall haFlags q t) ∧
          ((d.next.status = CL_SUCCESS ∧ t.mHostBuf = d.next.value ∧ r.error = CL_SUCCESS ∧
              r.obj = { t with mHostMapped := true, mMapFlags := haFlags }) ∨
           (d.next.status = CL_SUCCESS ∧ t.mHostBuf ≠ d.next.value ∧ r.error = CL_MAP_FAILURE ∧
              r.obj = t) ∨
           (d.next.status ≠ CL_SUCCESS ∧ r.error = d.next.status ∧ r.obj = t)))) := by
  obtain ⟨q, hq1⟩ := getCommandQueue_some t queueNum hq
  by_cases hs : t.mSvmType = eSvmType.NONE
  · by_cases hr : d.next.status = CL_SUCCESS
    · by_cases hv : t.mHostBuf = d.next.value
      · exact ⟨_, hostMapStep_ok haFlags queueNum t d q hs hq1 hr hv,
          Or.inr ⟨q, hq1, hs, rfl, Or.inl ⟨hr, hv, rfl, rfl⟩⟩⟩
      · exact ⟨_, hostMapStep_mismatch haFlags queueNum t d q hs hq1 hr hv,
          Or.inr ⟨q, hq1, hs, rfl, Or.inr (Or.inl ⟨hr, hv, rfl, rfl⟩)⟩⟩
    · exact ⟨_, hostMapStep_fail haFlags queueNum t d q hs hq1 hr,
        Or.inr ⟨q, hq1, hs, rfl, Or.inr (Or.inr ⟨hr, rfl, rfl⟩)⟩⟩
  · exact ⟨_, hostMapStep_svm haFlags queueNum t d hs, Or.inl ⟨rfl, rfl, hs, rfl⟩⟩

theorem sameAllocation_refl (s : clMemory) : s.sameAllocation s := by
  simp [clMemory.sameAllocation]

theorem sameAllocation_trans {a b c : clMemory} (h1 : a.sameAllocation b)
    (h2 : b.sameAllocation c) : a.sameAllocation c := by
  simp only [clMemory.sameAllocation] at *
  obtain ⟨a1, a2, a3, a4, a5, a6, a7, a8, a9⟩ := h1
  obtain ⟨b1, b2, b3, b4, b5, b6, b7, b8, b9⟩ := h2
  exact ⟨a1.trans b1, a2.trans b2, a3.trans b3, a4.trans b4, a5.trans b5, a6.trans b6,
    a7.trans b7, a8.trans b8, a9.trans b9⟩

theorem hostMapCall_isMapBuffer (haFlags : eMemFlags) (q : Nat) (t : clMemory) :
    (hostMapCall haFlags q t).isMapBuffer = true := rfl

theorem copyImageCalls_take_not_map (q : Nat) (s : clMemory) (dev : Device) (n : Nat) :
    ∀ c ∈ (copyImageCalls q s dev).take n, c.isMapBuffer = false := by
  intro c hc
  have := List.mem_of_mem_take hc
  simp only [copyImageCalls, List.mem_cons, List.mem_singleton, List.not_mem_nil, or_false] at this
  rcases this with h | h | h | h <;> subst h <;> rfl

/-- The trace form of `hostMapStep_spec`. -/
theorem hostMapStep_trace (haFlags : eMemFlags) (queueNum : Nat) (t : clMemory) (d : Device)
    (hq : t.mCommandQueues ≠ []) :
    ∃ r l, hostMapStep haFlags queueNum t d = some r ∧ r.dev.trace = d.trace ++ l ∧
      r.obj.sameAllocation t ∧ r.obj.mGpuLocked = t.mGpuLocked ∧ r.obj.mImageMem = t.mImageMem ∧
      r.obj.mMemLatest = t.mMemLatest ∧
      (r.error = CL_SUCCESS ∨ l ≠ []) ∧
      (∀ e ∈ l, e.call.isMapBuffer = true →
        (e.reply.status = CL_SUCCESS → e.reply.value = t.mHostBuf →
          r.error = CL_SUCCESS ∧ r.obj.mHostMapped = true ∧ r.obj.mMapFlags = haFlags) ∧
        (e.reply.value ≠ t.mHostBuf →
          r.error ≠ CL_SUCCESS ∧ r.obj.mHostMapped = t.mHostMapped ∧
          r.obj.mMapFlags = t.mMapFlags)) := by
  obtain ⟨r, hr, h⟩ := hostMapStep_spec haFlags queueNum t d hq
  rcases h with ⟨hd, he, _, ho⟩ | ⟨q, _, _, hd, h⟩
  · refine ⟨r, [], hr, by simp [hd], ?_, ?_, ?_, ?_, Or.inl he, by simp⟩ <;>
      simp [ho, clMemory.sameAllocation]
  · refine ⟨r, [⟨hostMapCall haFlags q t, d.next⟩], hr, by rw [hd, issue_trace], ?_⟩
    rcases h with ⟨h1, h2, h3, h4⟩ | ⟨h1, h2, h3, h4⟩ | ⟨h1, h3, h4⟩
    · simp [h4, h3, h2, clMemory.sameAllocation]
    · simp [h4, h3, h1, clMemory.sameAllocation, CL_MAP_FAILURE, CL_SUCCESS]
      intro _ hv
      exact absurd hv.symm h2
    · simp [h4, h3, h1, clMemory.sameAllocation]

theorem copyImageToBuffer_trace (queueNum : Nat) (s : clMemory) (dev : Device)
    (hi : s.mImageMem ≠ 0) (hq : s.mCommandQueues ≠ []) :
    ∃ r l, copyImageToBuffer queueNum s dev = some r ∧ r.dev.trace = dev.trace ++ l ∧ l ≠ [] ∧
      (∀ e ∈ l, e.call.isMapBuffer = false) ∧
      (r.error = CL_SUCCESS → r.obj = { s with mMemLatest := eMemLatest.SAME }) ∧
      (r.error ≠ CL_SUCCESS → r.obj = s) := by
  obtain ⟨q, hq1⟩ := getCommandQueue_some s queueNum hq
  obtain ⟨r, n, hr, hn1, hn4, hd, _, _, hok, hbad⟩ := copyImageToBuffer_spec queueNum s dev q hi hq1
  obtain ⟨l, hl1, hl2, hl3, _⟩ := issueAll_trace_calls dev ((copyImageCalls q s dev).take n)
  refine ⟨r, l, hr, by rw [hd, hl1], ?_, ?_, fun h => (hok h).2, hbad⟩
  · intro h
    rw [h] at hl3
    simp [copyImageCalls] at hl3
    omega
  · intro e he
    apply copyImageCalls_take_not_map q s dev n
    rw [← hl2]
    exact List.mem_map_of_mem _ he

/-- `setHostAccess` from an unlocked, unmapped state, in trace form. -/
theorem setHostAccess_unmapped_trace (haFlags : eMemFlags) (queueNum : Nat) (s : clMemory)
    (dev : Device) (hl : s.mGpuLocked = false) (hm : s.mHostMapped = false)
    (hq : s.mCommandQueues ≠ []) :
    ∃ r l, setHostAccess haFlags queueNum s dev = some r ∧ r.dev.trace = dev.trace ++ l ∧
      r.obj.sameAllocation s ∧ r.obj.mGpuLocked = false ∧ r.obj.mImageMem = s.mImageMem ∧
      (r.error = CL_SUCCESS ∨ l ≠ []) ∧
      (∀ e ∈ l, e.call.isMapBuffer = true →
        (e.reply.status = CL_SUCCESS → e.reply.value = s.mHostBuf →
          r.error = CL_SUCCESS ∧ r.obj.mHostMapped = true ∧ r.obj.mMapFlags = haFlags) ∧
        (e.reply.value ≠ s.mHostBuf →
          r.error ≠ CL_SUCCESS ∧ r.obj.mHostMapped = false ∧ r.obj.mMapFlags = s.mMapFlags)) := by
  by_cases hn : haFlags = eMemFlags.NONE
  · subst hn
    exact ⟨_, [], setHostAccess_none queueNum s dev hl hm, by simp, sameAllocation_refl s, hl, rfl,
      Or.inl rfl, by simp⟩
  rw [setHostAccess_unmapped haFlags queueNum s dev hl hm hn]
  by_cases hi : s.mImageMem = 0
  · rw [if_pos hi]
    obtain ⟨r, l, h1, h2, h3, h4, h5, _, h7, h8⟩ := hostMapStep_trace haFlags queueNum s dev hq
    exact ⟨r, l, h1, h2, h3, h4.trans hl, h5, h7, fun e he hmap =>
      ⟨(h8 e he hmap).1, fun hv => by
        obtain ⟨a, b, c⟩ := (h8 e he hmap).2 hv
        exact ⟨a, b.trans hm, c⟩⟩⟩
  · rw [if_neg hi]
    by_cases hw : haFlags = eMemFlags.WRITEONLY
    · rw [if_pos hw]
      obtain ⟨r, l, h1, h2, h3, h4, h5, _, h7, h8⟩ :=
        hostMapStep_trace haFlags queueNum { s with mMemLatest := eMemLatest.BUFFER } dev hq
      exact ⟨r, l, h1, h2, h3, h4.trans hl, h5, h7, fun e he hmap =>
        ⟨(h8 e he hmap).1, fun hv => by
          obtain ⟨a, b, c⟩ := (h8 e he hmap).2 hv
          exact ⟨a, b.trans hm, c⟩⟩⟩
    · rw [if_neg hw]
      obtain ⟨c, l1, hc, ht1, hne, hnomap, hok, hbad⟩ := copyImageToBuffer_trace queueNum s dev hi hq
      rw [hc]
      by_cases hce : c.error = CL_SUCCESS
      · have hco := hok hce
        simp only [hce, ne_eq, not_true_eq_false, if_false]
        have hq2 : c.obj.mCommandQueues ≠ [] := by rw [hco]; exact hq
        obtain ⟨r, l, h1, h2, h3, h4, h5, _, h7, h8⟩ := hostMapStep_trace haFlags queueNum c.obj c.dev hq2
        refine ⟨r, l1 ++ l, h1, by rw [h2, ht1, List.append_assoc], ?_, ?_, ?_, ?_, ?_⟩
        · rw [hco] at h3; exact h3
        · rw [h4, hco]; exact hl
        · rw [h5, hco]
        · exact Or.inr (by simp [hne])
        · intro e he hmap
          rcases List.mem_append.mp he with he1 | he2
          · rw [hnomap e he1] at hmap; exact absurd hmap (by simp)
          · have := h8 e he2 hmap
            rw [hco] at this
            exact ⟨this.1, fun hv => by
              obtain ⟨a, b, c⟩ := this.2 hv
              exact ⟨a, b.trans hm, c⟩⟩
      · have hco := hbad hce
        simp only [hce, ne_eq, not_false_eq_true, if_true]
        refine ⟨c, l1, rfl, ht1, by rw [hco]; exact sameAllocation_refl s, by rw [hco]; exact hl,
          by rw [hco], Or.inr hne, ?_⟩
        intro e he hmap
        rw [hnomap e he] at hmap; exact absurd hmap (by simp)

/-- `setHostAccess` on an unlocked object, whatever the device answers: it
returns; a failure is always the outcome of a device call; a map call, when one
is issued, decides the result. -/
theorem setHostAccess_trace (haFlags : eMemFlags) (queueNum : Nat) (s : clMemory)
    (dev : Device) (hl : s.mGpuLocked = false) (hq : s.mCommandQueues ≠ []) :
    ∃ r l, setHostAccess haFlags queueNum s dev = some r ∧ r.dev.trace = dev.trace ++ l ∧
      r.obj.sameAllocation s ∧ r.obj.mGpuLocked = false ∧ r.obj.mImageMem = s.mImageMem ∧
      (r.error = CL_SUCCESS ∨ l ≠ []) ∧
      (∀ e ∈ l, e.call.isMapBuffer = true →
        (e.reply.status = CL_SUCCESS → e.reply.value = s.mHostBuf →
          r.error = CL_SUCCESS ∧ r.obj.mHostMapped = true ∧ r.obj.mMapFlags = haFlags) ∧
        (e.reply.value ≠ s.mHostBuf →
          r.error ≠ CL_SUCCESS ∧ r.obj.mHostMapped = false ∧
          r.obj.mMapFlags = if s.mHostMapped then eMemFlags.NONE else s.mMapFlags)) := by
  by_cases hm : s.mHostMapped = true
  · by_cases hf : haFlags = s.mMapFlags
    · exact ⟨_, [], setHostAccess_same haFlags queueNum s dev hl hm hf, by simp,
        sameAllocation_refl s, hl, rfl, Or.inl rfl, by simp⟩
    · obtain ⟨u, hu, huo, hud⟩ := unmapMem_spec queueNum s dev hq
      rw [setHostAccess_remap haFlags queueNum s dev u hl hm hf hu]
      have hsa : u.obj.sameAllocation s := by rw [huo]; simp [clMemory.sameAllocation]
      have hul : u.obj.mGpuLocked = false := by rw [huo]; exact hl
      have hum : u.obj.mHostMapped = false := by rw [huo]
      have hui : u.obj.mImageMem = s.mImageMem := by rw [huo]
      have huf : u.obj.mMapFlags = eMemFlags.NONE := by rw [huo]; simp [hm]
      have huq : u.obj.mCommandQueues ≠ [] := by rw [hsa.2.1]; exact hq
      have hut : ∃ lu, u.dev.trace = dev.trace ++ lu ∧ (∀ e ∈ lu, e.call.isMapBuffer = false) ∧
          (u.error = CL_SUCCESS ∨ lu ≠ []) := by
        rcases hud with ⟨h1, h2⟩ | ⟨_, _, _, q, _, h2⟩
        · exact ⟨[], by simp [h1], by simp, Or.inl h2⟩
        · refine ⟨[⟨_, dev.next⟩], by rw [h2, issue_trace], ?_, Or.inr (by simp)⟩
          intro e he
          simp only [List.mem_singleton] at he
          subst he
          rfl
      obtain ⟨lu, hlu, hnomap, hune⟩ := hut
      by_cases hue : u.error = CL_SUCCESS
      · simp only [hue, ne_eq, not_true_eq_false, if_false]
        obtain ⟨r, l, h1, h2, h3, h4, h5, h6, h7⟩ :=
          setHostAccess_unmapped_trace haFlags queueNum u.obj u.dev hul hum huq
        refine ⟨r, lu ++ l, h1, by rw [h2, hlu, List.append_assoc], sameAllocation_trans h3 hsa, h4,
          h5.trans hui, ?_, ?_⟩
        · rcases h6 with h | h
          · exact Or.inl h
          · exact Or.inr (by simp [h])
        · intro e he hmap
          rcases List.mem_append.mp he with he1 | he2
          · rw [hnomap e he1] at hmap; exact absurd hmap (by simp)
          · have := h7 e he2 hmap
            rw [hsa.2.2.2.2.2.2.2.2, huf] at this
            simpa [hm] using this
      · simp only [hue, ne_eq, not_false_eq_true, if_true]
        refine ⟨u, lu, rfl, hlu, hsa, hul, hui, ?_, ?_⟩
        · rcases hune with h | h
          · exact absurd h hue
          · exact Or.inr h
        · intro e he hmap
          rw [hnomap e he] at hmap; exact absurd hmap (by simp)
  · simp only [Bool.not_eq_true] at hm
    obtain ⟨r, l, h1, h2, h3, h4, h5, h6, h7⟩ :=
      setHostAccess_unmapped_trace haFlags queueNum s dev hl hm hq
    exact ⟨r, l, h1, h2, h3, h4, h5, h6, by simpa [hm] using h7⟩

/-! ### Frame conditions of the two helpers -/

theorem copyImageToBuffer_frame (queueNum : Nat) (s : clMemory) (dev : Device) (r : Ret)
    (h : copyImageToBuffer queueNum s dev = some r) :
    r.obj = s ∨ r.obj = { s with mMemLatest := eMemLatest.SAME } := by
  unfold copyImageToBuffer at h
  simp only at h
  split at h
  · split at h
    · cases h; exact Or.inl rfl
    · split at h
      · cases h; exact Or.inl rfl
      · split at h
        · cases h; exact Or.inl rfl
        · split at h
          · exact absurd h (by simp)
          · split at h
            · cases h; exact Or.inl rfl
            · cases h; exact Or.inr rfl
  · cases h; exact Or.inl rfl

theorem unmapMem_frame (queueNum : Nat) (s : clMemory) (dev : Device) (u : Ret)
    (h : unmapMem queueNum s dev = some u) :
    u.obj = { s with mHostMapped := false,
                     mMapFlags := if s.mHostMapped then eMemFlags.NONE else s.mMapFlags } := by
  unfold unmapMem at h
  split at h
  · rename_i hm
    split at h
    · split at h
      · exact absurd h (by simp)
      · cases h; simp [hm]
    · cases h; simp [hm]
  · rename_i hm
    cases h
    cases s
    simp_all

/-! ### `getKernelMem` -/

theorem getKernelMem_image_existing (numDims : Nat) (access : eAccess) (isSVM : Bool)
    (queueNum : Nat) (s : clMemory) (dev : Device) (hi : s.mImageMem ≠ 0) :
    getKernelMem numDims true access isSVM queueNum s dev =
      imageArgStep access numDims isSVM queueNum s dev := by
  by_cases ha : access = eAccess.WRITEONLY
  · simp [getKernelMem, imageArgStep, hi, ha]
  · by_cases hb : s.mMemLatest = eMemLatest.BUFFER
    · simp only [getKernelMem, imageArgStep, hi, ha, hb, bufferToImageRegion]
      simp
      split <;> simp [CL_SUCCESS]
    · simp [getKernelMem, imageArgStep, hi, ha, hb]

theorem getKernelMem_image_create (numDims : Nat) (access : eAccess) (isSVM : Bool)
    (queueNum : Nat) (s : clMemory) (dev : Device) (hi : s.mImageMem = 0) :
    getKernelMem numDims true access isSVM queueNum s dev =
      if dev.next.status ≠ CL_SUCCESS then
        some ⟨dev.next.status, isSVM, KernelMemRef.pinnedMem,
          { s with mImageMem := dev.next.value }, dev.issue (createImageCall s numDims)⟩
      else imageArgStep access numDims isSVM queueNum { s with mImageMem := dev.next.value }
        (dev.issue (createImageCall s numDims)) := by
  by_cases hst : dev.next.status = CL_SUCCESS
  · by_cases ha : access = eAccess.WRITEONLY
    · simp [getKernelMem, imageArgStep, createImageCall, hi, ha, hst]
    · by_cases hb : s.mMemLatest = eMemLatest.BUFFER
      · simp only [getKernelMem, imageArgStep, createImageCall, hi, ha, hb, hst, bufferToImageRegion]
        simp
      · simp [getKernelMem, imageArgStep, createImageCall, hi, ha, hb, hst]
  · simp [getKernelMem, createImageCall, hi, hst]

theorem getKernelMem_linear_nocopy (numDims : Nat) (access : eAccess) (isSVM : Bool)
    (queueNum : Nat) (s : clMemory) (dev : Device)
    (h : ¬ (s.mImageMem ≠ 0 ∧ s.mMemLatest = eMemLatest.IMAGE)) :
    getKernelMem numDims false access isSVM queueNum s dev =
      some ⟨CL_SUCCESS, decide (s.mSvmType ≠ eSvmType.NONE),
        if s.mSvmType ≠ eSvmType.NONE then KernelMemRef.hostBuf else KernelMemRef.pinnedMem,
        s, dev⟩ := by
  simp only [getKernelMem, h]
  simp

theorem getKernelMem_linear_copy (numDims : Nat) (access : eAccess) (isSVM : Bool)
    (queueNum : Nat) (s : clMemory) (dev : Device) (c : Ret)
    (hi : s.mImageMem ≠ 0) (hl : s.mMemLatest = eMemLatest.IMAGE)
    (hc : copyImageToBuffer queueNum s dev = some c) :
    getKernelMem numDims false access isSVM queueNum s dev =
      if c.error ≠ CL_SUCCESS then some ⟨c.error, isSVM, KernelMemRef.imageMem, c.obj, c.dev⟩
      else some ⟨CL_SUCCESS, decide (c.obj.mSvmType ≠ eSvmType.NONE),
        if c.obj.mSvmType ≠ eSvmType.NONE then KernelMemRef.hostBuf else KernelMemRef.pinnedMem,
        c.obj, c.dev⟩ := by
  simp only [getKernelMem, hi, hl, hc]
  by_cases he : c.error = CL_SUCCESS <;> simp [he, hi]

theorem imageArgStep_frame (access : eAccess) (numDims : Nat) (isSVM : Bool) (queueNum : Nat)
    (t : clMemory) (d : Device) (k : KernelMemRet)
    (h : imageArgStep access numDims isSVM queueNum t d = some k) :
    k.obj = t ∨ k.obj = { t with mMemLatest := eMemLatest.IMAGE } := by
  unfold imageArgStep at h
  split at h
  · cases h; exact Or.inr rfl
  · split at h
    · split at h
      · exact absurd h (by simp)
      · split at h
        · exact absurd h (by simp)
        · simp only at h
          split at h <;> cases h <;> exact Or.inl rfl
    · cases h; exact Or.inl rfl

/-- `getKernelMem` assigns nothing but `mImageMem` and `mMemLatest`. -/
theorem getKernelMem_frame (numDims : Nat) (isImageParam : Bool) (access : eAccess) (isSVM : Bool)
    (queueNum : Nat) (s : clMemory) (dev : Device) (k : KernelMemRet)
    (h : getKernelMem numDims isImageParam access isSVM queueNum s dev = some k) :
    k.obj.sameAllocation s ∧ k.obj.mGpuLocked = s.mGpuLocked ∧
      k.obj.mHostMapped = s.mHostMapped ∧ k.obj.mMapFlags = s.mMapFlags := by
  cases isImageParam
  · by_cases hc : s.mImageMem ≠ 0 ∧ s.mMemLatest = eMemLatest.IMAGE
    · cases hcp : copyImageToBuffer queueNum s dev with
      | none => simp [getKernelMem, hc, hcp] at h
      | some c =>
        rw [getKernelMem_linear_copy numDims access isSVM queueNum s dev c hc.1 hc.2 hcp] at h
        have hco := copyImageToBuffer_frame queueNum s dev c hcp
        split at h <;> cases h <;> rcases hco with h' | h' <;>
          simp [h', clMemory.sameAllocation]
    · rw [getKernelMem_linear_nocopy numDims access isSVM queueNum s dev hc] at h
      cases h
      simp [clMemory.sameAllocation]
  · by_cases hi : s.mImageMem = 0
    · rw [getKernelMem_image_create numDims access isSVM queueNum s dev hi] at h
      split at h
      · cases h; simp [clMemory.sameAllocation]
      · rcases imageArgStep_frame _ _ _ _ _ _ _ h with h' | h' <;>
          simp [h', clMemory.sameAllocation]
    · rw [getKernelMem_image_existing numDims access isSVM queueNum s dev hi] at h
      rcases imageArgStep_frame _ _ _ _ _ _ _ h with h' | h' <;>
        simp [h', clMemory.sameAllocation]

/-- `setKernelParam` leaves the object unmapped and assigns, beyond the two map
flags, nothing but `mImageMem` and `mMemLatest`. -/
theorem setKernelParam_frame (kernel paramIndex : Nat) (isImageParam : Bool) (access : eAccess)
    (numDims queueNum : Nat) (s : clMemory) (dev : Device) (r : Ret)
    (h : gpuMemory.setKernelParam kernel paramIndex isImageParam access numDims queueNum s dev
      = some r) :
    r.obj.sameAllocation s ∧ r.obj.mGpuLocked = s.mGpuLocked ∧ r.obj.mHostMapped = false := by
  unfold gpuMemory.setKernelParam at h
  cases hu : unmapMem queueNum s dev with
  | none => simp [hu] at h
  | some u =>
    have huo := unmapMem_frame queueNum s dev u hu
    have hu1 : u.obj.sameAllocation s ∧ u.obj.mGpuLocked = s.mGpuLocked ∧
        u.obj.mHostMapped = false := by
      rw [huo]; simp [clMemory.sameAllocation]
    simp only [hu] at h
    split at h
    · cases h; exact hu1
    · cases hk : getKernelMem numDims isImageParam access false queueNum u.obj u.dev with
      | none => simp [hk] at h
      | some k =>
        obtain ⟨k1, k2, k3, _⟩ := getKernelMem_frame _ _ _ _ _ _ _ _ hk
        simp only [hk] at h
        split at h <;> cases h <;>
          exact ⟨sameAllocation_trans k1 hu1.1, k2.trans hu1.2.1, k3.trans hu1.2.2⟩

/-! ### Sequences of binds -/

theorem runOps_binds_locked (bs : List BindArgs) (s : clMemory) (dev : Device) (s1 : clMemory)
    (dev1 : Device) (hl : s.mGpuLocked = true)
    (h : runOps (bs.map Op.bind) s dev = some (s1, dev1)) : s1.mGpuLocked = true := by
  induction bs generalizing s dev with
  | nil =>
    simp only [List.map_nil, runOps, Option.some.injEq, Prod.mk.injEq] at h
    rw [← h.1]; exact hl
  | cons b bs ih =>
    simp only [List.map_cons, runOps, Op.run] at h
    cases hb : gpuMemory.bind b s dev with
    | none => simp [hb] at h
    | some r =>
      simp only [hb, Option.map_some'] at h
      have hf := setKernelParam_frame _ _ _ _ _ _ _ _ _ hb
      exact ih r.obj r.dev (hf.2.1.trans hl) h

/-! ### A device that keeps succeeding -/

theorem issue_pinned (dev : Device) (c : DevCall) (h : c.isCopyImageToBuffer = false) :
    (dev.issue c).pinned = dev.pinned := by
  unfold Device.issue Device.transfer
  split
  · simp [DevCall.isCopyImageToBuffer] at h
  · split <;> rfl
  · rfl

theorem issue_image (dev : Device) (c : DevCall) (h : c.isCopyBufferToImage = false) :
    (dev.issue c).image = dev.image := by
  unfold Device.issue Device.transfer
  split
  · split <;> rfl
  · simp [DevCall.isCopyBufferToImage] at h
  · rfl

theorem issue_steadyAt (dev : Device) (c : DevCall) (p : Nat) (h : dev.SteadyAt p) :
    (dev.issue c).SteadyAt p := by
  intro i
  rw [issue_replies]
  exact h (i + 1)

/-- On a device that keeps succeeding with the recorded host address, an
unlocked object without image allocation is mapped in the requested mode, and
the bytes of the linear buffer are not touched. -/
theorem setHostAccess_steady (haFlags : eMemFlags) (queueNum : Nat) (s : clMemory) (dev : Device)
    (hl : s.mGpuLocked = false) (hq : s.mCommandQueues ≠ []) (hs : s.mSvmType = eSvmType.NONE)
    (hi : s.mImageMem = 0) (hn : haFlags ≠ eMemFlags.NONE)
    (hmf : s.mHostMapped = true ∨ s.mMapFlags = eMemFlags.NONE)
    (hd : dev.SteadyAt s.mHostBuf) :
    ∃ r, setHostAccess haFlags queueNum s dev = some r ∧ r.error = CL_SUCCESS ∧
      r.obj = { s with mHostMapped := true, mMapFlags := haFlags } ∧
      r.dev.SteadyAt s.mHostBuf ∧ r.dev.pinned = dev.pinned := by
  have unmapped : ∀ (t : clMemory) (d : Device), t.mGpuLocked = false → t.mHostMapped = false →
      t.mCommandQueues ≠ [] → t.mSvmType = eSvmType.NONE → t.mImageMem = 0 →
      d.SteadyAt t.mHostBuf →
      ∃ r, setHostAccess haFlags queueNum t d = some r ∧ r.error = CL_SUCCESS ∧
        r.obj = { t with mHostMapped := true, mMapFlags := haFlags } ∧
        r.dev.SteadyAt t.mHostBuf ∧ r.dev.pinned = d.pinned := by
    intro t d tl tm tq ts ti td
    obtain ⟨q, hq1⟩ := getCommandQueue_some t queueNum tq
    rw [setHostAccess_unmapped haFlags queueNum t d tl tm hn, if_pos ti,
      hostMapStep_ok haFlags queueNum t d q ts hq1 (td 0).1 (td 0).2.symm]
    exact ⟨_, rfl, rfl, rfl, issue_steadyAt d (hostMapCall haFlags q t) _ td,
      issue_pinned d (hostMapCall haFlags q t) rfl⟩
  by_cases hm : s.mHostMapped = true
  · by_cases hf : haFlags = s.mMapFlags
    · refine ⟨_, setHostAccess_same haFlags queueNum s dev hl hm hf, rfl, ?_, hd, rfl⟩
      cases s; simp_all
    · obtain ⟨q, hq1⟩ := getCommandQueue_some s queueNum hq
      have hu := unmapMem_mapped queueNum s dev q hm hs hq1
      rw [setHostAccess_remap haFlags queueNum s dev _ hl hm hf hu]
      simp only [(hd 0), Device.next, ne_eq, not_true_eq_false, if_false]
      obtain ⟨r, h1, h2, h3, h4, h5⟩ := unmapped
        { s with mHostMapped := false, mMapFlags := eMemFlags.NONE }
        (dev.issue (.clEnqueueUnmapMemObject q s.mPinnedMem s.mHostBuf)) hl rfl hq hs hi
        (issue_steadyAt _ _ _ hd)
      exact ⟨r, h1, h2, h3, h4, h5.trans (issue_pinned _ _ rfl)⟩
  · simp only [Bool.not_eq_true] at hm
    exact unmapped s dev hl hm hq hs hi hd

/-! ### `allocate` -/

theorem allocate_created (s : clMemory) (dev : Device) (q : Nat)
    (hs : s.mSvmType = eSvmType.NONE) (hq : s.mCommandQueues[0]? = some q)
    (h0 : (dev.replies 0).status = CL_SUCCESS) :
    allocate s dev = some ⟨decide ((dev.replies 1).value ≠ 0),
      { s with mPinnedMem := (dev.replies 0).value, mHostBuf := (dev.replies 1).value,
               mHostMapped := true,
               mMapFlags := if s.mMemFlags = eMemFlags.READONLY then eMemFlags.WRITEONLY
                            else eMemFlags.READWRITE },
      (dev.issue (.clCreateBuffer s.mContext (clMemFlagsOf s.mMemFlags ||| CL_MEM_ALLOC_HOST_PTR)
          s.mNumBytes)).issue
        (.clEnqueueMapBuffer q (dev.replies 0).value CL_TRUE
          (if s.mMemFlags = eMemFlags.READONLY then CL_MAP_WRITE_INVALIDATE_REGION
           else if s.mMemFlags = eMemFlags.WRITEONLY then CL_MAP_READ
           else CL_MAP_READ ||| CL_MAP_WRITE) 0 s.mNumBytes)⟩ := by
  have h0' : dev.next.status = CL_SUCCESS := h0
  unfold allocate
  simp only [hs, h0', hq, if_true, issue_next]
  rfl

theorem allocate_svm (s : clMemory) (dev : Device) (hs : s.mSvmType ≠ eSvmType.NONE) :
    allocate s dev = some ⟨decide (s.mHostBuf ≠ 0), s, dev⟩ := by
  unfold allocate
  cases h : s.mSvmType <;> simp_all

/-! ### `setKernelParam` -/

/-- The three ways `setKernelParam` returns. -/
theorem setKernelParam_inv (kernel paramIndex : Nat) (isImageParam : Bool) (access : eAccess)
    (numDims queueNum : Nat) (s : clMemory) (dev : Device) (r : Ret)
    (h : gpuMemory.setKernelParam kernel paramIndex isImageParam access numDims queueNum s dev
      = some r) :
    ∃ u, unmapMem queueNum s dev = some u ∧
      ((u.error ≠ CL_SUCCESS ∧ r = u) ∨
       (u.error = CL_SUCCESS ∧
        ∃ k, getKernelMem numDims isImageParam access false queueNum u.obj u.dev = some k ∧
          ((k.error ≠ CL_SUCCESS ∧ r = ⟨k.error, k.obj, k.dev⟩) ∨
           (k.error = CL_SUCCESS ∧
            r = ⟨k.dev.next.status, k.obj,
              k.dev.issue (.clSetKernelArg kernel paramIndex (k.kernelMem.deref k.obj))⟩)))) := by
  unfold gpuMemory.setKernelParam at h
  cases hu : unmapMem queueNum s dev with
  | none => simp [hu] at h
  | some u =>
    simp only [hu] at h
    refine ⟨u, rfl, ?_⟩
    by_cases hue : u.error = CL_SUCCESS
    · simp only [hue, ne_eq, not_true_eq_false, if_false] at h
      cases hk : getKernelMem numDims isImageParam access false queueNum u.obj u.dev with
      | none => simp [hk] at h
      | some k =>
        simp only [hk] at h
        refine Or.inr ⟨hue, k, rfl, ?_⟩
        by_cases hke : k.error = CL_SUCCESS
        · simp only [hke, ne_eq, not_true_eq_false, if_false, Option.some.injEq] at h
          exact Or.inr ⟨hke, h.symm⟩
        · simp only [hke, ne_eq, not_false_eq_true, if_true, Option.some.injEq] at h
          exact Or.inl ⟨hke, h.symm⟩
    · simp only [hue, ne_eq, not_false_eq_true, if_true, Option.some.injEq] at h
      exact Or.inl ⟨hue, h.symm⟩

/-- The device after `unmapMem`: untouched, or one unmap call later. -/
theorem unmapMem_dev (queueNum : Nat) (s : clMemory) (dev : Device) (u : Ret)
    (h : unmapMem queueNum s dev = some u) :
    ∃ cs, u.dev = dev.issueAll cs ∧ (∀ c ∈ cs, c.isCopy = false ∧ c.isMapBuffer = false) ∧
      (s.mHostMapped = false → cs = []) := by
  unfold unmapMem at h
  split at h
  · rename_i hm
    split at h
    · split at h
      · exact absurd h (by simp)
      · rename_i q hq
        cases h
        refine ⟨[.clEnqueueUnmapMemObject q s.mPinnedMem s.mHostBuf], rfl, ?_, by simp [hm]⟩
        intro c hc
        simp only [List.mem_singleton] at hc
        subst hc
        exact ⟨rfl, rfl⟩
    · cases h
      exact ⟨[], rfl, by simp, fun _ => rfl⟩
  · cases h
    exact ⟨[], rfl, by simp, fun _ => rfl⟩

/-- A successful image-shaped `getKernelMem` with `WRITEONLY` access: at most the
`clCreateImage` call, the image handle in place, the image marked latest. -/
theorem getKernelMem_image_writeonly (numDims : Nat) (isSVM : Bool) (queueNum : Nat)
    (s : clMemory) (dev : Device) (k : KernelMemRet)
    (h : getKernelMem numDims true eAccess.WRITEONLY isSVM queueNum s dev = some k)
    (hk : k.error = CL_SUCCESS) :
    k.obj.mMemLatest = eMemLatest.IMAGE ∧ k.kernelMem = KernelMemRef.imageMem ∧
    ((s.mImageMem ≠ 0 ∧ k.dev = dev ∧ k.obj.mImageMem = s.mImageMem) ∨
     (s.mImageMem = 0 ∧ k.dev = dev.issue (createImageCall s numDims) ∧
      dev.next.status = CL_SUCCESS ∧ k.obj.mImageMem = dev.next.value)) := by
  by_cases hi : s.mImageMem = 0
  · rw [getKernelMem_image_create numDims _ isSVM queueNum s dev hi] at h
    by_cases hst : dev.next.status = CL_SUCCESS
    · simp only [hst, ne_eq, not_true_eq_false, if_false, imageArgStep, if_true,
        Option.some.injEq] at h
      subst h
      exact ⟨rfl, rfl, Or.inr ⟨hi, rfl, hst, rfl⟩⟩
    · simp only [hst, ne_eq, not_false_eq_true, if_true, Option.some.injEq] at h
      subst h
      exact absurd hk hst
  · rw [getKernelMem_image_existing numDims _ isSVM queueNum s dev hi] at h
    simp only [imageArgStep, if_true, Option.some.injEq] at h
    subst h
    exact ⟨rfl, rfl, Or.inl ⟨hi, rfl, rfl⟩⟩

theorem imageArgStep_total (access : eAccess) (numDims : Nat) (isSVM : Bool) (queueNum : Nat)
    (t : clMemory) (d : Device) (hq : t.mCommandQueues ≠ [])
    (hnd : access = eAccess.WRITEONLY ∨ numDims ≤ 3) :
    ∃ k, imageArgStep access numDims isSVM queueNum t d = some k := by
  obtain ⟨q, hq1⟩ := getCommandQueue_some t queueNum hq
  unfold imageArgStep
  by_cases ha : access = eAccess.WRITEONLY
  · simp [ha]
  · have hnd3 : ¬ numDims > 3 := by
      rcases hnd with h | h
      · exact absurd h ha
      · omega
    simp only [ha, hnd3, hq1, if_false]
    split
    · split <;> exact ⟨_, rfl⟩
    · exact ⟨_, rfl⟩

theorem getKernelMem_total (numDims : Nat) (isImageParam : Bool) (access : eAccess)
    (isSVM : Bool) (queueNum : Nat) (s : clMemory) (dev : Device) (hq : s.mCommandQueues ≠ [])
    (hnd : isImageParam = false ∨ access = eAccess.WRITEONLY ∨ numDims ≤ 3) :
    ∃ k, getKernelMem numDims isImageParam access isSVM queueNum s dev = some k := by
  cases isImageParam
  · by_cases hc : s.mImageMem ≠ 0 ∧ s.mMemLatest = eMemLatest.IMAGE
    · obtain ⟨q, hq1⟩ := getCommandQueue_some s queueNum hq
      obtain ⟨c, _, hc1, _⟩ := copyImageToBuffer_spec queueNum s dev q hc.1 hq1
      rw [getKernelMem_linear_copy numDims access isSVM queueNum s dev c hc.1 hc.2 hc1]
      split <;> exact ⟨_, rfl⟩
    · exact ⟨_, getKernelMem_linear_nocopy numDims access isSVM queueNum s dev hc⟩
  · have hnd2 : access = eAccess.WRITEONLY ∨ numDims ≤ 3 := by
      rcases hnd with h | h
      · exact absurd h (by simp)
      · exact h
    by_cases hi : s.mImageMem = 0
    · rw [getKernelMem_image_create numDims access isSVM queueNum s dev hi]
      split
      · exact ⟨_, rfl⟩
      · exact imageArgStep_total _ _ _ _ _ _ hq hnd2
    · rw [getKernelMem_image_existing numDims access isSVM queueNum s dev hi]
      exact imageArgStep_total _ _ _ _ _ _ hq hnd2

theorem setKernelParam_total (kernel paramIndex : Nat) (isImageParam : Bool) (access : eAccess)
    (numDims queueNum : Nat) (s : clMemory) (dev : Device) (hq : s.mCommandQueues ≠ [])
    (hnd : isImageParam = false ∨ access = eAccess.WRITEONLY ∨ numDims ≤ 3) :
    ∃ r, gpuMemory.setKernelParam kernel paramIndex isImageParam access numDims queueNum s dev
      = some r := by
  obtain ⟨u, hu, huo, _⟩ := unmapMem_spec queueNum s dev hq
  have huq : u.obj.mCommandQueues ≠ [] := by rw [huo]; exact hq
  obtain ⟨k, hk⟩ := getKernelMem_total numDims isImageParam access false queueNum u.obj u.dev
    huq hnd
  unfold gpuMemory.setKernelParam
  simp only [hu, hk]
  split
  · exact ⟨_, rfl⟩
  · split <;> exact ⟨_, rfl⟩

/-! ### Sequences of operations -/

/-- Every operation returns and keeps the fields of `sameAllocation`. -/
theorem Op_run_spec (o : Op) (s : clMemory) (dev : Device) (hq : s.mCommandQueues ≠ [])
    (hnd : ∀ b, o = Op.bind b → b.numDims ≤ 3) :
    ∃ s1 dev1, o.run s dev = some (s1, dev1) ∧ s1.sameAllocation s := by
  cases o with
  | hostAccess haFlags queueNum =>
    by_cases hl : s.mGpuLocked = true
    · exact ⟨s, dev, by simp [Op.run, setHostAccess_locked _ _ _ _ hl], sameAllocation_refl s⟩
    · simp only [Bool.not_eq_true] at hl
      obtain ⟨r, _, h1, _, h3, _⟩ := setHostAccess_trace haFlags queueNum s dev hl hq
      exact ⟨r.obj, r.dev, by simp [Op.run, h1], h3⟩
  | acquire => exact ⟨_, _, rfl, by simp [getGPUMemory, clMemory.sameAllocation]⟩
  | bind b =>
    obtain ⟨r, hr⟩ := setKernelParam_total b.kernel b.paramIndex b.isImageParam b.access
      b.numDims b.queueNum s dev hq (Or.inr (Or.inr (hnd b rfl)))
    exact ⟨r.obj, r.dev, by simp [Op.run, gpuMemory.bind, hr],
      (setKernelParam_frame _ _ _ _ _ _ _ _ _ hr).1⟩
  | release =>
    exact ⟨_, _, rfl, by simp [gpuMemory.destroy, onGpuReturn, clMemory.sameAllocation]⟩

theorem runOps_spec (ops : List Op) (s : clMemory) (dev : Device) (hq : s.mCommandQueues ≠ [])
    (hnd : ∀ b, Op.bind b ∈ ops → b.numDims ≤ 3) :
    ∃ s1 dev1, runOps ops s dev = some (s1, dev1) ∧ s1.sameAllocation s := by
  induction ops generalizing s dev with
  | nil => exact ⟨s, dev, rfl, sameAllocation_refl s⟩
  | cons o os ih =>
    obtain ⟨s1, dev1, h1, h2⟩ := Op_run_spec o s dev hq
      (fun b hb => hnd b (by rw [hb]; exact List.mem_cons_self _ _))
    obtain ⟨s2, dev2, h3, h4⟩ := ih s1 dev1 (by rw [h2.2.1]; exact hq)
      (fun b hb => hnd b (List.mem_cons_of_mem _ hb))
    exact ⟨s2, dev2, by simp [runOps, h1, h3], sameAllocation_trans h4 h2⟩

/-! ### `allocate`, continued -/

theorem allocate_create_failed (s : clMemory) (dev : Device)
    (hs : s.mSvmType = eSvmType.NONE) (h0 : (dev.replies 0).status ≠ CL_SUCCESS) :
    allocate s dev = some ⟨decide (s.mHostBuf ≠ 0),
      { s with mPinnedMem := (dev.replies 0).value, mHostMapped := true,
               mMapFlags := if s.mMemFlags = eMemFlags.READONLY then eMemFlags.WRITEONLY
                            else eMemFlags.READWRITE },
      dev.issue (createBufferCall s)⟩ := by
  have h0' : ¬ dev.next.status = CL_SUCCESS := h0
  unfold allocate
  simp only [hs, h0', if_false]
  rfl

theorem allocate_created_calls (s : clMemory) (dev : Device) (q : Nat)
    (hs : s.mSvmType = eSvmType.NONE) (hq : s.mCommandQueues[0]? = some q)
    (h0 : (dev.replies 0).status = CL_SUCCESS) :
    ∃ a, allocate s dev = some a ∧ a.ok = decide ((dev.replies 1).value ≠ 0) ∧
      a.dev = dev.issueAll [createBufferCall s, allocateMapCall q s (dev.replies 0).value] ∧
      a.obj = { s with mPinnedMem := (dev.replies 0).value, mHostBuf := (dev.replies 1).value,
                       mHostMapped := true,
                       mMapFlags := if s.mMemFlags = eMemFlags.READONLY then eMemFlags.WRITEONLY
                                    else eMemFlags.READWRITE } :=
  ⟨_, allocate_created s dev q hs hq h0, rfl, rfl, rfl⟩

theorem since_issueAll_two (dev : Device) (c1 c2 : DevCall) :
    (dev.issueAll [c1, c2]).since dev = [⟨c1, dev.replies 0⟩, ⟨c2, dev.replies 1⟩] := by
  have h : (dev.issueAll [c1, c2]).trace = dev.trace ++ [⟨c1, dev.replies 0⟩, ⟨c2, dev.replies 1⟩] := by
    show ((dev.issue c1).issue c2).trace = _
    rw [issue_trace, issue_trace, issue_next]
    simp [Device.next]
  exact since_of_trace _ _ _ h

/-! ### While the lock is held -/

/-- While the lock is held and no guard is destroyed, every operation returns
and leaves the object locked and not host-mapped. -/
theorem runOps_locked_unmapped (ops : List Op) (s : clMemory) (dev : Device)
    (hl : s.mGpuLocked = true) (hm : s.mHostMapped = false) (hq : s.mCommandQueues ≠ [])
    (hrel : ∀ o ∈ ops, o ≠ Op.release) (hnd : ∀ b, Op.bind b ∈ ops → b.numDims ≤ 3) :
    ∃ s1 dev1, runOps ops s dev = some (s1, dev1) ∧ s1.mGpuLocked = true ∧
      s1.mHostMapped = false ∧ s1.mCommandQueues = s.mCommandQueues := by
  induction ops generalizing s dev with
  | nil => exact ⟨s, dev, rfl, hl, hm, rfl⟩
  | cons o os ih =>
    have hstep : ∃ s1 dev1, o.run s dev = some (s1, dev1) ∧ s1.mGpuLocked = true ∧
        s1.mHostMapped = false ∧ s1.mCommandQueues = s.mCommandQueues := by
      cases o with
      | hostAccess haFlags queueNum =>
        exact ⟨s, dev, by simp [Op.run, setHostAccess_locked _ _ _ _ hl], hl, hm, rfl⟩
      | acquire => exact ⟨getGPUMemory s, dev, rfl, rfl, hm, rfl⟩
      | bind b =>
        obtain ⟨r, hr⟩ := setKernelParam_total b.kernel b.paramIndex b.isImageParam b.access
          b.numDims b.queueNum s dev hq
          (Or.inr (Or.inr (hnd b (List.mem_cons_self _ _))))
        obtain ⟨f1, f2, f3⟩ := setKernelParam_frame _ _ _ _ _ _ _ _ _ hr
        exact ⟨r.obj, r.dev, by simp [Op.run, gpuMemory.bind, hr], f2.trans hl, f3, f1.2.1⟩
      | release => exact absurd rfl (hrel Op.release (List.mem_cons_self _ _))
    obtain ⟨s1, dev1, h1, h2, h3, h4⟩ := hstep
    obtain ⟨s2, dev2, h5, h6, h7, h8⟩ := ih s1 dev1 h2 h3 (by rw [h4]; exact hq)
      (fun o ho => hrel o (List.mem_cons_of_mem _ ho))
      (fun b hb => hnd b (List.mem_cons_of_mem _ hb))
    exact ⟨s2, dev2, by simp [runOps, h1, h5], h6, h7, h8.trans h4⟩

/-! ### Runs that stop at the first failing call -/

theorem failStop_nil : FailStop [] CL_SUCCESS := Or.inl ⟨rfl, by simp⟩

theorem failStop_single (e : Event) : FailStop [e] e.reply.status := by
  by_cases h : e.reply.status = CL_SUCCESS
  · exact Or.inl ⟨h, by simp [h]⟩
  · exact Or.inr ⟨h, [], e, rfl, by simp, rfl⟩

theorem failStop_append {l1 l2 : List Event} {error : Int} (h1 : FailStop l1 CL_SUCCESS)
    (h2 : FailStop l2 error) : FailStop (l1 ++ l2) error := by
  have hall : ∀ e ∈ l1, e.reply.status = CL_SUCCESS := by
    rcases h1 with ⟨_, h⟩ | ⟨h, _⟩
    · exact h
    · exact absurd rfl h
  rcases h2 with ⟨he, h⟩ | ⟨he, pre, e, hl, hpre, hst⟩
  · refine Or.inl ⟨he, fun e hm => ?_⟩
    rcases List.mem_append.mp hm with h' | h'
    · exact hall e h'
    · exact h e h'
  · refine Or.inr ⟨he, l1 ++ pre, e, by rw [hl, List.append_assoc], fun x hx => ?_, hst⟩
    rcases List.mem_append.mp hx with h' | h'
    · exact hall x h'
    · exact hpre x h'

/-- In such a run a failing event is the last one, and its status is the one returned. -/
theorem failStop_failing {l : List Event} {error : Int} (h : FailStop l error) (e : Event)
    (he : e ∈ l) (hst : e.reply.status ≠ CL_SUCCESS) :
    error = e.reply.status ∧ ∃ pre, l = pre ++ [e] ∧ ∀ x ∈ pre, x.reply.status = CL_SUCCESS := by
  rcases h with ⟨_, hall⟩ | ⟨_, pre, e1, hl, hpre, hst1⟩
  · exact absurd (hall e he) hst
  · rw [hl] at he
    rcases List.mem_append.mp he with h' | h'
    · exact absurd (hpre e h') hst
    · simp only [List.mem_singleton] at h'
      subst h'
      exact ⟨hst1.symm, pre, hl, hpre⟩

theorem failStop_success {l : List Event} {error : Int} (h : FailStop l error)
    (he : error = CL_SUCCESS) : ∀ e ∈ l, e.reply.status = CL_SUCCESS := by
  rcases h with ⟨_, hall⟩ | ⟨hne, _⟩
  · exact hall
  · exact absurd he hne

/-- The events of `issueAll`, when every call but the last got a success and the
last one's status is `error`. -/
theorem failStop_issueAll (dev : Device) (cs : List DevCall) (error : Int) (hne : cs ≠ [])
    (hpre : ∀ i, i + 1 < cs.length → (dev.replies i).status = CL_SUCCESS)
    (hlast : error = (dev.replies (cs.length - 1)).status) :
    ∃ l, (dev.issueAll cs).trace = dev.trace ++ l ∧ l.map Event.call = cs ∧ FailStop l error ∧
      ∀ (i : Nat) (h : i < l.length), (l.get ⟨i, h⟩).reply = dev.replies i := by
  obtain ⟨l, h1, h2, h3, h4⟩ := issueAll_trace_calls dev cs
  refine ⟨l, h1, h2, ?_, h4⟩
  have hlne : l ≠ [] := by
    intro h; rw [h] at h3; exact hne (List.length_eq_zero.mp h3.symm)
  have hsplit : l = l.dropLast ++ [l.getLast hlne] := (List.dropLast_append_getLast hlne).symm
  have hlastEv : (l.getLast hlne).reply = dev.replies (cs.length - 1) := by
    rw [List.getLast_eq_getElem]
    have := h4 (l.length - 1) (by have := List.length_pos.mpr hlne; omega)
    rw [← h3]
    simpa using this
  have hpreEv : ∀ x ∈ l.dropLast, x.reply.status = CL_SUCCESS := by
    intro x hx
    obtain ⟨i, hi, rfl⟩ := List.getElem_of_mem hx
    rw [List.length_dropLast] at hi
    rw [List.getElem_dropLast]
    have := h4 i (by omega)
    have h5 : l[i].reply = dev.replies i := by simpa using this
    rw [h5]
    exact hpre i (by omega)
  by_cases he : error = CL_SUCCESS
  · refine Or.inl ⟨he, fun e hm => ?_⟩
    rw [hsplit] at hm
    rcases List.mem_append.mp hm with h' | h'
    · exact hpreEv e h'
    · simp only [List.mem_singleton] at h'
      rw [h', hlastEv, ← hlast, he]
  · exact Or.inr ⟨he, l.dropLast, l.getLast hlne, hsplit, hpreEv, by rw [hlastEv, ← hlast]⟩

theorem isUnmap_not_map (c : DevCall) (h : c.isUnmap = true) : c.isMapBuffer = false := by
  cases c <;> first | rfl | exact absurd h (by simp [DevCall.isUnmap])

/-- The events of `unmapMem`: none, or the one unmap call, whose status is returned. -/
theorem unmapMem_events (queueNum : Nat) (s : clMemory) (dev : Device)
    (hq : s.mCommandQueues ≠ []) :
    ∃ u l, unmapMem queueNum s dev = some u ∧ u.dev.trace = dev.trace ++ l ∧
      FailStop l u.error ∧ (∀ e ∈ l, e.call.isUnmap = true) ∧ l.length ≤ 1 ∧
      (s.mHostMapped = false → l = []) := by
  obtain ⟨u, hu, _, hd⟩ := unmapMem_spec queueNum s dev hq
  rcases hd with ⟨h1, h2⟩ | ⟨hm, _, h2, q, _, h4⟩
  · exact ⟨u, [], hu, by simp [h1], by rw [h2]; exact failStop_nil, by simp, by simp,
      fun _ => rfl⟩
  · refine ⟨u, [⟨.clEnqueueUnmapMemObject q s.mPinnedMem s.mHostBuf, dev.next⟩], hu,
      by rw [h4, issue_trace], by rw [h2]; exact failStop_single _, ?_, by simp, ?_⟩
    · intro e he
      simp only [List.mem_singleton] at he
      subst he
      rfl
    · intro h; rw [hm] at h; exact absurd h (by simp)

/-- The events of `copyImageToBuffer` when an image exists: a non-empty initial
part of `copyImageCalls`, stopping at the first failure. -/
theorem copyImageToBuffer_events (queueNum : Nat) (s : clMemory) (dev : Device) (q : Nat)
    (hi : s.mImageMem ≠ 0) (hq : getCommandQueue s queueNum = some q) :
    ∃ c l n, copyImageToBuffer queueNum s dev = some c ∧ c.dev.trace = dev.trace ++ l ∧
      FailStop l c.error ∧ 1 ≤ n ∧ n ≤ 4 ∧ l.length = n ∧
      l.map Event.call = (copyImageCalls q s dev).take n ∧
      (∀ (i : Nat) (h : i < l.length), (l.get ⟨i, h⟩).reply = dev.replies i) ∧
      (c.error = CL_SUCCESS → n = 4 ∧ c.obj = { s with mMemLatest := eMemLatest.SAME }) ∧
      (c.error ≠ CL_SUCCESS → c.obj = s) := by
  obtain ⟨c, n, hc, hn1, hn4, hd, hpre, herr, hok, hbad⟩ :=
    copyImageToBuffer_spec queueNum s dev q hi hq
  have hlen : ((copyImageCalls q s dev).take n).length = n := by
    simp [copyImageCalls]; omega
  have hne : (copyImageCalls q s dev).take n ≠ [] := by
    intro h; rw [h] at hlen; simp at hlen; omega
  obtain ⟨l, h1, h2, h3, h4⟩ := failStop_issueAll dev _ c.error hne
    (by rw [hlen]; exact hpre) (by rw [hlen]; exact herr)
  refine ⟨c, l, n, hc, by rw [hd, h1], h3, hn1, hn4, ?_, h2, h4, hok, hbad⟩
  rw [← hlen, ← h2, List.length_map]

/-- A failing event of `hostMapStep` is the map call; its status is returned
and the object is left as it was. -/
theorem hostMapStep_failing (haFlags : eMemFlags) (queueNum : Nat) (t : clMemory) (d : Device)
    (hq : t.mCommandQueues ≠ []) :
    ∃ r l, hostMapStep haFlags queueNum t d = some r ∧ r.dev.trace = d.trace ++ l ∧
      (∀ e ∈ l, e.call.isMapBuffer = true) ∧
      (∀ e ∈ l, e.reply.status ≠ CL_SUCCESS → r.error = e.reply.status ∧ r.obj = t) := by
  obtain ⟨r, hr, h⟩ := hostMapStep_spec haFlags queueNum t d hq
  rcases h with ⟨hd, _, _, _⟩ | ⟨q, _, _, hd, h⟩
  · exact ⟨r, [], hr, by simp [hd], by simp, by simp⟩
  · refine ⟨r, [⟨hostMapCall haFlags q t, d.next⟩], hr, by rw [hd, issue_trace], ?_, ?_⟩
    · intro e he
      simp only [List.mem_singleton] at he
      subst he; rfl
    · intro e he hst
      simp only [List.mem_singleton] at he
      subst he
      rcases h with ⟨h1, _⟩ | ⟨h1, _⟩ | ⟨_, h3, h4⟩
      · exact absurd h1 hst
      · exact absurd h1 hst
      · exact ⟨h3, h4⟩

/-- A failing device call inside `setHostAccess` is returned to the caller.  When
it is the map call, the object is left unmapped, its recorded mode being the
one in force when the map call was issued. -/
theorem setHostAccess_failing (haFlags : eMemFlags) (queueNum : Nat) (s : clMemory)
    (dev : Device) (hq : s.mCommandQueues ≠ []) :
    ∃ r l, setHostAccess haFlags queueNum s dev = some r ∧ r.dev.trace = dev.trace ++ l ∧
      ∀ e ∈ l, e.reply.status ≠ CL_SUCCESS →
        r.error = e.reply.status ∧
        (e.call.isMapBuffer = true →
          r.obj.mHostMapped = false ∧
          r.obj.mMapFlags = if s.mHostMapped then eMemFlags.NONE else s.mMapFlags) := by
  by_cases hl : s.mGpuLocked = true
  · exact ⟨_, [], setHostAccess_locked _ _ _ _ hl, by simp, by simp⟩
  simp only [Bool.not_eq_true] at hl
  -- from an unmapped state
  have unmapped : ∀ (t : clMemory) (d : Device), t.mGpuLocked = false → t.mHostMapped = false →
      t.mCommandQueues ≠ [] →
      ∃ r l, setHostAccess haFlags queueNum t d = some r ∧ r.dev.trace = d.trace ++ l ∧
        ∀ e ∈ l, e.reply.status ≠ CL_SUCCESS →
          r.error = e.reply.status ∧
          (e.call.isMapBuffer = true → r.obj.mHostMapped = false ∧ r.obj.mMapFlags = t.mMapFlags) := by
    intro t d tl tm tq
    by_cases hn : haFlags = eMemFlags.NONE
    · subst hn
      exact ⟨_, [], setHostAccess_none queueNum t d tl tm, by simp, by simp⟩
    rw [setHostAccess_unmapped haFlags queueNum t d tl tm hn]
    by_cases hi : t.mImageMem = 0
    · rw [if_pos hi]
      obtain ⟨r, l, h1, h2, _, h4⟩ := hostMapStep_failing haFlags queueNum t d tq
      refine ⟨r, l, h1, h2, fun e he hst => ?_⟩
      obtain ⟨a, b⟩ := h4 e he hst
      exact ⟨a, fun _ => by rw [b]; exact ⟨tm, rfl⟩⟩
    · rw [if_neg hi]
      by_cases hw : haFlags = eMemFlags.WRITEONLY
      · rw [if_pos hw]
        obtain ⟨r, l, h1, h2, _, h4⟩ := hostMapStep_failing haFlags queueNum
          { t with mMemLatest := eMemLatest.BUFFER } d tq
        refine ⟨r, l, h1, h2, fun e he hst => ?_⟩
        obtain ⟨a, b⟩ := h4 e he hst
        exact ⟨a, fun _ => by rw [b]; exact ⟨tm, rfl⟩⟩
      · rw [if_neg hw]
        obtain ⟨q, hq1⟩ := getCommandQueue_some t queueNum tq
        obtain ⟨c, l1, n, hc, ht1, hfs, _, _, _, hcalls, _, hok, hbad⟩ :=
          copyImageToBuffer_events queueNum t d q hi hq1
        have hnomap : ∀ e ∈ l1, e.call.isMapBuffer = false := by
          intro e he
          apply copyImageCalls_take_not_map q t d n
          rw [← hcalls]
          exact List.mem_map_of_mem _ he
        rw [hc]
        by_cases hce : c.error = CL_SUCCESS
        · simp only [hce, ne_eq, not_true_eq_false, if_false]
          have hco := (hok hce).2
          obtain ⟨r, l, h1, h2, _, h4⟩ := hostMapStep_failing haFlags queueNum c.obj c.dev
            (by rw [hco]; exact tq)
          refine ⟨r, l1 ++ l, h1, by rw [h2, ht1, List.append_assoc], fun e he hst => ?_⟩
          rcases List.mem_append.mp he with h' | h'
          · exact absurd (failStop_success hfs hce e h') hst
          · obtain ⟨a, b⟩ := h4 e h' hst
            exact ⟨a, fun _ => by rw [b, hco]; exact ⟨tm, rfl⟩⟩
        · simp only [hce, ne_eq, not_false_eq_true, if_true]
          refine ⟨c, l1, rfl, ht1, fun e he hst => ⟨(failStop_failing hfs e he hst).1, fun hmap => ?_⟩⟩
          rw [hnomap e he] at hmap
          exact absurd hmap (by simp)
  by_cases hm : s.mHostMapped = true
  · by_cases hf : haFlags = s.mMapFlags
    · exact ⟨_, [], setHostAccess_same haFlags queueNum s dev hl hm hf, by simp, by simp⟩
    · obtain ⟨u, lu, hu, hlu, hfs, hun, _, _⟩ := unmapMem_events queueNum s dev hq
      have huo := unmapMem_frame _ _ _ _ hu
      rw [setHostAccess_remap haFlags queueNum s dev u hl hm hf hu]
      have hnomap : ∀ e ∈ lu, e.call.isMapBuffer = false :=
        fun e he => isUnmap_not_map e.call (hun e he)
      by_cases hue : u.error = CL_SUCCESS
      · simp only [hue, ne_eq, not_true_eq_false, if_false]
        obtain ⟨r, l, h1, h2, h3⟩ := unmapped u.obj u.dev (by rw [huo]; exact hl) (by rw [huo])
          (by rw [huo]; exact hq)
        refine ⟨r, lu ++ l, h1, by rw [h2, hlu, List.append_assoc], fun e he hst => ?_⟩
        rcases List.mem_append.mp he with h' | h'
        · exact absurd (failStop_success hfs hue e h') hst
        · obtain ⟨a, b⟩ := h3 e h' hst
          refine ⟨a, fun hmap => ?_⟩
          obtain ⟨b1, b2⟩ := b hmap
          refine ⟨b1, ?_⟩
          rw [b2, huo]
      · simp only [hue, ne_eq, not_false_eq_true, if_true]
        refine ⟨u, lu, rfl, hlu, fun e he hst => ⟨(failStop_failing hfs e he hst).1, fun hmap => ?_⟩⟩
        rw [hnomap e he] at hmap
        exact absurd hmap (by simp)
  · simp only [Bool.not_eq_true] at hm
    obtain ⟨r, l, h1, h2, h3⟩ := unmapped s dev hl hm hq
    refine ⟨r, l, h1, h2, fun e he hst => ?_⟩
    obtain ⟨a, b⟩ := h3 e he hst
    refine ⟨a, fun hmap => ?_⟩
    obtain ⟨b1, b2⟩ := b hmap
    exact ⟨b1, by rw [b2, hm]; rfl⟩

/-! ### The events of `getKernelMem` and `setKernelParam` -/

theorem copyImageCalls_take_kind (q : Nat) (s : clMemory) (dev : Device) (n : Nat) :
    ∀ c ∈ (copyImageCalls q s dev).take n,
      c.isSetKernelArg = false ∧ c.isCreateImage = false ∧ c.isCopyBufferToImage = false := by
  intro c hc
  have := List.mem_of_mem_take hc
  simp only [copyImageCalls, List.mem_cons, List.mem_singleton, List.not_mem_nil, or_false] at this
  rcases this with h | h | h | h <;> subst h <;> exact ⟨rfl, rfl, rfl⟩

/-- The events of the coherency step of an image-shaped argument: none, or the
one buffer-to-image copy, issued exactly when the access is not `WRITEONLY`
and the buffer is latest. -/
theorem imageArgStep_events (access : eAccess) (numDims : Nat) (isSVM : Bool) (queueNum : Nat)
    (t : clMemory) (d : Device) (hq : t.mCommandQueues ≠ [])
    (hnd : access = eAccess.WRITEONLY ∨ numDims ≤ 3) :
    ∃ k l, imageArgStep access numDims isSVM queueNum t d = some k ∧
      k.dev.trace = d.trace ++ l ∧ FailStop l k.error ∧ k.kernelMem = KernelMemRef.imageMem ∧
      k.obj.mImageMem = t.mImageMem ∧ k.obj.mPinnedMem = t.mPinnedMem ∧
      (∀ e ∈ l, ∃ q, e.call = DevCall.clEnqueueCopyBufferToImage q t.mPinnedMem t.mImageMem
        (bufferToImageRegion t numDims)) ∧
      (access ≠ eAccess.WRITEONLY → t.mMemLatest = eMemLatest.BUFFER → l ≠ []) := by
  obtain ⟨q, hq1⟩ := getCommandQueue_some t queueNum hq
  by_cases ha : access = eAccess.WRITEONLY
  · refine ⟨_, [], by simp [imageArgStep, ha]; rfl, by simp, failStop_nil, rfl, rfl, rfl, by simp,
      fun h => absurd ha h⟩
  · have hnd3 : ¬ numDims > 3 := by
      rcases hnd with h | h
      · exact absurd h ha
      · omega
    by_cases hb : t.mMemLatest = eMemLatest.BUFFER
    · by_cases hst : d.next.status = CL_SUCCESS
      · refine ⟨⟨d.next.status, false, KernelMemRef.imageMem, t, d.issue
            (.clEnqueueCopyBufferToImage q t.mPinnedMem t.mImageMem (bufferToImageRegion t numDims))⟩,
          [⟨_, d.next⟩], by simp [imageArgStep, ha, hb, hnd3, hq1, hst], issue_trace _ _,
          failStop_single _, rfl, rfl, rfl, ?_, fun _ _ => by simp⟩
        intro e he
        simp only [List.mem_singleton] at he
        subst he
        exact ⟨q, rfl⟩
      · refine ⟨⟨d.next.status, isSVM, KernelMemRef.imageMem, t, d.issue
            (.clEnqueueCopyBufferToImage q t.mPinnedMem t.mImageMem (bufferToImageRegion t numDims))⟩,
          [⟨_, d.next⟩], by simp [imageArgStep, ha, hb, hnd3, hq1, hst], issue_trace _ _,
          failStop_single _, rfl, rfl, rfl, ?_, fun _ _ => by simp⟩
        intro e he
        simp only [List.mem_singleton] at he
        subst he
        exact ⟨q, rfl⟩
    · exact ⟨_, [], by simp [imageArgStep, ha, hb]; rfl, by simp, failStop_nil, rfl, rfl, rfl,
        by simp, fun _ h => absurd h hb⟩

/-- The events of an image-shaped `getKernelMem`: the image creation if no image
existed, then the buffer-to-image copy if one is due, stopping at the first
failure. -/
theorem getKernelMem_image_events (numDims : Nat) (access : eAccess) (isSVM : Bool)
    (queueNum : Nat) (s : clMemory) (dev : Device) (hq : s.mCommandQueues ≠ [])
    (hnd : access = eAccess.WRITEONLY ∨ numDims ≤ 3) :
    ∃ k l, getKernelMem numDims true access isSVM queueNum s dev = some k ∧
      k.dev.trace = dev.trace ++ l ∧ FailStop l k.error ∧
      (k.error = CL_SUCCESS → k.kernelMem = KernelMemRef.imageMem) ∧
      k.obj.mPinnedMem = s.mPinnedMem ∧
      (∀ e ∈ l, (e.call = createImageCall s numDims ∧ s.mImageMem = 0 ∧
                  k.obj.mImageMem = e.reply.value) ∨
                (∃ q, e.call = DevCall.clEnqueueCopyBufferToImage q s.mPinnedMem k.obj.mImageMem
                  (bufferToImageRegion s numDims))) ∧
      (s.mImageMem = 0 → ∃ e ∈ l, e.call = createImageCall s numDims ∧
        k.obj.mImageMem = e.reply.value) ∧
      (s.mImageMem ≠ 0 → k.obj.mImageMem = s.mImageMem) ∧
      (k.error = CL_SUCCESS → access ≠ eAccess.WRITEONLY → s.mMemLatest = eMemLatest.BUFFER →
        ∃ e ∈ l, e.call.isCopyBufferToImage = true) := by
  by_cases hi : s.mImageMem = 0
  · rw [getKernelMem_image_create numDims access isSVM queueNum s dev hi]
    by_cases hst : dev.next.status = CL_SUCCESS
    · simp only [hst, ne_eq, not_true_eq_false, if_false]
      obtain ⟨k, l, h1, h2, h3, h4, h5, h6, h7, h8⟩ := imageArgStep_events access numDims isSVM
        queueNum { s with mImageMem := dev.next.value } (dev.issue (createImageCall s numDims))
        hq hnd
      have hfs0 : FailStop [(⟨createImageCall s numDims, dev.next⟩ : Event)] CL_SUCCESS := by
        have := failStop_single (⟨createImageCall s numDims, dev.next⟩ : Event)
        rwa [show (⟨createImageCall s numDims, dev.next⟩ : Event).reply.status = CL_SUCCESS
          from hst] at this
      refine ⟨k, ⟨createImageCall s numDims, dev.next⟩ :: l, h1,
        by rw [h2, issue_trace]; simp, failStop_append hfs0 h3, fun _ => h4, h6, ?_,
        fun _ => ⟨_, List.mem_cons_self _ _, rfl, h5⟩, fun h => absurd hi h, ?_⟩
      · intro e he
        rcases List.mem_cons.mp he with h' | h'
        · subst h'
          exact Or.inl ⟨rfl, hi, h5⟩
        · obtain ⟨q, hq'⟩ := h7 e h'
          exact Or.inr ⟨q, by rw [hq', h5]; rfl⟩
      · intro _ ha hb
        obtain ⟨e, he⟩ := List.exists_mem_of_ne_nil l (h8 ha hb)
        obtain ⟨q, hq'⟩ := h7 e he
        exact ⟨e, List.mem_cons_of_mem _ he, by rw [hq']; rfl⟩
    · simp only [hst, ne_eq, not_false_eq_true, if_true]
      refine ⟨_, [⟨createImageCall s numDims, dev.next⟩], rfl, issue_trace _ _,
        failStop_single _, fun h => absurd h hst, rfl, ?_,
        fun _ => ⟨_, List.mem_singleton_self _, rfl, rfl⟩, fun h => absurd hi h,
        fun h => absurd h hst⟩
      intro e he
      simp only [List.mem_singleton] at he
      subst he
      exact Or.inl ⟨rfl, hi, rfl⟩
  · rw [getKernelMem_image_existing numDims access isSVM queueNum s dev hi]
    obtain ⟨k, l, h1, h2, h3, h4, h5, h6, h7, h8⟩ := imageArgStep_events access numDims isSVM
      queueNum s dev hq hnd
    refine ⟨k, l, h1, h2, h3, fun _ => h4, h6, ?_, fun h => absurd h hi, fun _ => h5, ?_⟩
    · intro e he
      obtain ⟨q, hq'⟩ := h7 e he
      exact Or.inr ⟨q, by rw [hq', h5]⟩
    · intro _ ha hb
      obtain ⟨e, he⟩ := List.exists_mem_of_ne_nil l (h8 ha hb)
      obtain ⟨q, hq'⟩ := h7 e he
      exact ⟨e, he, by rw [hq']; rfl⟩

/-- The events of a linear-shaped `getKernelMem`: none unless the image is latest,
else a non-empty initial part of `copyImageCalls`, stopping at the first failure. -/
theorem getKernelMem_linear_events (numDims : Nat) (access : eAccess) (isSVM : Bool)
    (queueNum : Nat) (s : clMemory) (dev : Device) (hq : s.mCommandQueues ≠ []) :
    ∃ k l q, getKernelMem numDims false access isSVM queueNum s dev = some k ∧
      getCommandQueue s queueNum = some q ∧
      k.dev.trace = dev.trace ++ l ∧ FailStop l k.error ∧
      (k.error = CL_SUCCESS → k.kernelMem =
        if s.mSvmType ≠ eSvmType.NONE then KernelMemRef.hostBuf else KernelMemRef.pinnedMem) ∧
      k.obj.mPinnedMem = s.mPinnedMem ∧ k.obj.mImageMem = s.mImageMem ∧
      (¬ (s.mImageMem ≠ 0 ∧ s.mMemLatest = eMemLatest.IMAGE) →
        l = [] ∧ k.obj = s ∧ k.error = CL_SUCCESS) ∧
      ((s.mImageMem ≠ 0 ∧ s.mMemLatest = eMemLatest.IMAGE) →
        ∃ n, 1 ≤ n ∧ n ≤ 4 ∧ l.length = n ∧
          l.map Event.call = (copyImageCalls q s dev).take n ∧
          (∀ (i : Nat) (h : i < l.length), (l.get ⟨i, h⟩).reply = dev.replies i) ∧
          (k.error = CL_SUCCESS → n = 4 ∧ k.obj = { s with mMemLatest := eMemLatest.SAME }) ∧
          (k.error ≠ CL_SUCCESS → k.obj = s)) := by
  obtain ⟨q, hq1⟩ := getCommandQueue_some s queueNum hq
  by_cases hc : s.mImageMem ≠ 0 ∧ s.mMemLatest = eMemLatest.IMAGE
  · obtain ⟨c, l, n, hcp, ht, hfs, hn1, hn4, hlen, hcalls, hrep, hok, hbad⟩ :=
      copyImageToBuffer_events queueNum s dev q hc.1 hq1
    have hfr := copyImageToBuffer_frame queueNum s dev c hcp
    have hp : c.obj.mPinnedMem = s.mPinnedMem := by rcases hfr with h | h <;> rw [h]
    have him : c.obj.mImageMem = s.mImageMem := by rcases hfr with h | h <;> rw [h]
    have hsv : c.obj.mSvmType = s.mSvmType := by rcases hfr with h | h <;> rw [h]
    rw [getKernelMem_linear_copy numDims access isSVM queueNum s dev c hc.1 hc.2 hcp]
    by_cases hce : c.error = CL_SUCCESS
    · simp only [hce, ne_eq, not_true_eq_false, if_false]
      refine ⟨_, l, q, rfl, hq1, ht, by rw [← hce] at *; exact hfs, fun _ => by simp [hsv], hp, him,
        fun h => absurd hc h, fun _ => ⟨n, hn1, hn4, hlen, hcalls, hrep, fun _ => hok hce,
          fun h => absurd rfl h⟩⟩
    · simp only [hce, ne_eq, not_false_eq_true, if_true]
      exact ⟨_, l, q, rfl, hq1, ht, hfs, fun h => absurd h hce, hp, him,
        fun h => absurd hc h, fun _ => ⟨n, hn1, hn4, hlen, hcalls, hrep, fun h => absurd h hce,
          fun _ => hbad hce⟩⟩
  · rw [getKernelMem_linear_nocopy numDims access isSVM queueNum s dev hc]
    exact ⟨_, [], q, rfl, hq1, by simp, failStop_nil, fun _ => rfl, rfl, rfl,
      fun _ => ⟨rfl, rfl, rfl⟩, fun h => absurd h hc⟩

theorem isUnmap_kind (c : DevCall) (h : c.isUnmap = true) :
    c.isSetKernelArg = false ∧ c.isCreateImage = false ∧ c.isCopyBufferToImage = false := by
  cases c <;> first | exact ⟨rfl, rfl, rfl⟩ | exact absurd h (by simp [DevCall.isUnmap])

/-- The events of `setKernelParam`: those of the unmap step and of the
resolution step (`pre`), then the `clSetKernelArg` call (`tail`), which is
issued exactly when every earlier call succeeded.  The run stops at the first
failing call and returns its status. -/
theorem setKernelParam_events (kernel paramIndex : Nat) (isImageParam : Bool) (access : eAccess)
    (numDims queueNum : Nat) (s : clMemory) (dev : Device) (hq : s.mCommandQueues ≠ [])
    (hnd : isImageParam = false ∨ access = eAccess.WRITEONLY ∨ numDims ≤ 3) :
    ∃ r pre tail,
      gpuMemory.setKernelParam kernel paramIndex isImageParam access numDims queueNum s dev
        = some r ∧
      r.dev.trace = dev.trace ++ (pre ++ tail) ∧ FailStop (pre ++ tail) r.error ∧
      r.obj.mPinnedMem = s.mPinnedMem ∧
      (∀ e ∈ pre, e.call.isSetKernelArg = false) ∧
      (∀ e ∈ pre, e.call.isCreateImage = true →
        isImageParam = true ∧ s.mImageMem = 0 ∧ e.call = createImageCall s numDims ∧
        r.obj.mImageMem = e.reply.value) ∧
      (∀ e ∈ pre, e.call.isCopyBufferToImage = true →
        isImageParam = true ∧ ∃ q, e.call = DevCall.clEnqueueCopyBufferToImage q s.mPinnedMem
          r.obj.mImageMem (bufferToImageRegion s numDims)) ∧
      (s.mImageMem ≠ 0 → r.obj.mImageMem = s.mImageMem) ∧
      ((tail = [] ∧ r.error ≠ CL_SUCCESS) ∨
       (∃ rep, tail = [⟨DevCall.clSetKernelArg kernel paramIndex
            ((if isImageParam then KernelMemRef.imageMem
              else if s.mSvmType ≠ eSvmType.NONE then KernelMemRef.hostBuf
              else KernelMemRef.pinnedMem).deref r.obj), rep⟩] ∧
          (∀ e ∈ pre, e.reply.status = CL_SUCCESS) ∧
          (isImageParam = true → s.mImageMem = 0 →
            ∃ e ∈ pre, e.call = createImageCall s numDims ∧ r.obj.mImageMem = e.reply.value) ∧
          (isImageParam = true → access ≠ eAccess.WRITEONLY →
            s.mMemLatest = eMemLatest.BUFFER → ∃ e ∈ pre, e.call.isCopyBufferToImage = true))) := by
  obtain ⟨u, lu, hu, hlu, hfsu, hun, _, _⟩ := unmapMem_events queueNum s dev hq
  have huo := unmapMem_frame _ _ _ _ hu
  have huq : u.obj.mCommandQueues ≠ [] := by rw [huo]; exact hq
  have hup : u.obj.mPinnedMem = s.mPinnedMem := by rw [huo]
  have hui : u.obj.mImageMem = s.mImageMem := by rw [huo]
  have hul : u.obj.mMemLatest = s.mMemLatest := by rw [huo]
  have hus : u.obj.mSvmType = s.mSvmType := by rw [huo]
  have hcr : createImageCall u.obj numDims = createImageCall s numDims := by rw [huo]; rfl
  have hrg : bufferToImageRegion u.obj numDims = bufferToImageRegion s numDims := by rw [huo]; rfl
  unfold gpuMemory.setKernelParam
  rw [hu]
  by_cases hue : u.error = CL_SUCCESS
  swap
  · -- the unmap failed
    simp only [hue, ne_eq, not_false_eq_true, if_true]
    refine ⟨u, lu, [], rfl, by simpa using hlu, by simpa using hfsu, hup,
      fun e he => (isUnmap_kind _ (hun e he)).1, ?_, ?_, fun _ => hui, Or.inl ⟨rfl, hue⟩⟩
    · intro e he hc
      rw [(isUnmap_kind _ (hun e he)).2.1] at hc
      exact absurd hc (by simp)
    · intro e he hc
      rw [(isUnmap_kind _ (hun e he)).2.2] at hc
      exact absurd hc (by simp)
  simp only [hue, ne_eq, not_true_eq_false, if_false]
  have hfsu0 : FailStop lu CL_SUCCESS := by rw [← hue]; exact hfsu
  -- the resolution step, in the form needed below
  obtain ⟨k, lk, hk, hlk, hfsk, hkm, hkp, hkarg, hkcr, hkcp, hkim, hkex1, hkex2⟩ :
      ∃ k lk, getKernelMem numDims isImageParam access false queueNum u.obj u.dev = some k ∧
        k.dev.trace = u.dev.trace ++ lk ∧ FailStop lk k.error ∧
        (k.error = CL_SUCCESS → k.kernelMem =
          (if isImageParam then KernelMemRef.imageMem
           else if s.mSvmType ≠ eSvmType.NONE then KernelMemRef.hostBuf
           else KernelMemRef.pinnedMem)) ∧
        k.obj.mPinnedMem = s.mPinnedMem ∧
        (∀ e ∈ lk, e.call.isSetKernelArg = false) ∧
        (∀ e ∈ lk, e.call.isCreateImage = true →
          isImageParam = true ∧ s.mImageMem = 0 ∧ e.call = createImageCall s numDims ∧
          k.obj.mImageMem = e.reply.value) ∧
        (∀ e ∈ lk, e.call.isCopyBufferToImage = true →
          isImageParam = true ∧ ∃ q, e.call = DevCall.clEnqueueCopyBufferToImage q s.mPinnedMem
            k.obj.mImageMem (bufferToImageRegion s numDims)) ∧
        (s.mImageMem ≠ 0 → k.obj.mImageMem = s.mImageMem) ∧
        (isImageParam = true → s.mImageMem = 0 →
          ∃ e ∈ lk, e.call = createImageCall s numDims ∧ k.obj.mImageMem = e.reply.value) ∧
        (k.error = CL_SUCCESS → isImageParam = true → access ≠ eAccess.WRITEONLY →
          s.mMemLatest = eMemLatest.BUFFER → ∃ e ∈ lk, e.call.isCopyBufferToImage = true) := by
    cases isImageParam
    · obtain ⟨k, l, q, h1, _, h3, h4, h5, h6, h7, h8, h9⟩ :=
        getKernelMem_linear_events numDims access false queueNum u.obj u.dev huq
      have hkind : ∀ e ∈ l, e.call.isSetKernelArg = false ∧ e.call.isCreateImage = false ∧
          e.call.isCopyBufferToImage = false := by
        intro e he
        by_cases hc : u.obj.mImageMem ≠ 0 ∧ u.obj.mMemLatest = eMemLatest.IMAGE
        · obtain ⟨n, _, _, _, hcalls, _⟩ := h9 hc
          apply copyImageCalls_take_kind q u.obj u.dev n
          rw [← hcalls]
          exact List.mem_map_of_mem _ he
        · rw [(h8 hc).1] at he
          exact absurd he (List.not_mem_nil _)
      refine ⟨k, l, h1, h3, h4, fun h => ?_, h6.trans hup, fun e he => (hkind e he).1, ?_, ?_,
        fun _ => h7.trans hui, fun h => absurd h (by simp), fun _ h => absurd h (by simp)⟩
      · rw [h5 h, hus]; simp
      · intro e he hc
        rw [(hkind e he).2.1] at hc
        exact absurd hc (by simp)
      · intro e he hc
        rw [(hkind e he).2.2] at hc
        exact absurd hc (by simp)
    · have hnd2 : access = eAccess.WRITEONLY ∨ numDims ≤ 3 := by
        rcases hnd with h | h
        · exact absurd h (by simp)
        · exact h
      obtain ⟨k, l, h1, h2, h3, h4, h5, h6, h7, h8, h9⟩ :=
        getKernelMem_image_events numDims access false queueNum u.obj u.dev huq hnd2
      rw [hcr, hrg, hup, hui] at h6
      rw [hcr, hui] at h7
      rw [hui] at h8
      rw [hul] at h9
      refine ⟨k, l, h1, h2, h3, fun h => by rw [h4 h]; rfl, h5.trans hup, ?_, ?_, ?_, h8,
        fun _ h => h7 h, fun h _ => h9 h⟩
      · intro e he
        rcases h6 e he with ⟨hc, _⟩ | ⟨q, hc⟩ <;> rw [hc] <;> rfl
      · intro e he hc
        rcases h6 e he with ⟨hc1, hc2, hc3⟩ | ⟨q, hc1⟩
        · exact ⟨rfl, hc2, hc1, hc3⟩
        · rw [hc1] at hc
          exact absurd hc (by simp [DevCall.isCreateImage])
      · intro e he hc
        rcases h6 e he with ⟨hc1, _⟩ | ⟨q, hc1⟩
        · rw [hc1] at hc
          exact absurd hc (by simp [DevCall.isCopyBufferToImage, createImageCall])
        · exact ⟨rfl, q, hc1⟩
  rw [hk]
  by_cases hke : k.error = CL_SUCCESS
  · simp only [hke, ne_eq, not_true_eq_false, if_false]
    have hfsk0 : FailStop lk CL_SUCCESS := by rw [← hke]; exact hfsk
    have hpre0 : FailStop (lu ++ lk) CL_SUCCESS := failStop_append hfsu0 hfsk0
    refine ⟨_, lu ++ lk, [⟨DevCall.clSetKernelArg kernel paramIndex
        (k.kernelMem.deref k.obj), k.dev.next⟩], rfl,
      by rw [issue_trace, hlk, hlu]; simp, failStop_append hpre0 (failStop_single _), hkp,
      ?_, ?_, ?_, hkim, Or.inr ⟨k.dev.next, by rw [hkm hke], failStop_success hpre0 rfl, ?_, ?_⟩⟩
    · intro e he
      rcases List.mem_append.mp he with h | h
      · exact (isUnmap_kind _ (hun e h)).1
      · exact hkarg e h
    · intro e he hc
      rcases List.mem_append.mp he with h | h
      · rw [(isUnmap_kind _ (hun e h)).2.1] at hc
        exact absurd hc (by simp)
      · exact hkcr e h hc
    · intro e he hc
      rcases List.mem_append.mp he with h | h
      · rw [(isUnmap_kind _ (hun e h)).2.2] at hc
        exact absurd hc (by simp)
      · exact hkcp e h hc
    · intro h1 h2
      obtain ⟨e, he, h3⟩ := hkex1 h1 h2
      exact ⟨e, List.mem_append_right _ he, h3⟩
    · intro h1 h2 h3
      obtain ⟨e, he, h4⟩ := hkex2 hke h1 h2 h3
      exact ⟨e, List.mem_append_right _ he, h4⟩
  · simp only [hke, ne_eq, not_false_eq_true, if_true]
    refine ⟨_, lu ++ lk, [], rfl, by simp [hlk, hlu], by simpa using failStop_append hfsu0 hfsk,
      hkp, ?_, ?_, ?_, hkim, Or.inl ⟨rfl, hke⟩⟩
    · intro e he
      rcases List.mem_append.mp he with h | h
      · exact (isUnmap_kind _ (hun e h)).1
      · exact hkarg e h
    · intro e he hc
      rcases List.mem_append.mp he with h | h
      · rw [(isUnmap_kind _ (hun e h)).2.1] at hc
        exact absurd hc (by simp)
      · exact hkcr e h hc
    · intro e he hc
      rcases List.mem_append.mp he with h | h
      · rw [(isUnmap_kind _ (hun e h)).2.2] at hc
        exact absurd hc (by simp)
      · exact hkcp e h hc

/-! ### When the image-to-buffer copy is reached -/

theorem imageScenario_obj : imageScenario.map Prod.fst = some imageLatestSample := by
  rfl

/-- Among the first `n` calls of `copyImageToBuffer` the copy itself is present
exactly when all four were issued. -/
theorem copyImageCalls_take_copy_iff (q : Nat) (s : clMemory) (dev : Device) (n : Nat)
    (h1 : 1 ≤ n) (h4 : n ≤ 4) :
    (∃ x ∈ (copyImageCalls q s dev).take n, x.isCopyImageToBuffer = true) ↔ n = 4 := by
  have h : n = 1 ∨ n = 2 ∨ n = 3 ∨ n = 4 := by omega
  rcases h with h | h | h | h <;> subst h <;>
    simp [copyImageCalls, DevCall.isCopyImageToBuffer]

/-- A fail-stop run of up to four calls issues the fourth exactly when the
replies to the first three are successes. -/
theorem fourth_call_iff (dev : Device) (n : Nat) (error : Int) (h1 : 1 ≤ n) (h4 : n ≤ 4)
    (hpre : ∀ i, i + 1 < n → (dev.replies i).status = CL_SUCCESS)
    (herr : error = (dev.replies (n - 1)).status) (hok : error = CL_SUCCESS → n = 4) :
    n = 4 ↔ ((dev.replies 0).status = CL_SUCCESS ∧ (dev.replies 1).status = CL_SUCCESS ∧
      (dev.replies 2).status = CL_SUCCESS) := by
  constructor
  · intro h
    subst h
    exact ⟨hpre 0 (by omega), hpre 1 (by omega), hpre 2 (by omega)⟩
  · rintro ⟨h0, h1', h2⟩
    by_contra hne
    have h : n = 1 ∨ n = 2 ∨ n = 3 := by omega
    have he : error = CL_SUCCESS := by
      rw [herr]
      rcases h with h | h | h <;> subst h <;> assumption
    exact hne (hok he)

/-! ## The claims -/

/-- C1: between `getGPUMemory` and the destruction of the guard it returned,
also after any number of binds through that guard, `setHostAccess` returns
`CL_MAP_FAILURE`, issues no device call and leaves every field of the object as
it was.  Once the guard is destroyed the same call is not refused any more: it
returns, a failure it reports is the answer of a device call it issued, and
when the map call it issues succeeds with the recorded host address it returns
`CL_SUCCESS` with the object mapped in the requested mode. -/
theorem C1_host_access_refused_while_guard_alive (s : clMemory) (haFlags : eMemFlags)
    (queueNum : Nat) (dev : Device) (hq : s.mCommandQueues ≠ []) :
    (setHostAccess haFlags queueNum (getGPUMemory s) dev
        = some ⟨CL_MAP_FAILURE, getGPUMemory s, dev⟩ ∧ CL_MAP_FAILURE ≠ CL_SUCCESS) ∧
    (∀ (bs : List BindArgs) (s1 : clMemory) (dev1 : Device),
      runOps (bs.map Op.bind) (getGPUMemory s) dev = some (s1, dev1) →
      setHostAccess haFlags queueNum s1 dev1 = some ⟨CL_MAP_FAILURE, s1, dev1⟩) ∧
    (∃ r, setHostAccess haFlags queueNum (gpuMemory.destroy (getGPUMemory s)) dev = some r ∧
      (r.error = CL_SUCCESS ∨ r.dev.since dev ≠ []) ∧
      (∀ e ∈ r.dev.since dev, e.call.isMapBuffer = true → e.reply.status = CL_SUCCESS →
        e.reply.value = s.mHostBuf →
        r.error = CL_SUCCESS ∧ r.obj.mHostMapped = true ∧ r.obj.mMapFlags = haFlags)) := by
  refine ⟨⟨setHostAccess_locked _ _ _ _ rfl, by decide⟩, ?_, ?_⟩
  · intro bs s1 dev1 h
    exact setHostAccess_locked _ _ _ _ (runOps_binds_locked bs _ dev s1 dev1 rfl h)
  · obtain ⟨r, l, h1, h2, _, _, _, h6, h7⟩ :=
      setHostAccess_trace haFlags queueNum (gpuMemory.destroy (getGPUMemory s)) dev rfl hq
    refine ⟨r, h1, ?_, ?_⟩
    · rw [since_of_trace _ _ _ h2]; exact h6
    · rw [since_of_trace _ _ _ h2]
      intro e he hmap hst hv
      exact (h7 e he hmap).1 hst hv

/-- C1 at a concrete input: the sample object, mapped read-write at `64`. -/
theorem C1_witness :
    mappedSample.mCommandQueues ≠ [] ∧
    setHostAccess eMemFlags.READONLY 0 (getGPUMemory mappedSample) (Device.steady 64)
      = some ⟨CL_MAP_FAILURE, getGPUMemory mappedSample, Device.steady 64⟩ ∧
    ∃ r, setHostAccess eMemFlags.READONLY 0 (gpuMemory.destroy (getGPUMemory mappedSample))
        (Device.steady 64) = some r ∧
      (r.error = CL_SUCCESS ∨ r.dev.since (Device.steady 64) ≠ []) :=
  ⟨by decide,
   (C1_host_access_refused_while_guard_alive mappedSample eMemFlags.READONLY 0 (Device.steady 64)
      (by decide)).1.1,
   (C1_host_access_refused_while_guard_alive mappedSample eMemFlags.READONLY 0 (Device.steady 64)
      (by decide)).2.2.imp fun _ h => ⟨h.1, h.2.1⟩⟩

/-- C2 (as amended): for residency mode `NONE`, any capacity, buffer access
mode and dimensions, at least one command queue, and a device whose calls all
succeed and whose map calls all return one non-null address: `allocate` on the
freshly constructed object returns true, then `setHostAccess(WRITEONLY)`,
`copyFrom` of at most `capacity` bytes and `setHostAccess(READONLY)` all
return `CL_SUCCESS`, and the leading bytes of the host view are the bytes
written. -/
theorem C2_allocate_write_read_back (context : Nat) (commandQueues : List Nat)
    (memFlags : eMemFlags) (numBytes devInfo : Nat) (imageDims : Nat × Nat × Nat)
    (dev : Device) (p : Nat) (srcBuf : List Nat) (q1 q2 q3 : Nat)
    (hq : commandQueues ≠ []) (hok : ∀ i, (dev.replies i).status = CL_SUCCESS)
    (hp : p ≠ 0) (haddr : ∀ i, 1 ≤ i → (dev.replies i).value = p)
    (hlen : srcBuf.length ≤ numBytes) :
    ∃ a w c r,
      allocate (clMemory.create context commandQueues memFlags eSvmType.NONE numBytes devInfo
        imageDims) dev = some a ∧ a.ok = true ∧
      setHostAccess eMemFlags.WRITEONLY q1 a.obj a.dev = some w ∧ w.error = CL_SUCCESS ∧
      copyFrom srcBuf srcBuf.length q2 w.obj w.dev = some c ∧ c.error = CL_SUCCESS ∧
      setHostAccess eMemFlags.READONLY q3 c.obj c.dev = some r ∧ r.error = CL_SUCCESS ∧
      r.obj.mHostMapped = true ∧ r.obj.mMapFlags = eMemFlags.READONLY ∧ r.obj.hostBuf = p ∧
      r.dev.pinned.take srcBuf.length = srcBuf := by
  obtain ⟨q0, hq0⟩ : ∃ q0, commandQueues[0]? = some q0 := by
    cases commandQueues with
    | nil => exact absurd rfl hq
    | cons x xs => exact ⟨x, by simp⟩
  obtain ⟨a, ha1, ha2, ha3, ha4⟩ : ∃ a : AllocRet,
      allocate (clMemory.create context commandQueues memFlags eSvmType.NONE numBytes devInfo
        imageDims) dev = some a ∧ a.ok = true ∧
      a.obj = { clMemory.create context commandQueues memFlags eSvmType.NONE numBytes devInfo
                  imageDims with
                mPinnedMem := (dev.replies 0).value, mHostBuf := p, mHostMapped := true,
                mMapFlags := if memFlags = eMemFlags.READONLY then eMemFlags.WRITEONLY
                             else eMemFlags.READWRITE } ∧
      a.dev.SteadyAt p := by
    have ha := allocate_created
      (clMemory.create context commandQueues memFlags eSvmType.NONE numBytes devInfo imageDims)
      dev q0 rfl hq0 (hok 0)
    rw [haddr 1 (le_refl 1)] at ha
    refine ⟨_, ha, by simp [hp], rfl, ?_⟩
    dsimp only
    apply issue_steadyAt
    intro i
    rw [issue_replies]
    exact ⟨hok (i + 1), haddr (i + 1) (by omega)⟩
  obtain ⟨w, hw1, hw2, hw3, hw4, hw5⟩ := setHostAccess_steady eMemFlags.WRITEONLY q1
    a.obj a.dev (by rw [ha3]; rfl) (by rw [ha3]; exact hq) (by rw [ha3]; rfl) (by rw [ha3]; rfl)
    (by decide) (Or.inl (by rw [ha3])) (by rw [ha3]; exact ha4)
  have hwb : w.obj.mHostBuf = p := by rw [hw3, ha3]
  have hcopy : copyFrom srcBuf srcBuf.length q2 w.obj w.dev = some ⟨CL_SUCCESS, w.obj,
      { w.dev with pinned := srcBuf.take srcBuf.length ++ w.dev.pinned.drop srcBuf.length }⟩ := by
    have hnb : w.obj.mNumBytes = numBytes := by rw [hw3, ha3]; rfl
    unfold copyFrom
    simp [hwb, hnb, hp, hlen]
  obtain ⟨r, hr1, hr2, hr3, hr4, hr5⟩ := setHostAccess_steady eMemFlags.READONLY q3
    w.obj { w.dev with pinned := srcBuf.take srcBuf.length ++ w.dev.pinned.drop srcBuf.length }
    (by rw [hw3, ha3]; rfl) (by rw [hw3, ha3]; exact hq) (by rw [hw3, ha3]; rfl)
    (by rw [hw3, ha3]; rfl) (by decide) (Or.inl (by rw [hw3]))
    (by
      have hab : a.obj.mHostBuf = p := by rw [ha3]
      rw [hab] at hw4
      rw [hwb]
      exact hw4)
  refine ⟨a, w, _, r, ha1, ha2, hw1, hw2, hcopy, rfl, hr1, hr2, by rw [hr3], by rw [hr3], ?_, ?_⟩
  · rw [hr3]; exact hwb
  · rw [hr5]
    simp

/-- C2 at a concrete input: three bytes written to a sixteen-byte read-write object. -/
theorem C2_witness :
    ([7] : List Nat) ≠ [] ∧ (64 : Nat) ≠ 0 ∧ [1, 2, 3].length ≤ 16 ∧
    ∃ a w c r,
      allocate (clMemory.create 1 [7] eMemFlags.READWRITE eSvmType.NONE 16 0 (0, 0, 0))
        (Device.steady 64) = some a ∧ a.ok = true ∧
      setHostAccess eMemFlags.WRITEONLY 0 a.obj a.dev = some w ∧ w.error = CL_SUCCESS ∧
      copyFrom [1, 2, 3] [1, 2, 3].length 0 w.obj w.dev = some c ∧ c.error = CL_SUCCESS ∧
      setHostAccess eMemFlags.READONLY 0 c.obj c.dev = some r ∧ r.error = CL_SUCCESS ∧
      r.obj.mHostMapped = true ∧ r.obj.mMapFlags = eMemFlags.READONLY ∧ r.obj.hostBuf = 64 ∧
      r.dev.pinned.take [1, 2, 3].length = [1, 2, 3] :=
  ⟨by decide, by decide, by decide,
   C2_allocate_write_read_back 1 [7] eMemFlags.READWRITE 16 0 (0, 0, 0) (Device.steady 64) 64
     [1, 2, 3] 0 0 0 (by decide) (fun _ => rfl) (by decide) (fun _ _ => rfl) (by decide)⟩

/-- C2 as stated fails for the shared residency modes: with every device call
succeeding, `allocate` on a fresh `COARSE` object issues no call and returns false. -/
theorem C2_counterexample :
    ∃ a, allocate (clMemory.create 1 [7] eMemFlags.READWRITE eSvmType.COARSE 16 0 (0, 0, 0))
        (Device.steady 64) = some a ∧ a.ok = false ∧ a.dev.trace = [] :=
  ⟨_, rfl, rfl, rfl⟩

/-- C3, as the code has it: a guard's image-shaped bind with `WRITEONLY` access
returns; when it succeeds it has issued no buffer-to-image copy and left the
latest representation `IMAGE`.  After the guard is released, `setHostAccess`
with a mode other than `WRITEONLY` and `NONE` returns, and the calls it issues
are an initial part of: the three image-extent queries, the image-to-buffer
copy, the map call, in this order.  The copy is issued if and only if the
three queries all succeed, and a map call is issued only after the copy has
succeeded; when `setHostAccess` succeeds the copy was issued and the latest
representation is `SAME`, and for residency mode `NONE` the object is mapped.
(The device is taken to return a non-null handle when `clCreateImage`
succeeds.) -/
theorem C3_image_round_trip_copies_back (s : clMemory) (dev : Device)
    (kernel paramIndex numDims q1 q2 : Nat) (haFlags : eMemFlags)
    (hq : s.mCommandQueues ≠ []) (hw : haFlags ≠ eMemFlags.WRITEONLY)
    (hn : haFlags ≠ eMemFlags.NONE) :
    ∃ r1, gpuMemory.setKernelParam kernel paramIndex true eAccess.WRITEONLY numDims q1
        (getGPUMemory s) dev = some r1 ∧
      (r1.error = CL_SUCCESS →
       (∀ e ∈ r1.dev.since dev, e.call.isCreateImage = true → e.reply.status = CL_SUCCESS →
          e.reply.value ≠ 0) →
       (∀ c ∈ r1.dev.callsSince dev, c.isCopyBufferToImage = false) ∧
       r1.obj.mMemLatest = eMemLatest.IMAGE ∧
       ∃ r2 q, getCommandQueue s q2 = some q ∧
         setHostAccess haFlags q2 (gpuMemory.destroy r1.obj) r1.dev = some r2 ∧
         r2.dev.callsSince r1.dev ≠ [] ∧
         (∃ rest, r2.dev.callsSince r1.dev ++ rest =
            copyImageCalls q r1.obj r1.dev ++ [hostMapCall haFlags q r1.obj]) ∧
         ((∃ c ∈ r2.dev.callsSince r1.dev, c.isCopyImageToBuffer = true) ↔
            ((r1.dev.replies 0).status = CL_SUCCESS ∧ (r1.dev.replies 1).status = CL_SUCCESS ∧
              (r1.dev.replies 2).status = CL_SUCCESS)) ∧
         ((∃ c ∈ r2.dev.callsSince r1.dev, c.isMapBuffer = true) →
            (r1.dev.replies 3).status = CL_SUCCESS) ∧
         (r2.error = CL_SUCCESS →
            r2.obj.mMemLatest = eMemLatest.SAME ∧
            (∃ rest, r2.dev.callsSince r1.dev = copyImageCalls q r1.obj r1.dev ++ rest) ∧
            (s.mSvmType = eSvmType.NONE →
              r2.dev.callsSince r1.dev =
                copyImageCalls q r1.obj r1.dev ++ [hostMapCall haFlags q r1.obj] ∧
              r2.obj.mHostMapped = true))) := by
  obtain ⟨r1, hr1⟩ := setKernelParam_total kernel paramIndex true eAccess.WRITEONLY numDims q1
    (getGPUMemory s) dev hq (Or.inr (Or.inl rfl))
  refine ⟨r1, hr1, fun hok hdev => ?_⟩
  -- the bind
  obtain ⟨u, hu, hcase⟩ := setKernelParam_inv _ _ _ _ _ _ _ _ _ hr1
  have huo := unmapMem_frame _ _ _ _ hu
  obtain ⟨cs, hucs, hcsno, _⟩ := unmapMem_dev _ _ _ _ hu
  obtain ⟨lu, hlu1, hlu2, _, _⟩ := issueAll_trace_calls dev cs
  rw [← hucs] at hlu1
  rcases hcase with ⟨hue, hru⟩ | ⟨_, k, hk, hcase2⟩
  · rw [hru] at hok; exact absurd hok hue
  rcases hcase2 with ⟨hke, hrk⟩ | ⟨hke, hrk⟩
  · rw [hrk] at hok; exact absurd hok hke
  obtain ⟨hlat, hkm, hkd⟩ := getKernelMem_image_writeonly _ _ _ _ _ _ hk hke
  obtain ⟨hf1, hf2, hf3, _⟩ := getKernelMem_frame _ _ _ _ _ _ _ _ hk
  have hfr := setKernelParam_frame _ _ _ _ _ _ _ _ _ hr1
  have hobj : r1.obj = k.obj := by rw [hrk]
  have hdevr : r1.dev = k.dev.issue (.clSetKernelArg kernel paramIndex (k.kernelMem.deref k.obj)) := by
    rw [hrk]
  -- the trace of the bind and the image handle
  have htr : ∃ l, r1.dev.trace = dev.trace ++ l ∧
      (∀ e ∈ l, e.call.isCopyBufferToImage = false) ∧ r1.obj.mImageMem ≠ 0 := by
    rcases hkd with ⟨hi, hd, him⟩ | ⟨hi, hd, hst, him⟩
    · refine ⟨lu ++ [⟨_, k.dev.next⟩], by rw [hdevr, issue_trace, hd, hlu1, List.append_assoc],
        ?_, ?_⟩
      · intro e he
        rcases List.mem_append.mp he with h | h
        · have := (hcsno e.call (by rw [← hlu2]; exact List.mem_map_of_mem _ h)).1
          simp only [DevCall.isCopy, Bool.or_eq_false_iff] at this
          exact this.2
        · simp only [List.mem_singleton] at h; subst h; rfl
      · rw [hobj, him]; exact hi
    · have htrace : r1.dev.trace = dev.trace ++
          (lu ++ [⟨createImageCall u.obj numDims, u.dev.next⟩,
            ⟨.clSetKernelArg kernel paramIndex (k.kernelMem.deref k.obj), k.dev.next⟩]) := by
        rw [hdevr, issue_trace, hd, issue_trace, hlu1]; simp
      refine ⟨_, htrace, ?_, ?_⟩
      · intro e he
        rcases List.mem_append.mp he with h | h
        · have := (hcsno e.call (by rw [← hlu2]; exact List.mem_map_of_mem _ h)).1
          simp only [DevCall.isCopy, Bool.or_eq_false_iff] at this
          exact this.2
        · simp only [List.mem_cons, List.mem_singleton, List.not_mem_nil, or_false] at h
          rcases h with h | h <;> subst h <;> rfl
      · rw [hobj, him]
        apply hdev ⟨createImageCall u.obj numDims, u.dev.next⟩
        · rw [since_of_trace _ _ _ htrace]; simp
        · rfl
        · exact hst
  obtain ⟨l, hl1, hl2, himg⟩ := htr
  refine ⟨?_, by rw [hobj]; exact hlat, ?_⟩
  · intro c hc
    simp only [Device.callsSince, since_of_trace _ _ _ hl1, List.mem_map] at hc
    obtain ⟨e, he, rfl⟩ := hc
    exact hl2 e he
  -- the host access after the guard is gone
  obtain ⟨q, hq2⟩ := getCommandQueue_some s q2 hq
  have hqs : (gpuMemory.destroy r1.obj).mCommandQueues = s.mCommandQueues := hfr.1.2.1
  have hqd : getCommandQueue (gpuMemory.destroy r1.obj) q2 = some q := by
    rw [getCommandQueue_congr s _ q2 hqs]; exact hq2
  have hum : (gpuMemory.destroy r1.obj).mHostMapped = false := hfr.2.2
  have hsvm : (gpuMemory.destroy r1.obj).mSvmType = s.mSvmType := hfr.1.2.2.2.1
  rw [setHostAccess_unmapped haFlags q2 _ r1.dev rfl hum hn]
  have himg2 : (gpuMemory.destroy r1.obj).mImageMem ≠ 0 := himg
  rw [if_neg himg2, if_neg hw]
  obtain ⟨c, n, hc, hn1, hn4, hcd, hpre, herr, hcok, hcbad⟩ :=
    copyImageToBuffer_spec q2 (gpuMemory.destroy r1.obj) r1.dev q himg2 hqd
  have hfour := fourth_call_iff r1.dev n c.error hn1 hn4 hpre herr (fun h => (hcok h).1)
  have hcopy := copyImageCalls_take_copy_iff q r1.obj r1.dev n hn1 hn4
  have hcalls : copyImageCalls q (gpuMemory.destroy r1.obj) r1.dev = copyImageCalls q r1.obj r1.dev :=
    rfl
  rw [hcalls] at hcd
  have hlen : (copyImageCalls q r1.obj r1.dev).length = 4 := rfl
  rw [hc]
  by_cases hce : c.error = CL_SUCCESS
  · obtain ⟨hn4', hco⟩ := hcok hce
    subst hn4'
    have htake : (copyImageCalls q r1.obj r1.dev).take 4 = copyImageCalls q r1.obj r1.dev := by
      rw [← hlen, List.take_length]
    rw [htake] at hcd hcopy
    have hst := hfour.mp rfl
    have h3 : (r1.dev.replies 3).status = CL_SUCCESS := herr.symm.trans hce
    obtain ⟨x, hx, hxc⟩ := hcopy.mpr rfl
    simp only [hce, ne_eq, not_true_eq_false, if_false]
    have hcq : c.obj.mCommandQueues ≠ [] := by rw [hco]; show (gpuMemory.destroy r1.obj).mCommandQueues ≠ []; rw [hqs]; exact hq
    obtain ⟨r2, hr2, hr2c⟩ := hostMapStep_spec haFlags q2 c.obj c.dev hcq
    have hmc : ∀ q', hostMapCall haFlags q' c.obj = hostMapCall haFlags q' r1.obj := by
      intro q'; rw [hco]; rfl
    have hcq2 : getCommandQueue c.obj q2 = some q := by
      rw [hco, ← hqd]; rfl
    rcases hr2c with ⟨hd, he, hs, ho⟩ | ⟨q', hq', hs, hd, hrest⟩
    · have hcs : r2.dev.callsSince r1.dev = copyImageCalls q r1.obj r1.dev := by
        rw [hd, hcd, issueAll_callsSince]
      refine ⟨r2, q, hq2, hr2, ?_, ⟨[hostMapCall haFlags q r1.obj], by rw [hcs]⟩,
        ⟨fun _ => hst, fun _ => ⟨x, by rw [hcs]; exact hx, hxc⟩⟩, fun _ => h3, fun _ => ?_⟩
      · rw [hcs]; simp [copyImageCalls]
      · refine ⟨by rw [ho, hco], ⟨[], by rw [hcs]; simp⟩, fun hsn => ?_⟩
        rw [hco] at hs
        exact absurd (hsvm.trans hsn) hs
    · have hqq : q' = q := by rw [hcq2] at hq'; exact (Option.some.inj hq').symm
      subst hqq
      have hcs : r2.dev.callsSince r1.dev =
          copyImageCalls q' r1.obj r1.dev ++ [hostMapCall haFlags q' r1.obj] := by
        rw [hd, hcd, hmc, ← issueAll_single, ← issueAll_append, issueAll_callsSince]
      refine ⟨r2, q', hq2, hr2, ?_, ⟨[], by rw [hcs]; simp⟩,
        ⟨fun _ => hst, fun _ => ⟨x, by rw [hcs]; exact List.mem_append_left _ hx, hxc⟩⟩,
        fun _ => h3, fun hr2ok => ?_⟩
      · rw [hcs]; simp
      · rcases hrest with ⟨_, _, _, ho⟩ | ⟨_, _, he, _⟩ | ⟨hst, he, _⟩
        · exact ⟨by rw [ho, hco], ⟨_, hcs⟩, fun _ => ⟨hcs, by rw [ho]⟩⟩
        · rw [he] at hr2ok; exact absurd hr2ok (by decide)
        · rw [he] at hr2ok; exact absurd hr2ok hst
  · simp only [hce, ne_eq, not_false_eq_true, if_true]
    have hcs : c.dev.callsSince r1.dev = (copyImageCalls q r1.obj r1.dev).take n := by
      rw [hcd, issueAll_callsSince]
    refine ⟨c, q, hq2, rfl, ?_, ⟨(copyImageCalls q r1.obj r1.dev).drop n ++
      [hostMapCall haFlags q r1.obj], ?_⟩, ?_, ?_, fun h => absurd h hce⟩
    · rw [hcs]
      intro h
      have := congrArg List.length h
      simp only [List.length_take, hlen, List.length_nil] at this
      omega
    · rw [hcs, ← List.append_assoc, List.take_append_drop]
    · rw [hcs]
      exact hcopy.trans hfour
    · rintro ⟨y, hy, hym⟩
      rw [hcs] at hy
      rw [copyImageCalls_take_not_map q r1.obj r1.dev n y hy] at hym
      exact absurd hym (by simp)

/-- C3 at a concrete input: the sample object, a two-dimensional bind, then
`setHostAccess(READONLY)`; both calls succeed on the steady device, and the
second issues the image-to-buffer copy. -/
theorem C3_witness :
    mappedSample.mCommandQueues ≠ [] ∧ eMemFlags.READONLY ≠ eMemFlags.WRITEONLY ∧
    eMemFlags.READONLY ≠ eMemFlags.NONE ∧
    ∃ r1 r2, gpuMemory.setKernelParam 9 0 true eAccess.WRITEONLY 2 0 (getGPUMemory mappedSample)
        (Device.steady 64) = some r1 ∧ r1.error = CL_SUCCESS ∧
      r1.obj.mMemLatest = eMemLatest.IMAGE ∧
      setHostAccess eMemFlags.READONLY 0 (gpuMemory.destroy r1.obj) r1.dev = some r2 ∧
      (∃ c ∈ r2.dev.callsSince r1.dev, c.isCopyImageToBuffer = true) ∧
      r2.error = CL_SUCCESS ∧ r2.obj.mMemLatest = eMemLatest.SAME := by
  refine ⟨by decide, by decide, by decide, ?_⟩
  obtain ⟨r1, h1, h2⟩ := C3_image_round_trip_copies_back mappedSample (Device.steady 64) 9 0 2 0 0
    eMemFlags.READONLY (by decide) (by decide) (by decide)
  have e1 : (gpuMemory.setKernelParam 9 0 true eAccess.WRITEONLY 2 0 (getGPUMemory mappedSample)
      (Device.steady 64)).map (fun r => (r.error, r.dev.since (Device.steady 64))) =
      some (CL_SUCCESS,
        [⟨.clEnqueueUnmapMemObject 7 5 64, ⟨CL_SUCCESS, 64⟩⟩,
         ⟨.clCreateImage 1 513 CL_RGBA CL_FLOAT CL_MEM_OBJECT_IMAGE2D 4 4 1, ⟨CL_SUCCESS, 64⟩⟩,
         ⟨.clSetKernelArg 9 0 (KernelArgValue.memHandle 64), ⟨CL_SUCCESS, 64⟩⟩]) := by
    decide
  have e0 : (gpuMemory.setKernelParam 9 0 true eAccess.WRITEONLY 2 0 (getGPUMemory mappedSample)
      (Device.steady 64)).map (fun r => ((r.dev.replies 0).status, (r.dev.replies 1).status,
        (r.dev.replies 2).status)) = some (CL_SUCCESS, CL_SUCCESS, CL_SUCCESS) := by
    decide
  rw [h1] at e1 e0
  simp only [Option.map_some', Option.some.injEq, Prod.mk.injEq] at e1 e0
  obtain ⟨_, hlat, r2, q, _, hr2, _, _, hiff, _, hfin⟩ := h2 e1.1 (by
    rw [e1.2]
    decide)
  have e2 : (setHostAccess eMemFlags.READONLY 0 (gpuMemory.destroy r1.obj) r1.dev).map
      (fun r => r.error) = some CL_SUCCESS := by
    have e3 : ((gpuMemory.setKernelParam 9 0 true eAccess.WRITEONLY 2 0 (getGPUMemory mappedSample)
      (Device.steady 64)).bind (fun r1 =>
        (setHostAccess eMemFlags.READONLY 0 (gpuMemory.destroy r1.obj) r1.dev).map
          (fun r => r.error))) = some CL_SUCCESS := by decide
    rw [h1] at e3
    exact e3
  rw [hr2] at e2
  simp only [Option.map_some', Option.some.injEq] at e2
  exact ⟨r1, r2, h1, e1.1, hlat, hr2, hiff.mpr e0, e2, (hfin e2).1⟩

/-- C3 fails as stated: the fresh sample object is allocated, host data is
written, it is bound as a `WRITEONLY` image through a guard and the guard is
released, all with success and without a buffer-to-image copy.  The next
`setHostAccess(READONLY)`, whose first `clGetImageInfo` query fails, issues
that query only: no image-to-buffer copy and no map call. -/
theorem C3_counterexample :
    ((allocate freshSample (Device.failingAt 5 64)).bind fun a =>
      (copyFrom [1, 2, 3] 3 0 a.obj a.dev).bind fun w =>
        (gpuMemory.bind (imageBind eAccess.WRITEONLY) (getGPUMemory w.obj) w.dev).bind fun b =>
          (setHostAccess eMemFlags.READONLY 0 (gpuMemory.destroy b.obj) b.dev).map fun r =>
            (a.ok, b.error, (b.dev.callsSince w.dev).countP DevCall.isCopyBufferToImage,
              b.obj.mMemLatest, r.error, r.dev.callsSince b.dev, r.obj.mMemLatest)) =
    some (true, CL_SUCCESS, 0, eMemLatest.IMAGE, CL_OUT_OF_RESOURCES,
      [DevCall.clGetImageInfo 64 CL_IMAGE_WIDTH], eMemLatest.IMAGE) := by
  rfl

/-- C4, at the failing input: on a freshly allocated object, two consecutive
image-shaped binds with `READONLY` access both succeed and issue two
buffer-to-image copies, not at most one: the first copy leaves `mMemLatest`
at `BUFFER`, so the second bind copies again. -/
theorem C4_two_image_binds_copy_twice :
    ((allocate freshSample (Device.steady 64)).bind fun a =>
      (deviceAccesses [imageBind eAccess.READONLY, imageBind eAccess.READONLY] a.obj a.dev).map
        fun r => (a.ok, r.1, (r.2.2.callsSince a.dev).countP DevCall.isCopy, r.2.1.mMemLatest))
      = some (true, [CL_SUCCESS, CL_SUCCESS], 2, eMemLatest.BUFFER) := by
  decide

/-- C5, at the failing input: on the freshly allocated object, whose latest
representation is `BUFFER`, an image-shaped `getKernelMem` with `READONLY`
access (reached as `setKernelParam` reaches it, after `unmapMem`) succeeds,
issues the image creation and one buffer-to-image copy, and leaves the latest
representation `BUFFER`, not `SAME`. -/
theorem C5_copy_in_leaves_buffer_latest :
    ((allocate freshSample (Device.steady 64)).bind fun a =>
      (unmapMem 0 (getGPUMemory a.obj) a.dev).bind fun u =>
        (getKernelMem 2 true eAccess.READONLY false 0 u.obj u.dev).map fun k =>
          (u.obj.mMemLatest, k.error, (k.dev.callsSince u.dev).map DevCall.isCopyBufferToImage,
            k.obj.mMemLatest))
      = some (eMemLatest.BUFFER, CL_SUCCESS, [false, true], eMemLatest.BUFFER) := by
  decide

/-- C6, at the failing input: after a host read access has brought the image
back (`SAME`) and the host view was unmapped again, the object is unlocked and
unmapped and the latest representation is `SAME`, not `IMAGE`; yet the next
`setHostAccess(READONLY)` issues the image-to-buffer copy once more. -/
theorem C6_copy_back_ignores_latest :
    (imageScenario.bind fun sd =>
      (runOps [Op.hostAccess eMemFlags.READONLY 0, Op.hostAccess eMemFlags.NONE 0] sd.1 sd.2).bind
        fun td => (setHostAccess eMemFlags.READONLY 0 td.1 td.2).map fun r =>
          (td.1.mGpuLocked, td.1.mHostMapped, td.1.mImageMem, td.1.mMemLatest, r.error,
            r.dev.callsSince td.2))
      = some (false, false, 64, eMemLatest.SAME, CL_SUCCESS,
          [DevCall.clGetImageInfo 64 CL_IMAGE_WIDTH, DevCall.clGetImageInfo 64 CL_IMAGE_HEIGHT,
           DevCall.clGetImageInfo 64 CL_IMAGE_DEPTH,
           DevCall.clEnqueueCopyImageToBuffer 7 64 64 (64, 64, 64),
           DevCall.clEnqueueMapBuffer 7 64 CL_BLOCKING CL_MAP_READ 0 16]) := by
  rfl

/-- C7, at the failing input: with an image allocation in place,
`setHostAccess(WRITEONLY)`, `copyFrom [1, 2, 3]`, `setHostAccess(READONLY)` all
succeed, but the second `setHostAccess` issues an image-to-buffer copy after the
host write although `mMemLatest` is `BUFFER`, and the host view ends up holding
the image bytes, not the bytes written. -/
theorem C7_host_write_overwritten_by_image :
    (imageScenario.bind fun sd =>
      (setHostAccess eMemFlags.WRITEONLY 0 sd.1 sd.2).bind fun w =>
        (copyFrom [1, 2, 3] 3 0 w.obj w.dev).bind fun c =>
          (setHostAccess eMemFlags.READONLY 0 c.obj c.dev).map fun r =>
            (w.error, c.error, c.obj.mMemLatest, c.dev.pinned, r.error,
              (r.dev.callsSince c.dev).countP DevCall.isCopyImageToBuffer, r.dev.pinned))
      = some (CL_SUCCESS, CL_SUCCESS, eMemLatest.BUFFER, [1, 2, 3, 0], CL_SUCCESS, 1,
          [9, 9, 9, 9]) := by
  rfl

/-- C8, at the failing input: with an image allocation in place,
`setHostAccess(READWRITE)` and a host `copyFrom` succeed and leave
`mMemLatest` at `SAME` although only the linear buffer holds the bytes just
written; the next image-shaped bind with `READONLY` access then succeeds
without any buffer-to-image copy, binding the stale image. -/
theorem C8_host_write_not_copied_to_image :
    (imageScenario.bind fun sd =>
      (setHostAccess eMemFlags.READWRITE 0 sd.1 sd.2).bind fun w =>
        (copyFrom [1, 2, 3] 3 0 w.obj w.dev).bind fun c =>
          (gpuMemory.bind (imageBind eAccess.READONLY) (getGPUMemory c.obj) c.dev).map fun r =>
            (w.error, c.error, c.obj.mMemLatest, c.dev.pinned, r.error, r.dev.callsSince c.dev,
              r.dev.image))
      = some (CL_SUCCESS, CL_SUCCESS, eMemLatest.SAME, [1, 2, 3, 9], CL_SUCCESS,
          [DevCall.clEnqueueUnmapMemObject 7 64 64,
           DevCall.clSetKernelArg 9 0 (KernelArgValue.memHandle 64)],
          [9, 9, 9, 9]) := by
  rfl

/-- C9: whatever the device answers, `freeAllocation` returns (the one queue it
may need, for the unmap of a mapped `NONE` object, must exist).  It issues the
unmap call if the object is mapped in residency mode `NONE`, then one release
for the image handle if it is not null, then one release for the buffer
handle if it is not null, and nothing else; it ends with the three pointers
null and the object not host-mapped.  A second `freeAllocation` issues no
device call and changes nothing, so the releases issued in all equal the
non-null handles of the object. -/
theorem C9_free_allocation_releases_once (s : clMemory) (dev : Device)
    (hq : s.mHostMapped = true → s.mSvmType = eSvmType.NONE → s.mCommandQueues ≠ []) :
    ∃ s1 dev1, freeAllocation s dev = some (s1, dev1) ∧
      s1.mPinnedMem = 0 ∧ s1.mImageMem = 0 ∧ s1.mHostBuf = 0 ∧ s1.mHostMapped = false ∧
      (dev1.callsSince dev).filter DevCall.isRelease =
        (if s.mImageMem ≠ 0 then [DevCall.clReleaseMemObject s.mImageMem] else []) ++
        (if s.mPinnedMem ≠ 0 then [DevCall.clReleaseMemObject s.mPinnedMem] else []) ∧
      (∃ unmaps, dev1.callsSince dev = unmaps ++ (dev1.callsSince dev).filter DevCall.isRelease ∧
        unmaps.length = (if s.mHostMapped = true ∧ s.mSvmType = eSvmType.NONE then 1 else 0) ∧
        ∀ c ∈ unmaps, ∃ q, c = DevCall.clEnqueueUnmapMemObject q s.mPinnedMem s.mHostBuf) ∧
      freeAllocation s1 dev1 = some (s1, dev1) := by
  -- the unmap step
  obtain ⟨u, cs, hu, huo, hud, hcs1, hcs2⟩ : ∃ u cs, unmapMem 0 s dev = some u ∧
      u.obj = { s with mHostMapped := false,
                       mMapFlags := if s.mHostMapped then eMemFlags.NONE else s.mMapFlags } ∧
      u.dev = dev.issueAll cs ∧
      cs.length = (if s.mHostMapped = true ∧ s.mSvmType = eSvmType.NONE then 1 else 0) ∧
      ∀ c ∈ cs, ∃ q, c = DevCall.clEnqueueUnmapMemObject q s.mPinnedMem s.mHostBuf := by
    by_cases hm : s.mHostMapped = true
    · by_cases hs : s.mSvmType = eSvmType.NONE
      · obtain ⟨q, hq1⟩ := getCommandQueue_some s 0 (hq hm hs)
        exact ⟨_, [.clEnqueueUnmapMemObject q s.mPinnedMem s.mHostBuf],
          unmapMem_mapped 0 s dev q hm hs hq1, by simp [hm], rfl, by simp [hm, hs],
          by simp⟩
      · exact ⟨_, [], unmapMem_mapped_svm 0 s dev hm hs, by simp [hm], rfl, by simp [hs], by simp⟩
    · simp only [Bool.not_eq_true] at hm
      refine ⟨_, [], unmapMem_unmapped 0 s dev hm, ?_, rfl, by simp [hm], by simp⟩
      cases s; simp_all
  have hfilter : cs.filter DevCall.isRelease = [] := by
    rw [List.filter_eq_nil_iff]
    intro c hc
    obtain ⟨q, rfl⟩ := hcs2 c hc
    simp [DevCall.isRelease]
  have hi : u.obj.mImageMem = s.mImageMem := by rw [huo]
  have hp : u.obj.mPinnedMem = s.mPinnedMem := by rw [huo]
  have hfree : freeAllocation s dev = some
      ({ u.obj with mPinnedMem := 0, mImageMem := 0, mHostBuf := 0 },
       dev.issueAll (cs ++ ((if s.mImageMem ≠ 0 then [DevCall.clReleaseMemObject s.mImageMem] else []) ++
         (if s.mPinnedMem ≠ 0 then [DevCall.clReleaseMemObject s.mPinnedMem] else [])))) := by
    unfold freeAllocation
    simp only [hu, hi, hp, hud, issueAll_append]
    by_cases h1 : s.mImageMem = 0 <;> by_cases h2 : s.mPinnedMem = 0 <;>
      simp [h1, h2, issueAll_nil, issueAll_cons]
  refine ⟨_, _, hfree, rfl, rfl, rfl, by simp [huo], ?_, ⟨cs, ?_, hcs1, hcs2⟩, ?_⟩
  · rw [issueAll_callsSince, List.filter_append, hfilter]
    by_cases h1 : s.mImageMem = 0 <;> by_cases h2 : s.mPinnedMem = 0 <;>
      simp [h1, h2, DevCall.isRelease]
  · rw [issueAll_callsSince, List.filter_append, hfilter]
    by_cases h1 : s.mImageMem = 0 <;> by_cases h2 : s.mPinnedMem = 0 <;>
      simp [h1, h2, DevCall.isRelease]
  · unfold freeAllocation
    rw [unmapMem_unmapped 0 _ _ (by simp [huo])]
    simp

/-- C9 at a concrete input: the sample object, mapped, with a buffer and no image. -/
theorem C9_witness :
    (mappedSample.mHostMapped = true → mappedSample.mSvmType = eSvmType.NONE →
      mappedSample.mCommandQueues ≠ []) ∧
    ∃ s1 dev1, freeAllocation mappedSample (Device.steady 64) = some (s1, dev1) ∧
      s1.mPinnedMem = 0 ∧ s1.mImageMem = 0 ∧ s1.mHostBuf = 0 ∧ s1.mHostMapped = false ∧
      (dev1.callsSince (Device.steady 64)).filter DevCall.isRelease =
        [DevCall.clReleaseMemObject 5] ∧
      freeAllocation s1 dev1 = some (s1, dev1) := by
  refine ⟨fun _ _ => by decide, ?_⟩
  obtain ⟨s1, dev1, h1, h2, h3, h4, h5, h6, _, h8⟩ :=
    C9_free_allocation_releases_once mappedSample (Device.steady 64) (fun _ _ => by decide)
  exact ⟨s1, dev1, h1, h2, h3, h4, h5, h6, h8⟩

/-- C10 (as amended): every sequence of `setHostAccess` calls, guard
acquisitions, binds (of at most three dimensions) and guard releases returns,
whatever the device answers, and leaves the value of `hostBuf()` as it was.
And whenever the map call inside `setHostAccess` returns an address other than
the recorded host pointer, `setHostAccess` returns a failure, the object is
left not host-mapped, `hostBuf()` is unchanged and the recorded access mode is
the one in force when the map call was issued: the mode on entry if the object
was unmapped on entry, `NONE` if `setHostAccess` had to unmap it first. -/
theorem C10_host_pointer_stable (s : clMemory) (dev : Device) (hq : s.mCommandQueues ≠ []) :
    (∀ ops : List Op, (∀ b, Op.bind b ∈ ops → b.numDims ≤ 3) →
      ∃ s1 dev1, runOps ops s dev = some (s1, dev1) ∧ s1.hostBuf = s.hostBuf) ∧
    (∀ (haFlags : eMemFlags) (queueNum : Nat),
      ∃ r, setHostAccess haFlags queueNum s dev = some r ∧ r.obj.hostBuf = s.hostBuf ∧
        ∀ e ∈ r.dev.since dev, e.call.isMapBuffer = true → e.reply.value ≠ s.hostBuf →
          r.error ≠ CL_SUCCESS ∧ r.obj.mHostMapped = false ∧
          r.obj.mMapFlags = if s.mHostMapped then eMemFlags.NONE else s.mMapFlags) := by
  refine ⟨fun ops hnd => ?_, fun haFlags queueNum => ?_⟩
  · obtain ⟨s1, dev1, h1, h2⟩ := runOps_spec ops s dev hq hnd
    exact ⟨s1, dev1, h1, h2.2.2.2.2.2.2.2.2⟩
  · by_cases hl : s.mGpuLocked = true
    · exact ⟨_, setHostAccess_locked _ _ _ _ hl, rfl, by simp [since_self]⟩
    · simp only [Bool.not_eq_true] at hl
      obtain ⟨r, l, h1, h2, h3, _, _, _, h7⟩ := setHostAccess_trace haFlags queueNum s dev hl hq
      refine ⟨r, h1, h3.2.2.2.2.2.2.2.2, ?_⟩
      rw [since_of_trace _ _ _ h2]
      intro e he hmap hv
      exact (h7 e he hmap).2 hv

/-- C10 at a concrete input: a host access, a guarded image bind and another
host access on the sample object. -/
theorem C10_witness :
    mappedSample.mCommandQueues ≠ [] ∧
    (∃ s1 dev1, runOps [Op.hostAccess eMemFlags.READONLY 0, Op.acquire,
        Op.bind (imageBind eAccess.READWRITE), Op.release, Op.hostAccess eMemFlags.READWRITE 0]
        mappedSample (Device.steady 64) = some (s1, dev1) ∧ s1.hostBuf = mappedSample.hostBuf) :=
  ⟨by decide,
   (C10_host_pointer_stable mappedSample (Device.steady 64) (by decide)).1 _ (by
     intro b hb
     simp only [List.mem_cons, List.mem_singleton, List.not_mem_nil, or_false, Op.bind.injEq,
       false_or, reduceCtorEq] at hb
     subst hb
     decide)⟩

/-- C10 as stated fails where `setHostAccess` has to unmap first: the object is
mapped `READWRITE`, `READONLY` is requested, and the device maps at `65` instead
of the recorded `64`.  The call fails and leaves the object unmapped, but the
recorded access mode has changed from `READWRITE` to `NONE`. -/
theorem C10_counterexample :
    mappedSample.mMapFlags = eMemFlags.READWRITE ∧
    (setHostAccess eMemFlags.READONLY 0 mappedSample (Device.steady 65)).map
      (fun r => (r.error, r.obj.mHostMapped, r.obj.mMapFlags,
        (r.dev.since (Device.steady 65)).map fun e => (e.call.isMapBuffer, e.reply.value)))
      = some (CL_MAP_FAILURE, false, eMemFlags.NONE, [(false, 65), (true, 65)]) := by
  decide

/-- C12 (as amended): for residency mode `NONE` and every buffer access mode,
`allocate` creates the linear buffer with `CL_MEM_ALLOC_HOST_PTR` and, when
the creation succeeds, maps it on the first queue; it returns whether the
recorded host pointer is then non-null.  For `COARSE` and `FINE` it issues no
device call, leaves the object as it was and returns whether the host pointer
was non-null already, which is false on a freshly constructed object. -/
theorem C12_allocate_by_residency (s : clMemory) (dev : Device) :
    (s.mSvmType ≠ eSvmType.NONE →
      allocate s dev = some ⟨decide (s.mHostBuf ≠ 0), s, dev⟩) ∧
    (s.mSvmType = eSvmType.NONE → s.mCommandQueues ≠ [] →
      ∃ a q, allocate s dev = some a ∧ s.mCommandQueues[0]? = some q ∧
        a.dev.callsSince dev = createBufferCall s ::
          (if (dev.replies 0).status = CL_SUCCESS
           then [allocateMapCall q s (dev.replies 0).value] else []) ∧
        a.ok = decide (a.obj.mHostBuf ≠ 0) ∧
        a.obj.mHostBuf =
          (if (dev.replies 0).status = CL_SUCCESS then (dev.replies 1).value else s.mHostBuf)) := by
  refine ⟨fun hs => allocate_svm s dev hs, fun hs hq => ?_⟩
  obtain ⟨q, hq0⟩ : ∃ q, s.mCommandQueues[0]? = some q := by
    cases hc : s.mCommandQueues with
    | nil => exact absurd hc hq
    | cons x xs => exact ⟨x, by simp⟩
  by_cases h0 : (dev.replies 0).status = CL_SUCCESS
  · obtain ⟨a, ha, hok, hd, ho⟩ := allocate_created_calls s dev q hs hq0 h0
    refine ⟨a, q, ha, hq0, ?_, ?_, ?_⟩
    · rw [hd, issueAll_callsSince, if_pos h0]
    · rw [hok, ho]
    · rw [ho, if_pos h0]
  · refine ⟨_, q, allocate_create_failed s dev hs h0, hq0, ?_, rfl, ?_⟩
    · rw [if_neg h0]
      exact issueAll_callsSince dev [createBufferCall s]
    · rw [if_neg h0]

/-- C12 at two concrete inputs: the fresh `COARSE` sample and the fresh `NONE` sample. -/
theorem C12_witness :
    coarseSample.mSvmType ≠ eSvmType.NONE ∧ freshSample.mSvmType = eSvmType.NONE ∧
    freshSample.mCommandQueues ≠ [] ∧
    allocate coarseSample (Device.steady 64) = some ⟨false, coarseSample, Device.steady 64⟩ ∧
    ∃ a, allocate freshSample (Device.steady 64) = some a ∧ a.ok = decide (a.obj.mHostBuf ≠ 0) :=
  ⟨by decide, by decide, by decide,
   (C12_allocate_by_residency coarseSample (Device.steady 64)).1 (by decide),
   ((C12_allocate_by_residency freshSample (Device.steady 64)).2 (by decide) (by decide)).imp
     fun _ h => h.elim fun _ h => ⟨h.1, h.2.2.2.1⟩⟩

/-- C12 as stated fails: with every device call succeeding, `allocate` on the
fresh `NONE` object issues two device calls and returns true, on the same
object with residency `COARSE` it issues none and returns false. -/
theorem C12_counterexample :
    (allocate freshSample (Device.steady 64)).map
        (fun a => (a.ok, (a.dev.callsSince (Device.steady 64)).length)) = some (true, 2) ∧
    (allocate coarseSample (Device.steady 64)).map
        (fun a => (a.ok, (a.dev.callsSince (Device.steady 64)).length)) = some (false, 0) := by
  decide

/-- C13: on a freshly constructed object with residency mode `NONE` (and at least
one command queue) `allocate` returns, whatever the device answers.  It issues
the buffer creation and, only when that succeeds, the map call; and it returns
true exactly when the creation succeeded and the map call returned a non-null
address. -/
theorem C13_allocate_true_iff (context : Nat) (commandQueues : List Nat) (memFlags : eMemFlags)
    (numBytes devInfo : Nat) (imageDims : Nat × Nat × Nat) (dev : Device)
    (hq : commandQueues ≠ []) :
    ∃ a, allocate (clMemory.create context commandQueues memFlags eSvmType.NONE numBytes devInfo
        imageDims) dev = some a ∧
      (a.ok = true ↔
        (∃ e ∈ a.dev.since dev, e.call.isCreateBuffer = true ∧ e.reply.status = CL_SUCCESS) ∧
        (∃ e ∈ a.dev.since dev, e.call.isMapBuffer = true ∧ e.reply.value ≠ 0)) ∧
      ((∃ e ∈ a.dev.since dev, e.call.isMapBuffer = true) ↔
        (∃ e ∈ a.dev.since dev, e.call.isCreateBuffer = true ∧ e.reply.status = CL_SUCCESS)) ∧
      (∃ e ∈ a.dev.since dev, e.call.isCreateBuffer = true) := by
  obtain ⟨q, hq0⟩ : ∃ q, commandQueues[0]? = some q := by
    cases commandQueues with
    | nil => exact absurd rfl hq
    | cons x xs => exact ⟨x, by simp⟩
  by_cases h0 : (dev.replies 0).status = CL_SUCCESS
  · obtain ⟨a, ha, hok, hd, _⟩ := allocate_created_calls
      (clMemory.create context commandQueues memFlags eSvmType.NONE numBytes devInfo imageDims)
      dev q rfl hq0 h0
    refine ⟨a, ha, ?_⟩
    rw [hd, since_issueAll_two, hok]
    simp [createBufferCall, allocateMapCall, DevCall.isCreateBuffer, DevCall.isMapBuffer, h0]
  · refine ⟨_, allocate_create_failed _ dev rfl h0, ?_⟩
    have hs : (dev.issue (createBufferCall (clMemory.create context commandQueues memFlags
        eSvmType.NONE numBytes devInfo imageDims))).since dev = [⟨_, dev.next⟩] := issue_since _ _
    simp only [hs]
    have h0' : ¬ dev.next.status = CL_SUCCESS := h0
    simp [createBufferCall, DevCall.isCreateBuffer, DevCall.isMapBuffer, h0', clMemory.create]

/-- C13 at a concrete input: the fresh sample object on a device that keeps succeeding. -/
theorem C13_witness :
    ([7] : List Nat) ≠ [] ∧
    ∃ a, allocate (clMemory.create 1 [7] eMemFlags.READWRITE eSvmType.NONE 16 0 (4, 4, 1))
        (Device.steady 64) = some a ∧
      (a.ok = true ↔
        (∃ e ∈ a.dev.since (Device.steady 64),
          e.call.isCreateBuffer = true ∧ e.reply.status = CL_SUCCESS) ∧
        (∃ e ∈ a.dev.since (Device.steady 64), e.call.isMapBuffer = true ∧ e.reply.value ≠ 0)) :=
  ⟨by decide,
   (C13_allocate_true_iff 1 [7] eMemFlags.READWRITE 16 0 (4, 4, 1) (Device.steady 64)
     (by decide)).imp fun _ h => ⟨h.1, h.2.1⟩⟩

/-- C14, at the failing input: `allocate` on a fresh write-only object maps the
buffer with `CL_MAP_READ` but records `READWRITE` as the host access mode, so
the following `setHostAccess(READWRITE)` finds the modes equal, issues no
device call and returns `CL_SUCCESS`, leaving the host with a read mapping
where read and write were requested. -/
theorem C14_allocate_records_wrong_mode :
    ((allocate writeOnlySample (Device.steady 64)).bind fun a =>
      (setHostAccess eMemFlags.READWRITE 0 a.obj a.dev).map fun r =>
        (a.ok, a.obj.mHostMapped, a.obj.mMapFlags, a.dev.callsSince (Device.steady 64),
          r.error, r.dev.callsSince a.dev, r.obj.mMapFlags))
      = some (true, true, eMemFlags.READWRITE,
          [DevCall.clCreateBuffer 1 (CL_MEM_WRITE_ONLY ||| CL_MEM_ALLOC_HOST_PTR) 16,
           DevCall.clEnqueueMapBuffer 7 64 CL_TRUE CL_MAP_READ 0 16],
          CL_SUCCESS, [], eMemFlags.READWRITE) ∧
    mapFlagsOf eMemFlags.READWRITE = CL_MAP_WRITE ||| CL_MAP_READ ∧
    CL_MAP_READ ≠ CL_MAP_WRITE ||| CL_MAP_READ := by
  refine ⟨by rfl, by decide, by decide⟩

/-- C18: the lock is one flag.  A second `getGPUMemory` while a guard is
outstanding is accepted and leaves the flag set; the destructor of either
guard (both point at the same object) clears it; from then on `setHostAccess`
is not refused although one guard is still alive: it returns, what it returns
is what it returns on the object that was never locked, and a failure it
reports is the answer of a device call it issued. -/
theorem C18_lock_is_one_flag (s : clMemory) (haFlags : eMemFlags) (queueNum : Nat)
    (dev : Device) (hq : s.mCommandQueues ≠ []) :
    (getGPUMemory (getGPUMemory s)).mGpuLocked = true ∧
    getGPUMemory (getGPUMemory s) = getGPUMemory s ∧
    (gpuMemory.destroy (getGPUMemory (getGPUMemory s))).mGpuLocked = false ∧
    setHostAccess haFlags queueNum (gpuMemory.destroy (getGPUMemory (getGPUMemory s))) dev =
      setHostAccess haFlags queueNum (onGpuReturn s) dev ∧
    ∃ r, setHostAccess haFlags queueNum (gpuMemory.destroy (getGPUMemory (getGPUMemory s))) dev
        = some r ∧
      (r.error = CL_SUCCESS ∨ r.dev.since dev ≠ []) ∧
      (s.mHostMapped = true → haFlags = s.mMapFlags → r.error = CL_SUCCESS ∧ r.dev = dev) := by
  refine ⟨rfl, rfl, rfl, rfl, ?_⟩
  obtain ⟨r, l, h1, h2, _, _, _, h6, _⟩ := setHostAccess_trace haFlags queueNum
    (gpuMemory.destroy (getGPUMemory (getGPUMemory s))) dev rfl hq
  refine ⟨r, h1, by rw [since_of_trace _ _ _ h2]; exact h6, fun hm hf => ?_⟩
  have h3 := setHostAccess_same haFlags queueNum
    (gpuMemory.destroy (getGPUMemory (getGPUMemory s))) dev rfl hm hf
  rw [h3] at h1
  cases h1
  exact ⟨rfl, rfl⟩

/-- C18 at a concrete input: two guards on the mapped sample object, one destroyed. -/
theorem C18_witness :
    mappedSample.mCommandQueues ≠ [] ∧
    ∃ r, setHostAccess eMemFlags.READWRITE 0
        (gpuMemory.destroy (getGPUMemory (getGPUMemory mappedSample))) (Device.steady 64) = some r ∧
      (r.error = CL_SUCCESS ∨ r.dev.since (Device.steady 64) ≠ []) :=
  ⟨by decide,
   (C18_lock_is_one_flag mappedSample eMemFlags.READWRITE 0 (Device.steady 64)
     (by decide)).2.2.2.2.imp fun _ h => ⟨h.1, h.2.1⟩⟩

/-- C15: a bind through the guard returns, whatever the device answers and
whatever status it reports, and leaves the object not host-mapped.  As long as
the guard is not destroyed, every further `setHostAccess` call, also
interleaved with further binds, returns and leaves it not host-mapped:
`setHostAccess` is refused and changes nothing.  (An image-shaped bind that
has to copy takes at most three dimensions.) -/
theorem C15_unmapped_while_guard_alive (s : clMemory) (b : BindArgs) (dev : Device)
    (hq : s.mCommandQueues ≠ [])
    (hb : b.isImageParam = false ∨ b.access = eAccess.WRITEONLY ∨ b.numDims ≤ 3) :
    ∃ r, gpuMemory.bind b (getGPUMemory s) dev = some r ∧ r.obj.mHostMapped = false ∧
      (∀ (haFlags : eMemFlags) (queueNum : Nat),
        setHostAccess haFlags queueNum r.obj r.dev = some ⟨CL_MAP_FAILURE, r.obj, r.dev⟩) ∧
      ∀ ops : List Op, (∀ o ∈ ops, o ≠ Op.release) → (∀ b1, Op.bind b1 ∈ ops → b1.numDims ≤ 3) →
        ∃ s1 dev1, runOps ops r.obj r.dev = some (s1, dev1) ∧ s1.mHostMapped = false := by
  obtain ⟨r, hr⟩ := setKernelParam_total b.kernel b.paramIndex b.isImageParam b.access
    b.numDims b.queueNum (getGPUMemory s) dev hq hb
  obtain ⟨f1, f2, f3⟩ := setKernelParam_frame _ _ _ _ _ _ _ _ _ hr
  have hl : r.obj.mGpuLocked = true := f2
  refine ⟨r, hr, f3, fun haFlags queueNum => setHostAccess_locked _ _ _ _ hl, ?_⟩
  intro ops hrel hnd
  obtain ⟨s1, dev1, h1, _, h3, _⟩ := runOps_locked_unmapped ops r.obj r.dev hl f3
    (by rw [f1.2.1]; exact hq) hrel hnd
  exact ⟨s1, dev1, h1, h3⟩

/-- C15 at a concrete input: a linear bind on the mapped sample object, then two
host-access requests around a second bind. -/
theorem C15_witness :
    mappedSample.mCommandQueues ≠ [] ∧
    ∃ r, gpuMemory.bind ⟨9, 0, false, eAccess.READWRITE, 2, 0⟩ (getGPUMemory mappedSample)
        (Device.steady 64) = some r ∧ r.obj.mHostMapped = false ∧
      ∃ s1 dev1, runOps [Op.hostAccess eMemFlags.READWRITE 0,
          Op.bind ⟨9, 1, false, eAccess.READONLY, 2, 0⟩, Op.hostAccess eMemFlags.READONLY 0]
          r.obj r.dev = some (s1, dev1) ∧ s1.mHostMapped = false := by
  refine ⟨by decide, ?_⟩
  obtain ⟨r, h1, h2, _, h4⟩ := C15_unmapped_while_guard_alive mappedSample
    ⟨9, 0, false, eAccess.READWRITE, 2, 0⟩ (Device.steady 64) (by decide) (Or.inl rfl)
  refine ⟨r, h1, h2, h4 _ ?_ ?_⟩
  · intro o ho
    simp only [List.mem_cons, List.mem_singleton, List.not_mem_nil, or_false] at ho
    rcases ho with h | h | h <;> subst h <;> simp
  · intro b1 hb1
    simp only [List.mem_cons, List.mem_singleton, List.not_mem_nil, or_false, Op.bind.injEq,
      false_or, or_false, reduceCtorEq] at hb1
    subst hb1
    decide

/-- C11, as the code has it, for an object with a command queue.
`setHostAccess` returns, and a failing device call inside it has its status
returned; when that call is the map, the object is left not host-mapped, and
the recorded host access mode is the one on entry if the object was not mapped
on entry and `NONE` if it was (the unmap before the map has then succeeded).
The guard's `setKernelParam` returns (an image-shaped bind that has to copy
takes at most three dimensions) and a failing device call inside it, the unmap
included, has its status returned.  `allocate` under residency `NONE` returns;
it answers `false` when the buffer creation fails on an object whose host
pointer is null, and when the map returns a null address. -/
theorem C11_failures_surface (s : clMemory) (dev : Device) (hq : s.mCommandQueues ≠ []) :
    (∀ (haFlags : eMemFlags) (queueNum : Nat),
      ∃ r, setHostAccess haFlags queueNum s dev = some r ∧
        ∀ e ∈ r.dev.since dev, e.reply.status ≠ CL_SUCCESS →
          r.error = e.reply.status ∧
          (e.call.isMapBuffer = true →
            r.obj.mHostMapped = false ∧
            r.obj.mMapFlags = if s.mHostMapped then eMemFlags.NONE else s.mMapFlags)) ∧
    (∀ b : BindArgs, (b.isImageParam = false ∨ b.access = eAccess.WRITEONLY ∨ b.numDims ≤ 3) →
      ∃ r, gpuMemory.bind b s dev = some r ∧
        ∀ e ∈ r.dev.since dev, e.reply.status ≠ CL_SUCCESS → r.error = e.reply.status) ∧
    (s.mSvmType = eSvmType.NONE →
      ∃ a, allocate s dev = some a ∧
        ((dev.replies 0).status ≠ CL_SUCCESS →
          a.ok = decide (s.mHostBuf ≠ 0) ∧ a.dev.callsSince dev = [createBufferCall s]) ∧
        ((dev.replies 0).status = CL_SUCCESS → (dev.replies 1).value = 0 → a.ok = false)) := by
  refine ⟨fun haFlags queueNum => ?_, fun b hb => ?_, fun hs => ?_⟩
  · obtain ⟨r, l, h1, h2, h3⟩ := setHostAccess_failing haFlags queueNum s dev hq
    refine ⟨r, h1, ?_⟩
    rw [since_of_trace _ _ _ h2]
    exact h3
  · obtain ⟨r, pre, tail, h1, h2, h3, _⟩ :=
      setKernelParam_events b.kernel b.paramIndex b.isImageParam b.access b.numDims b.queueNum
        s dev hq hb
    refine ⟨r, h1, ?_⟩
    rw [since_of_trace _ _ _ h2]
    intro e he hst
    exact (failStop_failing h3 e he hst).1
  · by_cases h0 : (dev.replies 0).status = CL_SUCCESS
    · obtain ⟨q, hq0⟩ : ∃ q, s.mCommandQueues[0]? = some q := by
        cases hcq : s.mCommandQueues with
        | nil => exact absurd hcq hq
        | cons q _ => exact ⟨q, by simp⟩
      obtain ⟨a, h1, h2, _, _⟩ := allocate_created_calls s dev q hs hq0 h0
      refine ⟨a, h1, fun h => absurd h0 h, fun _ hv => ?_⟩
      rw [h2, hv]
      rfl
    · refine ⟨_, allocate_create_failed s dev hs h0, fun _ => ⟨rfl, ?_⟩, fun h => absurd h h0⟩
      exact issueAll_callsSince dev [createBufferCall s]

/-- C11 at a concrete input: the mapped sample object asked for `READONLY` host
access on a device whose second call, the map, fails. -/
theorem C11_witness :
    mappedSample.mCommandQueues ≠ [] ∧
    ∃ r, setHostAccess eMemFlags.READONLY 0 mappedSample (Device.failingAt 1 64) = some r ∧
      ∀ e ∈ r.dev.since (Device.failingAt 1 64), e.reply.status ≠ CL_SUCCESS →
        r.error = e.reply.status ∧
        (e.call.isMapBuffer = true →
          r.obj.mHostMapped = false ∧
          r.obj.mMapFlags = if mappedSample.mHostMapped then eMemFlags.NONE
                            else mappedSample.mMapFlags) :=
  ⟨by decide,
   (C11_failures_surface mappedSample (Device.failingAt 1 64) (by decide)).1 eMemFlags.READONLY 0⟩

/-- C11 fails as stated: the fresh sample object is allocated, which leaves it
host-mapped under `READWRITE`; `setHostAccess(READONLY)` then unmaps it with
success and its map call fails.  The error is returned, and the object is left
not host-mapped with recorded mode `NONE`, not as it was before the call. -/
theorem C11_counterexample :
    ((allocate freshSample (Device.failingAt 3 64)).bind fun a =>
      (setHostAccess eMemFlags.READONLY 0 a.obj a.dev).map fun r =>
        (a.obj.mHostMapped, a.obj.mMapFlags,
         (r.dev.since a.dev).map (fun e => (e.call.isUnmap, e.call.isMapBuffer, e.reply.status)),
         r.error, r.obj.mHostMapped, r.obj.mMapFlags)) =
    some (true, eMemFlags.READWRITE,
      [(true, false, CL_SUCCESS), (false, true, CL_OUT_OF_RESOURCES)],
      CL_OUT_OF_RESOURCES, false, eMemFlags.NONE) := by
  rfl

/-- C16: for residency mode `NONE`, `setKernelParam` returns (an image-shaped
bind that has to copy takes at most three dimensions).  When it returns
`CL_SUCCESS`, the last call it issued is the one `clSetKernelArg`, and the
handle bound is the image handle for an image-shaped argument and the linear
buffer's handle otherwise; the image handle is the existing one, or, if none
existed, the one `clCreateImage` has just returned.  When a call of the unmap
step or of the resolution step fails, that call's status is returned and no
`clSetKernelArg` is issued. -/
theorem C16_bound_handle (kernel paramIndex : Nat) (isImageParam : Bool) (access : eAccess)
    (numDims queueNum : Nat) (s : clMemory) (dev : Device) (hs : s.mSvmType = eSvmType.NONE)
    (hq : s.mCommandQueues ≠ [])
    (hnd : isImageParam = false ∨ access = eAccess.WRITEONLY ∨ numDims ≤ 3) :
    ∃ r, gpuMemory.setKernelParam kernel paramIndex isImageParam access numDims queueNum s dev
        = some r ∧
      (r.error = CL_SUCCESS →
        ∃ pre rep, r.dev.since dev = pre ++ [⟨DevCall.clSetKernelArg kernel paramIndex
            (KernelArgValue.memHandle
              (if isImageParam then r.obj.mImageMem else r.obj.mPinnedMem)), rep⟩] ∧
          rep.status = CL_SUCCESS ∧ (∀ e ∈ pre, e.call.isSetKernelArg = false) ∧
          r.obj.mPinnedMem = s.mPinnedMem ∧
          (isImageParam = true → s.mImageMem ≠ 0 →
            r.obj.mImageMem = s.mImageMem ∧ ∀ e ∈ pre, e.call.isCreateImage = false) ∧
          (isImageParam = true → s.mImageMem = 0 →
            ∃ e ∈ pre, e.call = createImageCall s numDims ∧ e.reply.status = CL_SUCCESS ∧
              r.obj.mImageMem = e.reply.value)) ∧
      (∀ e ∈ r.dev.since dev, e.call.isSetKernelArg = false → e.reply.status ≠ CL_SUCCESS →
        r.error = e.reply.status ∧ ∀ x ∈ r.dev.since dev, x.call.isSetKernelArg = false) := by
  obtain ⟨r, pre, tail, hr, htr, hfs, hp, hnoarg, hcr, _, him, htail⟩ :=
    setKernelParam_events kernel paramIndex isImageParam access numDims queueNum s dev hq hnd
  refine ⟨r, hr, fun hok => ?_, ?_⟩
  · rcases htail with ⟨_, hne⟩ | ⟨rep, ht, hall, hex, _⟩
    · exact absurd hok hne
    · have harg : (if isImageParam then KernelMemRef.imageMem
          else if s.mSvmType ≠ eSvmType.NONE then KernelMemRef.hostBuf
          else KernelMemRef.pinnedMem).deref r.obj =
          KernelArgValue.memHandle (if isImageParam then r.obj.mImageMem else r.obj.mPinnedMem) := by
        cases isImageParam <;> simp [hs, KernelMemRef.deref]
      rw [harg] at ht
      refine ⟨pre, rep, by rw [since_of_trace _ _ _ htr, ht], ?_, hnoarg, hp, ?_, ?_⟩
      · have hmem : (⟨DevCall.clSetKernelArg kernel paramIndex (KernelArgValue.memHandle
            (if isImageParam then r.obj.mImageMem else r.obj.mPinnedMem)), rep⟩ : Event)
            ∈ pre ++ tail := by
          rw [ht]
          exact List.mem_append_right _ (List.mem_singleton_self _)
        exact failStop_success hfs hok _ hmem
      · intro _ hi
        refine ⟨him hi, fun e he => ?_⟩
        cases hc : e.call.isCreateImage
        · rfl
        · exact absurd (hcr e he hc).2.1 hi
      · intro h1 h2
        obtain ⟨e, he, h3, h4⟩ := hex h1 h2
        exact ⟨e, he, h3, hall e he, h4⟩
  · rw [since_of_trace _ _ _ htr]
    intro e he hna hst
    refine ⟨(failStop_failing hfs e he hst).1, ?_⟩
    rcases htail with ⟨ht, _⟩ | ⟨rep, ht, hall, _⟩
    · rw [ht, List.append_nil]
      exact hnoarg
    · rw [ht] at he
      rcases List.mem_append.mp he with h | h
      · exact absurd (hall e h) hst
      · simp only [List.mem_singleton] at h
        rw [h] at hna
        exact absurd hna (by simp [DevCall.isSetKernelArg])

/-- C16 at a concrete input: an image-shaped read-only bind on the mapped sample
object, which has no image yet. -/
theorem C16_witness :
    mappedSample.mSvmType = eSvmType.NONE ∧ mappedSample.mCommandQueues ≠ [] ∧
    ∃ r, gpuMemory.setKernelParam 9 0 true eAccess.READONLY 2 0 mappedSample (Device.steady 64)
        = some r ∧
      (∀ e ∈ r.dev.since (Device.steady 64), e.call.isSetKernelArg = false →
        e.reply.status ≠ CL_SUCCESS →
        r.error = e.reply.status ∧
        ∀ x ∈ r.dev.since (Device.steady 64), x.call.isSetKernelArg = false) :=
  ⟨by decide, by decide,
   (C16_bound_handle 9 0 true eAccess.READONLY 2 0 mappedSample (Device.steady 64) (by decide)
     (by decide) (Or.inr (Or.inr (by decide)))).imp fun _ h => ⟨h.1, h.2.2⟩⟩

/-- C19: for every dimensions triple and every run dimensionality `d` from 1 to
3, an image-shaped bind returns, and every `clCreateImage` call it issues asks
for a 3D image exactly when `d > 2` (a 2D image otherwise), of width
`dimensions[0]`, height `dimensions[1]` if `d > 1` and 1 otherwise, depth
`dimensions[2]` if `d > 2` and 1 otherwise; every buffer-to-image copy it
issues has exactly these extents as its region.  On an object without image
a successful bind has issued the creation, and, when the access is not
`WRITEONLY` and the buffer is latest, the copy. -/
theorem C19_image_extents (kernel paramIndex : Nat) (access : eAccess) (d queueNum : Nat)
    (s : clMemory) (dev : Device) (hq : s.mCommandQueues ≠ []) (hd1 : 1 ≤ d) (hd3 : d ≤ 3) :
    ∃ r, gpuMemory.setKernelParam kernel paramIndex true access d queueNum s dev = some r ∧
      (∀ e ∈ r.dev.since dev, e.call.isCreateImage = true →
        s.mImageMem = 0 ∧
        e.call = DevCall.clCreateImage s.mContext
          (clMemFlagsOf s.mMemFlags ||| CL_MEM_HOST_NO_ACCESS) CL_RGBA CL_FLOAT
          (if d > 2 then CL_MEM_OBJECT_IMAGE3D else CL_MEM_OBJECT_IMAGE2D)
          s.mImageDims.1 (if d > 1 then s.mImageDims.2.1 else 1)
          (if d > 2 then s.mImageDims.2.2 else 1)) ∧
      (∀ e ∈ r.dev.since dev, e.call.isCopyBufferToImage = true →
        ∃ q, e.call = DevCall.clEnqueueCopyBufferToImage q s.mPinnedMem r.obj.mImageMem
          (s.mImageDims.1, if d > 1 then s.mImageDims.2.1 else 1,
            if d > 2 then s.mImageDims.2.2 else 1)) ∧
      (r.error = CL_SUCCESS →
        (s.mImageMem = 0 → ∃ e ∈ r.dev.since dev, e.call.isCreateImage = true) ∧
        (access ≠ eAccess.WRITEONLY → s.mMemLatest = eMemLatest.BUFFER →
          ∃ e ∈ r.dev.since dev, e.call.isCopyBufferToImage = true)) ∧
      CL_MEM_OBJECT_IMAGE3D ≠ CL_MEM_OBJECT_IMAGE2D := by
  obtain ⟨r, pre, tail, hr, htr, _, _, _, hcr, hcp, _, htail⟩ :=
    setKernelParam_events kernel paramIndex true access d queueNum s dev hq
      (Or.inr (Or.inr hd3))
  have hreg : bufferToImageRegion s d = (s.mImageDims.1, if d > 1 then s.mImageDims.2.1 else 1,
      if d > 2 then s.mImageDims.2.2 else 1) := by
    have : d > 0 := hd1
    simp [bufferToImageRegion, this]
  have htailKind : ∀ e ∈ tail, e.call.isCreateImage = false ∧ e.call.isCopyBufferToImage = false := by
    intro e he
    rcases htail with ⟨ht, _⟩ | ⟨rep, ht, _⟩
    · rw [ht] at he; exact absurd he (List.not_mem_nil _)
    · rw [ht] at he
      simp only [List.mem_singleton] at he
      subst he
      exact ⟨rfl, rfl⟩
  refine ⟨r, hr, ?_, ?_, fun hok => ?_, by decide⟩
  · rw [since_of_trace _ _ _ htr]
    intro e he hc
    rcases List.mem_append.mp he with h | h
    · obtain ⟨_, h2, h3, _⟩ := hcr e h hc
      exact ⟨h2, h3⟩
    · rw [(htailKind e h).1] at hc
      exact absurd hc (by simp)
  · rw [since_of_trace _ _ _ htr]
    intro e he hc
    rcases List.mem_append.mp he with h | h
    · obtain ⟨_, q, h2⟩ := hcp e h hc
      exact ⟨q, by rw [h2, hreg]⟩
    · rw [(htailKind e h).2] at hc
      exact absurd hc (by simp)
  · rw [since_of_trace _ _ _ htr]
    rcases htail with ⟨_, hne⟩ | ⟨rep, _, _, hex1, hex2⟩
    · exact absurd hok hne
    · refine ⟨fun hi => ?_, fun ha hb => ?_⟩
      · obtain ⟨e, he, h1, _⟩ := hex1 rfl hi
        exact ⟨e, List.mem_append_left _ he, by rw [h1]; rfl⟩
      · obtain ⟨e, he, h1⟩ := hex2 rfl ha hb
        exact ⟨e, List.mem_append_left _ he, h1⟩

/-- C19 at a concrete input: a two-dimensional read-only image bind on the mapped
sample object, of dimensions 4 by 4. -/
theorem C19_witness :
    mappedSample.mCommandQueues ≠ [] ∧ 1 ≤ 2 ∧ 2 ≤ 3 ∧
    ∃ r, gpuMemory.setKernelParam 9 0 true eAccess.READONLY 2 0 mappedSample (Device.steady 64)
        = some r ∧
      (∀ e ∈ r.dev.since (Device.steady 64), e.call.isCopyBufferToImage = true →
        ∃ q, e.call = DevCall.clEnqueueCopyBufferToImage q mappedSample.mPinnedMem r.obj.mImageMem
          (mappedSample.mImageDims.1,
            if 2 > 1 then mappedSample.mImageDims.2.1 else 1,
            if 2 > 2 then mappedSample.mImageDims.2.2 else 1)) :=
  ⟨by decide, by decide, by decide,
   (C19_image_extents 9 0 eAccess.READONLY 2 0 mappedSample (Device.steady 64) (by decide)
     (by decide) (by decide)).imp fun _ h => ⟨h.1, h.2.2.1⟩⟩

/-- C17, as the code has it: a linear-buffer-shaped `getKernelMem` on an object
with a command queue returns, and it issues an image-to-buffer copy if and only
if an image allocation exists, the latest representation is `IMAGE`, and the
three image-extent queries made first all succeed.  When it succeeds from such
a state the copy was issued and the latest representation is `SAME`; when it
fails the latest representation is unchanged; and when no image exists or the
latest representation is not `IMAGE` nothing is issued and the object is
unchanged. -/
theorem C17_copy_iff_queries_succeed (numDims : Nat) (access : eAccess) (isSVM : Bool)
    (queueNum : Nat) (s : clMemory) (dev : Device) (hq : s.mCommandQueues ≠ []) :
    ∃ k, getKernelMem numDims false access isSVM queueNum s dev = some k ∧
      ((∃ c ∈ k.dev.callsSince dev, c.isCopyImageToBuffer = true) ↔
        (s.mImageMem ≠ 0 ∧ s.mMemLatest = eMemLatest.IMAGE ∧
          (dev.replies 0).status = CL_SUCCESS ∧ (dev.replies 1).status = CL_SUCCESS ∧
          (dev.replies 2).status = CL_SUCCESS)) ∧
      (s.mImageMem ≠ 0 → s.mMemLatest = eMemLatest.IMAGE → k.error = CL_SUCCESS →
        k.obj.mMemLatest = eMemLatest.SAME ∧
        ∃ c ∈ k.dev.callsSince dev, c.isCopyImageToBuffer = true) ∧
      (k.error ≠ CL_SUCCESS → k.obj.mMemLatest = s.mMemLatest) ∧
      (¬ (s.mImageMem ≠ 0 ∧ s.mMemLatest = eMemLatest.IMAGE) →
        k.obj = s ∧ k.dev.callsSince dev = [] ∧ k.error = CL_SUCCESS) := by
  by_cases hc : s.mImageMem ≠ 0 ∧ s.mMemLatest = eMemLatest.IMAGE
  swap
  · refine ⟨_, getKernelMem_linear_nocopy numDims access isSVM queueNum s dev hc, ?_, ?_, ?_, ?_⟩
    · simp only [Device.callsSince, since_self, List.map_nil, List.not_mem_nil, false_and,
        exists_false, false_iff]
      exact fun h => hc ⟨h.1, h.2.1⟩
    · exact fun h1 h2 => absurd ⟨h1, h2⟩ hc
    · exact fun h => absurd rfl h
    · exact fun _ => ⟨rfl, by simp [Device.callsSince, since_self], rfl⟩
  obtain ⟨hi, hl⟩ := hc
  obtain ⟨q, hq1⟩ := getCommandQueue_some s queueNum hq
  obtain ⟨c, n, hcp, hn1, hn4, hd, hpre, herr, hok, hbad⟩ :=
    copyImageToBuffer_spec queueNum s dev q hi hq1
  have hk := getKernelMem_linear_copy numDims access isSVM queueNum s dev c hi hl hcp
  have hcalls : c.dev.callsSince dev = (copyImageCalls q s dev).take n := by
    rw [hd, issueAll_callsSince]
  have hmem : (∃ x ∈ (copyImageCalls q s dev).take n, x.isCopyImageToBuffer = true) ↔ n = 4 := by
    have h : n = 1 ∨ n = 2 ∨ n = 3 ∨ n = 4 := by omega
    rcases h with h | h | h | h <;> subst h <;>
      simp [copyImageCalls, DevCall.isCopyImageToBuffer]
  have hn : n = 4 ↔ ((dev.replies 0).status = CL_SUCCESS ∧ (dev.replies 1).status = CL_SUCCESS ∧
      (dev.replies 2).status = CL_SUCCESS) := by
    constructor
    · intro h
      subst h
      exact ⟨hpre 0 (by omega), hpre 1 (by omega), hpre 2 (by omega)⟩
    · rintro ⟨h0, h1, h2⟩
      by_contra hne
      have h : n = 1 ∨ n = 2 ∨ n = 3 := by omega
      have he : c.error = CL_SUCCESS := by
        rw [herr]
        rcases h with h | h | h <;> subst h <;> assumption
      exact hne (hok he).1
  by_cases he : c.error = CL_SUCCESS
  · rw [if_neg (not_not.mpr he)] at hk
    refine ⟨_, hk, ?_, ?_, ?_, ?_⟩
    · show (∃ x ∈ c.dev.callsSince dev, _) ↔ _
      rw [hcalls, hmem, hn]
      exact ⟨fun h => ⟨hi, hl, h⟩, fun h => h.2.2⟩
    · intro _ _ _
      refine ⟨?_, ?_⟩
      · show c.obj.mMemLatest = _
        rw [(hok he).2]
      · show ∃ x ∈ c.dev.callsSince dev, _
        rw [hcalls, hmem]
        exact (hok he).1
    · exact fun h => absurd rfl h
    · exact fun h => absurd ⟨hi, hl⟩ h
  · rw [if_pos he] at hk
    refine ⟨_, hk, ?_, ?_, ?_, ?_⟩
    · show (∃ x ∈ c.dev.callsSince dev, _) ↔ _
      rw [hcalls, hmem, hn]
      exact ⟨fun h => ⟨hi, hl, h⟩, fun h => h.2.2⟩
    · exact fun _ _ h => absurd h he
    · intro _
      show c.obj.mMemLatest = _
      rw [hbad he]
    · exact fun h => absurd ⟨hi, hl⟩ h

/-- C17 at a concrete input: the sample object whose image exists and is the
latest representation, asked for its linear buffer on the steady device.  The
image-to-buffer copy is issued, the call succeeds and the latest
representation becomes `SAME`. -/
theorem C17_witness :
    imageLatestSample.mCommandQueues ≠ [] ∧
    imageLatestSample.mImageMem ≠ 0 ∧ imageLatestSample.mMemLatest = eMemLatest.IMAGE ∧
    ∃ k, getKernelMem 2 false eAccess.READONLY false 0 imageLatestSample (Device.steady 64)
        = some k ∧
      (∃ c ∈ k.dev.callsSince (Device.steady 64), c.isCopyImageToBuffer = true) ∧
      k.error = CL_SUCCESS ∧ k.obj.mMemLatest = eMemLatest.SAME := by
  obtain ⟨k, hk, hiff, hsucc, _⟩ := C17_copy_iff_queries_succeed 2 eAccess.READONLY false 0
    imageLatestSample (Device.steady 64) (by decide)
  have he : (getKernelMem 2 false eAccess.READONLY false 0 imageLatestSample
      (Device.steady 64)).map (fun k => k.error) = some CL_SUCCESS := by
    decide
  rw [hk] at he
  simp only [Option.map_some', Option.some.injEq] at he
  exact ⟨by decide, by decide, by decide, k, hk,
    hiff.mpr ⟨by decide, by decide, by decide, by decide, by decide⟩, he,
    (hsucc (by decide) (by decide) he).1⟩

/-- C17 fails as stated: on the sample object whose image exists and is the
latest representation, a linear-buffer-shaped `getKernelMem` whose first
`clGetImageInfo` query fails issues that query only, and no image-to-buffer
copy. -/
theorem C17_counterexample :
    ((imageScenarioOn (Device.failingAt 5 64)).bind fun sd =>
      (getKernelMem 2 false eAccess.READONLY false 0 sd.1 sd.2).map fun k =>
        (sd.1.mImageMem, sd.1.mMemLatest, k.error, k.dev.callsSince sd.2, k.obj.mMemLatest)) =
    some (64, eMemLatest.IMAGE, CL_OUT_OF_RESOURCES,
      [DevCall.clGetImageInfo 64 CL_IMAGE_WIDTH], eMemLatest.IMAGE) := by
  rfl

end NodenCL
